import Mathlib

/-!
# CloudKitchen browser client: a shallow embedding

The client is JavaScript (React).  Values that cross the network or are read
with dynamic property access are embedded as `JsVal`; an `await` on a request is
embedded by taking the outcome of that request (`Outcome`) as an argument, so
every statement below quantifies over everything the server may answer.  React
state of `FileProvider` is the record `FileState`; everything else a function
does to the outside world is recorded, in program order, in a list of `Effect`.
-/

set_option autoImplicit false

namespace CloudKitchen

/-! ## JavaScript values -/

/-- JSON-like JavaScript values.  Numbers are rationals: a JSON document carries
neither `NaN` nor an infinity, and every finite double is a rational. -/
inductive JsVal where
  | undefined
  | null
  | bool (b : Bool)
  | num (q : ℚ)
  | str (s : String)
  | arr (xs : List JsVal)
  | obj (fields : List (String × JsVal))

namespace JsVal

/-- JavaScript `ToBoolean`. -/
def truthy : JsVal → Bool
  | undefined => false
  | null => false
  | bool b => b
  | num q => decide (q ≠ 0)
  | str s => decide (s ≠ "")
  | arr _ => true
  | obj _ => true

/-- The value `a || b`. -/
def orElse (a b : JsVal) : JsVal := if a.truthy then a else b

/-- A default parameter `x = d`: the default is taken exactly when the argument
is `undefined`. -/
def orDefault (x d : JsVal) : JsVal :=
  match x with
  | undefined => d
  | v => v

/-- Whether a value is `undefined` or `null`. -/
def isNullish : JsVal → Bool
  | undefined => true
  | null => true
  | _ => false

end JsVal

/-- Own-property lookup in an object literal; a missing key reads `undefined`. -/
def lookupField (k : String) : List (String × JsVal) → JsVal
  | [] => JsVal.undefined
  | (k', v) :: rest => if k' = k then v else lookupField k rest

/-- The `TypeError` a failed property read or call throws. -/
def typeError : JsVal := JsVal.obj [("name", JsVal.str "TypeError")]

namespace JsVal

/-- Property read `v.k`.  Reading from `undefined` or `null` throws; the
property names read in this program (`data`, `items`, `is_folder`, ...) are
not defined on primitives or arrays, where the read gives `undefined`. -/
def get (v : JsVal) (k : String) : Except JsVal JsVal :=
  match v with
  | undefined => Except.error typeError
  | null => Except.error typeError
  | obj fs => Except.ok (lookupField k fs)
  | _ => Except.ok undefined

/-- Optional chaining `v?.k`. -/
def optGet (v : JsVal) (k : String) : JsVal :=
  match v with
  | obj fs => lookupField k fs
  | _ => undefined

end JsVal

/-! ## Requests, outcomes, effects -/

/-- The requests of `utils/api.js`, one constructor per `filesAPI` entry, holding
the values that the entry puts in the URL, the query parameters or the body. -/
inductive Request where
  /-- The call `api.post('/api/files/upload', formData, ...)`. -/
  | uploadFile (formData : List (String × JsVal))
  /-- The call `api.get('/api/files/list', { params })`. -/
  | listFiles (params : List (String × JsVal))
  /-- The call `api.get('/api/files/download/<fileId>?user_id=<userId>', ...)`. -/
  | downloadFile (fileId userId : JsVal)
  /-- The call
  `api.delete('/api/files/delete/<fileId>?user_id=<userId>&permanent=<permanent>')`. -/
  | deleteFile (fileId userId permanent : JsVal)
  /-- The call `api.post('/api/files/restore/<fileId>?user_id=<userId>')`. -/
  | restoreFile (fileId userId : JsVal)
  /-- The call `api.post('/api/files/move', { file_id, user_id, target_parent_id })`. -/
  | moveFile (fileId userId targetParentId : JsVal)
  /-- The call `api.put('/api/files/rename/<fileId>', { file_id, user_id, new_name })`. -/
  | renameFile (fileId userId newName : JsVal)
  /-- The call `api.post('/api/files/create-folder', { user_id, name, parent_id })`. -/
  | createFolder (userId name parentId : JsVal)
  /-- The call `api.get('/api/files/search', { params: { user_id, q } })`. -/
  | searchFiles (userId query : JsVal)
  /-- The call `api.get('/api/files/recent', { params: { user_id, limit } })`. -/
  | getRecentFiles (userId limit : JsVal)
  /-- The call `api.post('/api/auth/verify-otp', { email, otp })` of `authAPI`. -/
  | verifyOTP (email otp : JsVal)

/-- What an awaited request settles to: the response object, or the rejection
reason. -/
inductive Outcome where
  | resolve (response : JsVal)
  | reject (error : JsVal)

/-- Observable actions other than updates of the `FileProvider` state. -/
inductive Effect where
  | request (r : Request)
  | toastSuccess (msg : String)
  | toastError (msg : JsVal)
  | consoleLog (label : String) (v : JsVal)
  | consoleError (label : String) (v : JsVal)
  /-- The call `localStorage.removeItem(key)`. -/
  | removeItem (key : String)
  /-- The assignment `window.location.href = href`. -/
  | redirect (href : String)
  /-- The temporary `<a href=blob download=filename>` that is clicked and removed. -/
  | saveBlob (data filename : JsVal)
  /-- The call `setAnchorEl(null)` of `handleMenuClose`. -/
  | closeMenu
  /-- The calls `setShowDeleteDialog(shown)` and `setShowRestoreDialog(shown)`
  of `TrashPage`, told apart by `dialog`. -/
  | setDialog (dialog : String) (shown : Bool)
  /-- The call `localStorage.setItem(key, value)`; for the key `user` the value
  is kept as it is before `JSON.stringify`. -/
  | setItem (key : String) (value : JsVal)
  /-- The call `navigate(path)` of the router. -/
  | navigate (path : String)
  /-- The call `document.getElementById(elementId)?.focus()`: the element, when
  the page has it, takes the focus. -/
  | focus (elementId : String)

namespace Effect

/-- Any request at all. -/
def isRequest : Effect → Bool
  | request _ => true
  | _ => false

/-- A request to `/api/files/list`. -/
def isListRequest : Effect → Bool
  | request (Request.listFiles _) => true
  | _ => false

/-- A request to `/api/files/search`. -/
def isSearchRequest : Effect → Bool
  | request (Request.searchFiles _ _) => true
  | _ => false

/-- A request to `/api/files/delete/...`. -/
def isDeleteRequest : Effect → Bool
  | request (Request.deleteFile _ _ _) => true
  | _ => false

/-- A request to `/api/files/download/...`. -/
def isDownloadRequest : Effect → Bool
  | request (Request.downloadFile _ _) => true
  | _ => false

/-- A request to `/api/files/rename/...`. -/
def isRenameRequest : Effect → Bool
  | request (Request.renameFile _ _ _) => true
  | _ => false

end Effect

/-! ## `utils/api.js` -/

namespace filesAPI

/-- `listFiles: (params) => api.get('/api/files/list', { params })`. -/
def listFiles (params : List (String × JsVal)) : Request := Request.listFiles params

/-- `downloadFile: (fileId, userId) => api.get(...)`. -/
def downloadFile (fileId userId : JsVal) : Request := Request.downloadFile fileId userId

/-- `deleteFile: (fileId, userId, permanent = false) => api.delete(...)`. -/
def deleteFile (fileId userId permanent : JsVal) : Request :=
  Request.deleteFile fileId userId (permanent.orDefault (JsVal.bool false))

/-- `restoreFile: (fileId, userId) => api.post(...)`. -/
def restoreFile (fileId userId : JsVal) : Request := Request.restoreFile fileId userId

/-- `moveFile: (fileId, userId, targetParentId) => api.post(...)`. -/
def moveFile (fileId userId targetParentId : JsVal) : Request :=
  Request.moveFile fileId userId targetParentId

/-- `renameFile: (fileId, userId, newName) => api.put(...)`. -/
def renameFile (fileId userId newName : JsVal) : Request :=
  Request.renameFile fileId userId newName

/-- `createFolder: (userId, name, parentId = null) => api.post(...)`. -/
def createFolder (userId name parentId : JsVal) : Request :=
  Request.createFolder userId name (parentId.orDefault JsVal.null)

/-- `searchFiles: (userId, query) => api.get(...)`. -/
def searchFiles (userId query : JsVal) : Request := Request.searchFiles userId query

/-- `getRecentFiles: (userId, limit = 20) => api.get(...)`. -/
def getRecentFiles (userId limit : JsVal) : Request :=
  Request.getRecentFiles userId (limit.orDefault (JsVal.num 20))

/-- `uploadFile: (formData) => api.post('/api/files/upload', formData, ...)`. -/
def uploadFile (formData : List (String × JsVal)) : Request := Request.uploadFile formData

end filesAPI

namespace authAPI

/-- `verifyOTP: (email, otp) => api.post('/api/auth/verify-otp', { email, otp })`. -/
def verifyOTP (email otp : JsVal) : Request := Request.verifyOTP email otp

end authAPI

/-- Strict equality `v === n` against a number literal, as `switch`/`case` uses. -/
def strictEqNum (v : JsVal) (n : ℚ) : Bool :=
  match v with
  | JsVal.num q => decide (q = n)
  | _ => false

/-- Strict equality `s !== v` negated: `v` is the very string `s`. -/
def strictEqStr (s : String) (v : JsVal) : Bool :=
  match v with
  | JsVal.str t => decide (s = t)
  | _ => false

/-- The rejection handler of `api.interceptors.response.use`: the effects it
performs and the promise it returns (a throw inside the handler rejects with
the thrown value). -/
def responseErrorInterceptor (error : JsVal) : List Effect × Outcome :=
  match error.get "response" with
  | Except.error thrown => ([], Outcome.reject thrown)
  | Except.ok response =>
    if response.truthy then
      match response.get "status" with
      | Except.error thrown => ([], Outcome.reject thrown)
      | Except.ok status =>
        if strictEqNum status 401 then
          ([Effect.removeItem "token", Effect.removeItem "user", Effect.redirect "/login"],
            Outcome.reject error)
        else if strictEqNum status 413 then
          ([Effect.toastError (JsVal.str "File too large. Please choose a smaller file.")],
            Outcome.reject error)
        else if strictEqNum status 500 then
          ([Effect.toastError (JsVal.str "Server error. Please try again later.")],
            Outcome.reject error)
        else
          match response.get "data" with
          | Except.error thrown => ([], Outcome.reject thrown)
          | Except.ok data =>
            if (data.optGet "error").truthy then
              match data.get "error" with
              | Except.error thrown => ([], Outcome.reject thrown)
              | Except.ok msg => ([Effect.toastError msg], Outcome.reject error)
            else ([], Outcome.reject error)
    else
      match error.get "request" with
      | Except.error thrown => ([], Outcome.reject thrown)
      | Except.ok req =>
        if req.truthy then
          ([Effect.toastError (JsVal.str "Network error. Please check your connection.")],
            Outcome.reject error)
        else ([], Outcome.reject error)

/-! ## `contexts/FileContext.js` -/

/-- The `useState` cells of `FileProvider`.  `selectedItems` is the `Set` in
insertion order. -/
structure FileState where
  files : List JsVal
  folders : List JsVal
  currentFolder : JsVal
  loading : Bool
  viewMode : String
  searchQuery : String
  selectedItems : List JsVal
  storageInfo : JsVal

/-- The initial values passed to `useState`. -/
def FileState.initial : FileState where
  files := []
  folders := []
  currentFolder := JsVal.null
  loading := false
  viewMode := "grid"
  searchQuery := ""
  selectedItems := []
  storageInfo := JsVal.null

/-- One run of an `async` function of the provider: the state its setters
leave, the effects in program order, and what the returned promise holds. -/
structure Run (α : Type) where
  state : FileState
  trace : List Effect
  value : α

/-- `Array.prototype.filter` with a callback that may throw: the first throw
aborts the whole filter. -/
def filterE (p : JsVal → Except JsVal Bool) : List JsVal → Except JsVal (List JsVal)
  | [] => Except.ok []
  | x :: rest =>
    match p x with
    | Except.error thrown => Except.error thrown
    | Except.ok keep =>
      match filterE p rest with
      | Except.error thrown => Except.error thrown
      | Except.ok kept => Except.ok (if keep then x :: kept else kept)

/-- The callback `item => item.is_folder`, up to `ToBoolean`. -/
def isFolderItem (item : JsVal) : Except JsVal Bool :=
  match item.get "is_folder" with
  | Except.error thrown => Except.error thrown
  | Except.ok v => Except.ok v.truthy

/-- The callback `item => !item.is_folder`. -/
def isFileItem (item : JsVal) : Except JsVal Bool :=
  match item.get "is_folder" with
  | Except.error thrown => Except.error thrown
  | Except.ok v => Except.ok (!v.truthy)

/-- The receiver of `.filter(...)`: only an array has the method, anything else
throws a `TypeError`. -/
def asArray : JsVal → Except JsVal (List JsVal)
  | JsVal.arr xs => Except.ok xs
  | _ => Except.error typeError

/-- The two statements
`const fileItems = items.filter(item => !item.is_folder);`
`const folderItems = items.filter(item => item.is_folder);`
for `items = listed || []`. -/
def splitItems (listed : JsVal) : Except JsVal (List JsVal × List JsVal) :=
  match asArray (listed.orElse (JsVal.arr [])) with
  | Except.error thrown => Except.error thrown
  | Except.ok items =>
    match filterE isFileItem items with
    | Except.error thrown => Except.error thrown
    | Except.ok fileItems =>
      match filterE isFolderItem items with
      | Except.error thrown => Except.error thrown
      | Except.ok folderItems => Except.ok (fileItems, folderItems)

/-- The `try` block of `fetchFiles` after the `await`: what it reads from the
response before the first setter runs. -/
def readListing (response : JsVal) : Except JsVal (List JsVal × List JsVal × JsVal) :=
  match response.get "data" with
  | Except.error thrown => Except.error thrown
  | Except.ok data =>
    match data.get "items" with
    | Except.error thrown => Except.error thrown
    | Except.ok listed =>
      match splitItems listed with
      | Except.error thrown => Except.error thrown
      | Except.ok (fileItems, folderItems) =>
        match data.get "storage_info" with
        | Except.error thrown => Except.error thrown
        | Except.ok storage => Except.ok (fileItems, folderItems, storage)

/-- The `params` object of `fetchFiles`. -/
def listParams (userId parentId showTrashed : JsVal) : List (String × JsVal) :=
  [("user_id", userId), ("parent_id", parentId)] ++
    (if showTrashed.truthy then [("trashed", JsVal.bool true)] else [])

/-- The `catch`/`finally` of `fetchFiles`. -/
def fetchFailed (st : FileState) (req : Effect) (error : JsVal) : Run JsVal where
  state := { st with loading := false }
  trace := [req, Effect.toastError (JsVal.str "Failed to load files"),
    Effect.consoleError "Error fetching files:" error]
  value := JsVal.null

/-- `fetchFiles(userId, parentId = null, showTrashed = false)`; `reply` is what
`await filesAPI.listFiles(params)` settles to. -/
def fetchFiles (st : FileState) (userId parentId showTrashed : JsVal) (reply : Outcome) :
    Run JsVal :=
  if !userId.truthy then { state := st, trace := [], value := JsVal.undefined }
  else
    let parentId := parentId.orDefault JsVal.null
    let showTrashed := showTrashed.orDefault (JsVal.bool false)
    let req := Effect.request (filesAPI.listFiles (listParams userId parentId showTrashed))
    match reply with
    | Outcome.reject error => fetchFailed st req error
    | Outcome.resolve response =>
      match readListing response with
      | Except.error thrown => fetchFailed st req thrown
      | Except.ok (fileItems, folderItems, storage) =>
        { state := { st with
            files := fileItems, folders := folderItems, storageInfo := storage,
            currentFolder := parentId, loading := false }
          trace := [req]
          value := JsVal.obj [("files", JsVal.arr fileItems),
            ("folders", JsVal.arr folderItems), ("storage", storage)] }

/-- JavaScript `WhiteSpace` and `LineTerminator` code points, the ones
`String.prototype.trim` strips. -/
def isJsWhitespace (c : Char) : Bool :=
  c.toNat ∈ [0x9, 0xA, 0xB, 0xC, 0xD, 0x20, 0xA0, 0x1680, 0x2000, 0x2001, 0x2002, 0x2003,
    0x2004, 0x2005, 0x2006, 0x2007, 0x2008, 0x2009, 0x200A, 0x2028, 0x2029, 0x202F, 0x205F,
    0x3000, 0xFEFF]

/-- `String.prototype.trim` on the characters of a string. -/
def jsTrim (cs : List Char) : List Char :=
  ((cs.dropWhile isJsWhitespace).reverse.dropWhile isJsWhitespace).reverse

/-- The `try` block of `searchFiles` after the `await`. -/
def readResults (response : JsVal) : Except JsVal (List JsVal × List JsVal) :=
  match response.get "data" with
  | Except.error thrown => Except.error thrown
  | Except.ok data =>
    match data.get "results" with
    | Except.error thrown => Except.error thrown
    | Except.ok listed => splitItems listed

/-- The `catch`/`finally` of `searchFiles`. -/
def searchFailed (st : FileState) (req : Effect) (error : JsVal) : Run Unit where
  state := { st with loading := false }
  trace := [req, Effect.toastError (JsVal.str "Search failed"),
    Effect.consoleError "Error searching files:" error]
  value := ()

/-- `searchFiles(userId, query)`.  `listReply` is what the list request of the
blank-query branch settles to, `searchReply` what the search request does. -/
def searchFiles (st : FileState) (userId : JsVal) (query : String)
    (listReply searchReply : Outcome) : Run Unit :=
  if jsTrim query.data = [] then
    let r := fetchFiles st userId st.currentFolder JsVal.undefined listReply
    { state := r.state, trace := r.trace, value := () }
  else
    let req := Effect.request (filesAPI.searchFiles userId (JsVal.str query))
    match searchReply with
    | Outcome.reject error => searchFailed st req error
    | Outcome.resolve response =>
      match readResults response with
      | Except.error thrown => searchFailed st req thrown
      | Except.ok (fileItems, folderItems) =>
        { state := { st with
            files := fileItems, folders := folderItems, searchQuery := query,
            loading := false }
          trace := [req]
          value := () }

/-- The object an operation of the provider returns: `success`, and `data` or
`error` when present (`undefined` otherwise). -/
structure OpResult where
  success : Bool
  data : JsVal
  error : JsVal

/-- The `catch` block shared by the six operations:
`return { success: false, error: error.response?.data?.error || fallback }`.
Reading `.response` from a nullish `error` throws, which rejects the promise. -/
def failureResult (error : JsVal) (fallback : String) : Except JsVal OpResult :=
  match error.get "response" with
  | Except.error thrown => Except.error thrown
  | Except.ok response =>
    Except.ok
      { success := false
        data := JsVal.undefined
        error := ((response.optGet "data").optGet "error").orElse (JsVal.str fallback) }

/-- The result `{ success: true }`. -/
def successResult : OpResult where
  success := true
  data := JsVal.undefined
  error := JsVal.undefined

/-- The `FormData` built by `uploadFile`. -/
def uploadForm (file userId parentId : JsVal) : List (String × JsVal) :=
  [("file", file), ("user_id", userId)] ++
    (if parentId.truthy then [("parent_id", parentId)] else [])

/-- `uploadFile(file, userId, parentId = null)`. -/
def uploadFile (st : FileState) (file userId parentId : JsVal) (reply listReply : Outcome) :
    Run (Except JsVal OpResult) :=
  let parentId := parentId.orDefault JsVal.null
  let req := Effect.request (filesAPI.uploadFile (uploadForm file userId parentId))
  match reply with
  | Outcome.reject error =>
    { state := st, trace := [req], value := failureResult error "Upload failed" }
  | Outcome.resolve response =>
    let r := fetchFiles st userId parentId JsVal.undefined listReply
    { state := r.state
      trace := [req, Effect.toastSuccess "File uploaded successfully!"] ++ r.trace
      value :=
        match response.get "data" with
        | Except.error thrown => failureResult thrown "Upload failed"
        | Except.ok data =>
          Except.ok { success := true, data := data, error := JsVal.undefined } }

/-- `createFolder(userId, name, parentId = null)`. -/
def createFolder (st : FileState) (userId name parentId : JsVal) (reply listReply : Outcome) :
    Run (Except JsVal OpResult) :=
  let parentId := parentId.orDefault JsVal.null
  let req := Effect.request (filesAPI.createFolder userId name parentId)
  match reply with
  | Outcome.reject error =>
    { state := st, trace := [req], value := failureResult error "Failed to create folder" }
  | Outcome.resolve response =>
    let r := fetchFiles st userId parentId JsVal.undefined listReply
    { state := r.state
      trace := [req, Effect.toastSuccess "Folder created successfully!"] ++ r.trace
      value :=
        match response.get "data" with
        | Except.error thrown => failureResult thrown "Failed to create folder"
        | Except.ok data =>
          Except.ok { success := true, data := data, error := JsVal.undefined } }

/-- `deleteFile(fileId, userId, permanent = false)`. -/
def deleteFile (st : FileState) (fileId userId permanent : JsVal) (reply listReply : Outcome) :
    Run (Except JsVal OpResult) :=
  let permanent := permanent.orDefault (JsVal.bool false)
  let req := Effect.request (filesAPI.deleteFile fileId userId permanent)
  match reply with
  | Outcome.reject error =>
    { state := st, trace := [req], value := failureResult error "Delete failed" }
  | Outcome.resolve _ =>
    let r := fetchFiles st userId st.currentFolder JsVal.undefined listReply
    { state := { r.state with selectedItems := [] }
      trace := [req, Effect.toastSuccess
        (if permanent.truthy then "File deleted successfully!"
          else "File moved to trash successfully!")] ++ r.trace
      value := Except.ok successResult }

/-- `restoreFile(fileId, userId)`. -/
def restoreFile (st : FileState) (fileId userId : JsVal) (reply listReply : Outcome) :
    Run (Except JsVal OpResult) :=
  let req := Effect.request (filesAPI.restoreFile fileId userId)
  match reply with
  | Outcome.reject error =>
    { state := st, trace := [req], value := failureResult error "Restore failed" }
  | Outcome.resolve _ =>
    let r := fetchFiles st userId st.currentFolder JsVal.undefined listReply
    { state := r.state
      trace := [req, Effect.toastSuccess "File restored successfully!"] ++ r.trace
      value := Except.ok successResult }

/-- `moveFile(fileId, userId, targetParentId)`. -/
def moveFile (st : FileState) (fileId userId targetParentId : JsVal)
    (reply listReply : Outcome) : Run (Except JsVal OpResult) :=
  let req := Effect.request (filesAPI.moveFile fileId userId targetParentId)
  match reply with
  | Outcome.reject error =>
    { state := st, trace := [req], value := failureResult error "Move failed" }
  | Outcome.resolve _ =>
    let r := fetchFiles st userId st.currentFolder JsVal.undefined listReply
    { state := r.state
      trace := [req, Effect.toastSuccess "File moved successfully!"] ++ r.trace
      value := Except.ok successResult }

/-- `renameFile(fileId, userId, newName)`. -/
def renameFile (st : FileState) (fileId userId newName : JsVal) (reply listReply : Outcome) :
    Run (Except JsVal OpResult) :=
  let req := Effect.request (filesAPI.renameFile fileId userId newName)
  match reply with
  | Outcome.reject error =>
    { state := st, trace := [req], value := failureResult error "Rename failed" }
  | Outcome.resolve _ =>
    let r := fetchFiles st userId st.currentFolder JsVal.undefined listReply
    { state := r.state
      trace := [req, Effect.toastSuccess "File renamed successfully!"] ++ r.trace
      value := Except.ok successResult }

/-- The `catch` of `downloadFile`. -/
def downloadFailed (req : Effect) (error : JsVal) : List Effect :=
  [req, Effect.toastError (JsVal.str "Download failed"),
    Effect.consoleError "Error downloading file:" error]

/-- `downloadFile(fileId, userId, filename)`: it touches no provider state, so
only its effects are returned. -/
def downloadFile (fileId userId filename : JsVal) (reply : Outcome) : List Effect :=
  let req := Effect.request (filesAPI.downloadFile fileId userId)
  match reply with
  | Outcome.reject error => downloadFailed req error
  | Outcome.resolve response =>
    match response.get "data" with
    | Except.error thrown => downloadFailed req thrown
    | Except.ok data =>
      [req, Effect.saveBlob data filename, Effect.toastSuccess "Download started!"]

/-- `SameValueZero`, the key comparison of a JavaScript `Set`, on primitive
values.  Arrays and objects are compared by identity, which this embedding does
not track: two of them never count as the same key.  The keys of the selection
are item ids, which are numbers or strings. -/
def sameValueZero : JsVal → JsVal → Bool
  | JsVal.undefined, JsVal.undefined => true
  | JsVal.null, JsVal.null => true
  | JsVal.bool a, JsVal.bool b => decide (a = b)
  | JsVal.num a, JsVal.num b => decide (a = b)
  | JsVal.str a, JsVal.str b => decide (a = b)
  | _, _ => false

/-- `set.has(x)`; a `Set` is the list of its keys in insertion order. -/
def setHas (set : List JsVal) (x : JsVal) : Bool := set.any (fun y => sameValueZero y x)

/-- `set.delete(x)`. -/
def setDelete (set : List JsVal) (x : JsVal) : List JsVal :=
  set.filter (fun y => !sameValueZero y x)

/-- `set.add(x)`. -/
def setAdd (set : List JsVal) (x : JsVal) : List JsVal :=
  if setHas set x then set else set ++ [x]

/-- `toggleSelection(itemId)` called from the render that saw the state `st`:
it copies the `selectedItems` of that render, flips `itemId` in the copy and
stores the copy with `setSelectedItems`. -/
def toggleSelection (st : FileState) (itemId : JsVal) : FileState :=
  let newSelected := st.selectedItems
  { st with
    selectedItems :=
      if setHas newSelected itemId then setDelete newSelected itemId
      else setAdd newSelected itemId }

/-- `clearSelection()`: `setSelectedItems(new Set())`. -/
def clearSelection (st : FileState) : FileState := { st with selectedItems := [] }

/-- The `Set` objects alive, by reference: what a variable such as
`selectedItems` holds is the index of a cell, and `add` and `delete` change the
keys of that cell in place. -/
structure SetHeap where
  cells : List (List JsVal)

/-- The keys of the `Set` behind a reference. -/
def SetHeap.read (heap : SetHeap) (ref : Nat) : List JsVal := (heap.cells.get? ref).getD []

/-- `new Set(keys)`, for keys taken from a `Set`: a fresh object with these
keys, and the reference to it. -/
def SetHeap.alloc (heap : SetHeap) (keys : List JsVal) : SetHeap × Nat :=
  ({ cells := heap.cells ++ [keys] }, heap.cells.length)

/-- A mutation of the `Set` behind a reference to the given keys. -/
def SetHeap.write (heap : SetHeap) (ref : Nat) (keys : List JsVal) : SetHeap :=
  { cells := heap.cells.set ref keys }

/-- `toggleSelection(itemId)` on references: `new Set(selectedItems)` makes a
copy, `delete` or `add` mutates the copy, and the reference handed to
`setSelectedItems`, the second component, is the copy. -/
def toggleSelectionRef (heap : SetHeap) (selectedItems : Nat) (itemId : JsVal) :
    SetHeap × Nat :=
  let copied := heap.alloc (heap.read selectedItems)
  let newSelected := copied.2
  if setHas (copied.1.read newSelected) itemId then
    (copied.1.write newSelected (setDelete (copied.1.read newSelected) itemId), newSelected)
  else
    (copied.1.write newSelected (setAdd (copied.1.read newSelected) itemId), newSelected)

/-- `array.map(f)` for a callback that may throw. -/
def mapE (f : JsVal → Except JsVal JsVal) : List JsVal → Except JsVal (List JsVal)
  | [] => Except.ok []
  | x :: rest =>
    match f x with
    | Except.error thrown => Except.error thrown
    | Except.ok y =>
      match mapE f rest with
      | Except.error thrown => Except.error thrown
      | Except.ok ys => Except.ok (y :: ys)

/-- `new Set(array)`: the elements are added in order. -/
def newSet (elements : List JsVal) : List JsVal := elements.foldl setAdd []

/-- `selectAll()`: the ids of `[...files, ...folders]`, each read with
`item.id`, become the selection. -/
def selectAll (st : FileState) : Except JsVal FileState :=
  match mapE (fun item => item.get "id") (st.files ++ st.folders) with
  | Except.error thrown => Except.error thrown
  | Except.ok allIds => Except.ok { st with selectedItems := newSet allIds }

/-! ## Components

The answers of `window.confirm` and `prompt` are inputs of the handlers.  A
handler that throws (its promise rejects) has value `Except.error`. -/

namespace FileCard

/-- `handleDownload` of `FileCard`. -/
def handleDownload (st : FileState) (file user : JsVal) (reply : Outcome) :
    Run (Except JsVal Unit) :=
  match file.get "is_folder" with
  | Except.error thrown => { state := st, trace := [], value := Except.error thrown }
  | Except.ok isFolder =>
    if !isFolder.truthy then
      match file.get "id", user.get "id", file.get "original_filename" with
      | Except.ok fileId, Except.ok userId, Except.ok filename =>
        { state := st
          trace := downloadFile fileId userId filename reply ++ [Effect.closeMenu]
          value := Except.ok () }
      | Except.error thrown, _, _ => { state := st, trace := [], value := Except.error thrown }
      | _, Except.error thrown, _ => { state := st, trace := [], value := Except.error thrown }
      | _, _, Except.error thrown => { state := st, trace := [], value := Except.error thrown }
    else { state := st, trace := [Effect.closeMenu], value := Except.ok () }

/-- `handleDelete` of `FileCard`; `confirmed` is the answer of `window.confirm`. -/
def handleDelete (st : FileState) (file user : JsVal) (inTrash confirmed : Bool)
    (reply listReply : Outcome) : Run (Except JsVal Unit) :=
  if confirmed then
    match file.get "id", user.get "id" with
    | Except.ok fileId, Except.ok userId =>
      let r := deleteFile st fileId userId (JsVal.bool inTrash) reply listReply
      match r.value with
      | Except.error thrown =>
        { state := r.state, trace := r.trace, value := Except.error thrown }
      | Except.ok _ =>
        { state := r.state, trace := r.trace ++ [Effect.closeMenu], value := Except.ok () }
    | Except.error thrown, _ => { state := st, trace := [], value := Except.error thrown }
    | _, Except.error thrown => { state := st, trace := [], value := Except.error thrown }
  else { state := st, trace := [Effect.closeMenu], value := Except.ok () }

/-- `handleRename` of `FileCard`; `newName` is the answer of `prompt` (`none`
when the prompt is cancelled). -/
def handleRename (st : FileState) (file : JsVal) (newName : Option String) :
    Run (Except JsVal Unit) :=
  match file.get "original_filename" with
  | Except.error thrown => { state := st, trace := [], value := Except.error thrown }
  | Except.ok current =>
    match newName with
    | none => { state := st, trace := [Effect.closeMenu], value := Except.ok () }
    | some name =>
      if (JsVal.str name).truthy && !strictEqStr name current then
        { state := st
          trace := [Effect.consoleLog "Rename to:" (JsVal.str name), Effect.closeMenu]
          value := Except.ok () }
      else { state := st, trace := [Effect.closeMenu], value := Except.ok () }

end FileCard

namespace FileList

/-- `handleDownload` of `FileList`. -/
def handleDownload (st : FileState) (item user : JsVal) (reply : Outcome) :
    Run (Except JsVal Unit) :=
  match item.get "is_folder" with
  | Except.error thrown => { state := st, trace := [], value := Except.error thrown }
  | Except.ok isFolder =>
    if !isFolder.truthy then
      match item.get "id", user.get "id", item.get "original_filename" with
      | Except.ok fileId, Except.ok userId, Except.ok filename =>
        { state := st
          trace := downloadFile fileId userId filename reply
          value := Except.ok () }
      | Except.error thrown, _, _ => { state := st, trace := [], value := Except.error thrown }
      | _, Except.error thrown, _ => { state := st, trace := [], value := Except.error thrown }
      | _, _, Except.error thrown => { state := st, trace := [], value := Except.error thrown }
    else { state := st, trace := [], value := Except.ok () }

end FileList

namespace TopBar

/-- `handleSearch` of `TopBar`; `value` is `e.target.value`. -/
def handleSearch (st : FileState) (user : JsVal) (value : String)
    (listReply searchReply : Outcome) : Run Unit :=
  if (user.optGet "id").truthy then
    match user.get "id" with
    | Except.error _ => { state := st, trace := [], value := () }
    | Except.ok userId => searchFiles st userId value listReply searchReply
  else { state := st, trace := [], value := () }

end TopBar

namespace Sidebar

/-- The `value` prop of the storage `LinearProgress`:
`storageInfo?.used_percentage || 0`. -/
def progressValue (storageInfo : JsVal) : JsVal :=
  (storageInfo.optGet "used_percentage").orElse (JsVal.num 0)

end Sidebar

namespace TrashPage

/-- `fetchTrashedFiles`: `await fetchFiles(user.id, null, true)`. -/
def fetchTrashedFiles (st : FileState) (user : JsVal) (reply : Outcome) :
    Run (Except JsVal Unit) :=
  match user.get "id" with
  | Except.error thrown => { state := st, trace := [], value := Except.error thrown }
  | Except.ok userId =>
    let r := fetchFiles st userId JsVal.null (JsVal.bool true) reply
    { state := r.state, trace := r.trace, value := Except.ok () }

/-- The list `trashedItems = [...folders, ...files]`. -/
def trashedItems (st : FileState) : List JsVal := st.folders ++ st.files

end TrashPage

namespace RecentPage

/-- The `useState` cells of `RecentPage` that `fetchRecentFiles` writes. -/
structure State where
  recentFiles : JsVal
  loading : Bool

/-- The `try` block of `fetchRecentFiles`: the request it builds. -/
def recentRequest (user : JsVal) : Except JsVal Request :=
  match user.get "id" with
  | Except.error thrown => Except.error thrown
  | Except.ok userId => Except.ok (filesAPI.getRecentFiles userId (JsVal.num 50))

/-- The `catch`/`finally` of `fetchRecentFiles`. -/
def recentFailed (st : State) (sent : List Effect) (error : JsVal) : State × List Effect :=
  ({ st with loading := false },
    sent ++ [Effect.toastError (JsVal.str "Failed to load recent files"),
      Effect.consoleError "Error fetching recent files:" error])

/-- `fetchRecentFiles` of `RecentPage`. -/
def fetchRecentFiles (st : State) (user : JsVal) (reply : Outcome) : State × List Effect :=
  match recentRequest user with
  | Except.error thrown => recentFailed st [] thrown
  | Except.ok req =>
    match reply with
    | Outcome.reject error => recentFailed st [Effect.request req] error
    | Outcome.resolve response =>
      match response.get "data" with
      | Except.error thrown => recentFailed st [Effect.request req] thrown
      | Except.ok data =>
        match data.get "files" with
        | Except.error thrown => recentFailed st [Effect.request req] thrown
        | Except.ok files =>
          ({ recentFiles := files.orElse (JsVal.arr []), loading := false },
            [Effect.request req])

/-- The cards the page renders, one per element of `recentFiles.map(...)`;
`none` when `recentFiles` is not an array and rendering throws. -/
def shownEntries (st : State) : Option (List JsVal) :=
  match st.recentFiles with
  | JsVal.arr xs => some xs
  | _ => none

end RecentPage

namespace FileList

/-- The loop `items.forEach(item => ...)` of the header checkbox.  With
`whenSelected = true` it is the loop under `// Deselect all`, which calls
`toggleSelection(item.id)` when `selectedItems.has(item.id)`; with
`whenSelected = false` it is the loop under `// Select all`, which calls it when
`!selectedItems.has(item.id)`.  The handler, `selectedItems` and
`toggleSelection` all belong to the render that saw `st`, so every call starts
from `st.selectedItems`; `cur` is what the calls so far have stored. -/
def forEachToggle (st : FileState) (whenSelected : Bool) :
    List JsVal → FileState → Run (Except JsVal Unit)
  | [], cur => { state := cur, trace := [], value := Except.ok () }
  | item :: rest, cur =>
    match item.get "id" with
    | Except.error thrown => { state := cur, trace := [], value := Except.error thrown }
    | Except.ok itemId =>
      if setHas st.selectedItems itemId = whenSelected then
        forEachToggle st whenSelected rest (toggleSelection st itemId)
      else forEachToggle st whenSelected rest cur

/-- The `onChange` of the header checkbox of `FileList`. -/
def handleHeaderChange (st : FileState) (items : List JsVal) : Run (Except JsVal Unit) :=
  if st.selectedItems.length = items.length then forEachToggle st true items st
  else forEachToggle st false items st

end FileList

namespace FileUpload

/-- One entry of the upload queue, as `onDrop` builds it. -/
structure Entry where
  file : JsVal
  id : String
  name : JsVal
  size : JsVal
  status : String
  progress : Nat
  error : JsVal

/-- The `useState` cells of `FileUpload`; `progress` maps entry ids to
percentages. -/
structure State where
  files : List Entry
  uploading : Bool
  progress : List (String × Nat)

/-- What one run of `handleUpload` leaves: the cells, the effects of the
handler itself, and whether its promise resolves. -/
structure Run where
  state : State
  trace : List Effect
  value : Except JsVal Unit

/-- The entry `onDrop` builds for an accepted file. -/
def newEntry (file : JsVal) (id : String) : Entry where
  file := file
  id := id
  name := file.optGet "name"
  size := file.optGet "size"
  status := "pending"
  progress := 0
  error := JsVal.null

/-- The updater `prev => prev.map(f => f.id === id ? { ...f, status } : f)`. -/
def setStatus (id status : String) (files : List Entry) : List Entry :=
  files.map (fun f => if f.id = id then { f with status := status } else f)

/-- The updater of the `catch` block:
`prev => prev.map(f => f.id === id ? { ...f, status: 'error', error } : f)`. -/
def setFailed (id : String) (message : JsVal) (files : List Entry) : List Entry :=
  files.map (fun f => if f.id = id then { f with status := "error", error := message } else f)

/-- The updater `prev => ({ ...prev, [id]: value })`. -/
def setProgressOf (id : String) (value : Nat) (progress : List (String × Nat)) :
    List (String × Nat) :=
  (id, value) :: progress.filter (fun kv => kv.1 ≠ id)

/-- What the expression `new Error(result.error)` throws.  In `FileUpload.jsx`
the name `Error` is the icon imported from `@mui/icons-material`, a component
object and not a constructor, so the expression throws a `TypeError` and never
looks at its argument.  The engine words the message as
`<callee> is not a constructor`; the callee is kept as the source writes it. -/
def notAConstructor : JsVal :=
  JsVal.obj [("name", JsVal.str "TypeError"),
    ("message", JsVal.str "Error is not a constructor")]

/-- The `catch (error)` block of the callback, on the cells `cur`: the entry
gets the status `error` and the text `error.message`.  Reading `.message` from
`null` or `undefined` throws, which rejects the callback. -/
def uploadCaught (fileObj : Entry) (cur : State) (error : JsVal) :
    State × Except JsVal Unit :=
  match error.get "message" with
  | Except.error rethrown => (cur, Except.error rethrown)
  | Except.ok message =>
    ({ cur with files := setFailed fileObj.id message cur.files }, Except.ok ())

/-- The `async (fileObj) => ...` callback of `handleUpload` for one pending
entry, run to completion on the cells `cur`; `result` is what
`await uploadFile(fileObj.file, user.id, currentFolder)` settles to.  The ticks
of the simulated progress timer are not modelled: they only write `progress`,
which is set to 100 after the upload.  For a result without `success` the
statement `throw new Error(result.error)` throws the `TypeError` of
`notAConstructor`, which the `catch` block receives.  The value is an error when
the callback itself rejects. -/
def uploadOne (result : Except JsVal OpResult) (fileObj : Entry) (cur : State) :
    State × Except JsVal Unit :=
  let started := { cur with files := setStatus fileObj.id "uploading" cur.files }
  match result with
  | Except.error thrown => uploadCaught fileObj started thrown
  | Except.ok res =>
    let done := { started with progress := setProgressOf fileObj.id 100 started.progress }
    if res.success then
      ({ done with files := setStatus fileObj.id "success" done.files }, Except.ok ())
    else uploadCaught fileObj done notAConstructor

/-- The callbacks of all pending entries and `Promise.all` over them.  The
uploads run concurrently and every callback updates the cells through
functional updates on its own entry id; here they complete in the order of the
queue.  The value is the first rejection, if any. -/
def uploadAll (result : Entry → Except JsVal OpResult) :
    List Entry → State → State × Except JsVal Unit
  | [], cur => (cur, Except.ok ())
  | fileObj :: rest, cur =>
    let one := uploadOne (result fileObj) fileObj cur
    let others := uploadAll result rest one.1
    (others.1,
      match one.2 with
      | Except.error thrown => Except.error thrown
      | Except.ok _ => others.2)

/-- The lines under `// Show summary`, reading the `files` of the render that
saw `st`. -/
def summary (st : State) : List Effect :=
  let successful := (st.files.filter (fun f => f.status = "success")).length
  let failed := (st.files.filter (fun f => f.status = "error")).length
  (if successful > 0 then
      [Effect.toastSuccess ("Successfully uploaded " ++ toString successful ++ " file(s)")]
    else []) ++
  (if failed > 0 then
      [Effect.toastError (JsVal.str ("Failed to upload " ++ toString failed ++ " file(s)"))]
    else [])

/-- `handleUpload` of `FileUpload`, from the render that saw `st`; `result`
gives, for each pending entry, what its awaited `uploadFile` call settles to
(the effects of that call are those of `uploadFile` and are not repeated in the
trace). -/
def handleUpload (st : State) (user : JsVal) (result : Entry → Except JsVal OpResult) : Run :=
  if !(user.optGet "id").truthy || st.files.length = 0 then
    { state := st, trace := [], value := Except.ok () }
  else
    let pending := st.files.filter (fun f => f.status = "pending")
    let ran := uploadAll result pending { st with uploading := true }
    match ran.2 with
    | Except.error thrown => { state := ran.1, trace := [], value := Except.error thrown }
    | Except.ok _ =>
      { state := { ran.1 with uploading := false }
        trace := summary st
        value := Except.ok () }

/-- `onDrop(acceptedFiles)`; each accepted file comes with the id drawn for it
by `Math.random().toString(36).substr(2, 9)`. -/
def onDrop (st : State) (acceptedFiles : List (JsVal × String)) : State :=
  { st with files := st.files ++ acceptedFiles.map (fun a => newEntry a.1 a.2) }

/-- `removeFile(id)`. -/
def removeFile (st : State) (id : String) : State :=
  { st with files := st.files.filter (fun f => f.id ≠ id) }

/-- `clearAll()`. -/
def clearAll (st : State) : State := { st with files := [] }

/-- The calls of `setFiles` in the component: the one of `onDrop`, the three of
the callback of `handleUpload`, the one of `removeFile` and the one of
`clearAll`. -/
inductive Update where
  | onDrop (acceptedFiles : List (JsVal × String))
  | uploading (id : String)
  | success (id : String)
  | failed (id : String) (message : JsVal)
  | removeFile (id : String)
  | clearAll

/-- The queue after one call of `setFiles`. -/
def Update.apply (files : List Entry) : Update → List Entry
  | Update.onDrop acceptedFiles => files ++ acceptedFiles.map (fun a => newEntry a.1 a.2)
  | Update.uploading id => setStatus id "uploading" files
  | Update.success id => setStatus id "success" files
  | Update.failed id message => setFailed id message files
  | Update.removeFile id => files.filter (fun f => f.id ≠ id)
  | Update.clearAll => []

end FileUpload

namespace TrashPage

/-- The promises `Array.from(selectedItems).map(itemId => op(itemId, ...))`
and `Promise.all` over them.  The calls run concurrently; here each is run to
completion in the order of the selection, which is the only schedule when one
item is selected.  Every call comes from the render that saw `st`, so it reads
the `currentFolder` of that render.  The value is the first rejection, if
any. -/
def runEach (st : FileState) (op : FileState → JsVal → Run (Except JsVal OpResult)) :
    List JsVal → FileState → Run (Except JsVal Unit)
  | [], cur => { state := cur, trace := [], value := Except.ok () }
  | itemId :: rest, cur =>
    let one := op { cur with currentFolder := st.currentFolder } itemId
    let others := runEach st op rest one.state
    { state := others.state
      trace := one.trace ++ others.trace
      value :=
        match one.value with
        | Except.error thrown => Except.error thrown
        | Except.ok _ => others.value }

/-- `handlePermanentDelete` of `TrashPage`; `replies` gives, for each selected
id, what its delete request and the list request after it settle to. -/
def handlePermanentDelete (st : FileState) (user : JsVal)
    (replies : JsVal → Outcome × Outcome) : Run (Except JsVal Unit) :=
  match st.selectedItems, user.get "id" with
  | _ :: _, Except.error thrown => { state := st, trace := [], value := Except.error thrown }
  | selected, userId =>
    let uid := match userId with
      | Except.ok v => v
      | Except.error _ => JsVal.undefined
    let ran := runEach st
      (fun cur itemId =>
        deleteFile cur itemId uid (JsVal.bool true) (replies itemId).1 (replies itemId).2)
      selected st
    match ran.value with
    | Except.error thrown => { state := ran.state, trace := ran.trace, value := Except.error thrown }
    | Except.ok _ =>
      { state := clearSelection ran.state
        trace := ran.trace ++
          [Effect.setDialog "delete" false, Effect.toastSuccess "Files permanently deleted"]
        value := Except.ok () }

/-- `handleRestoreSelected` of `TrashPage`; `replies` gives, for each selected
id, what its restore request and the list request after it settle to. -/
def handleRestoreSelected (st : FileState) (user : JsVal)
    (replies : JsVal → Outcome × Outcome) : Run (Except JsVal Unit) :=
  match st.selectedItems, user.get "id" with
  | _ :: _, Except.error thrown => { state := st, trace := [], value := Except.error thrown }
  | selected, userId =>
    let uid := match userId with
      | Except.ok v => v
      | Except.error _ => JsVal.undefined
    let ran := runEach st
      (fun cur itemId => restoreFile cur itemId uid (replies itemId).1 (replies itemId).2)
      selected st
    match ran.value with
    | Except.error thrown => { state := ran.state, trace := ran.trace, value := Except.error thrown }
    | Except.ok _ =>
      { state := clearSelection ran.state
        trace := ran.trace ++
          [Effect.setDialog "restore" false, Effect.toastSuccess "Files restored"]
        value := Except.ok () }

/-- The `checked` property of the select-all checkbox:
`selectedItems.size === trashedItems.length`. -/
def selectAllChecked (st : FileState) : Bool :=
  decide (st.selectedItems.length = (trashedItems st).length)

/-- The `onChange` of the select-all checkbox, in the render that saw `st`. -/
def handleSelectAllChange (st : FileState) : Except JsVal FileState :=
  if st.selectedItems.length = (trashedItems st).length then Except.ok (clearSelection st)
  else selectAll st

end TrashPage

/-! ## Signing in -/

namespace AuthContext

/-- The `useState` cells of `AuthProvider`. -/
structure State where
  user : JsVal
  loading : Bool
  isAuthenticated : Bool

/-- What a call of `login` leaves: the cells, the effects, and the result the
promise resolves to (an error when it rejects). -/
structure Run where
  state : State
  trace : List Effect
  value : Except JsVal OpResult

/-- `login(email, otp)`; `reply` is what `await authAPI.verifyOTP(email, otp)`
settles to.  The first statement after the `await` reads `response.data.user`;
once it has run, `data` is an object and no later statement throws. -/
def login (st : State) (email otp : JsVal) (reply : Outcome) : Run :=
  let req := Effect.request (authAPI.verifyOTP email otp)
  match reply with
  | Outcome.reject error =>
    { state := st, trace := [req], value := failureResult error "Login failed" }
  | Outcome.resolve response =>
    match response.get "data" with
    | Except.error thrown =>
      { state := st, trace := [req], value := failureResult thrown "Login failed" }
    | Except.ok data =>
      match data.get "user" with
      | Except.error thrown =>
        { state := st, trace := [req], value := failureResult thrown "Login failed" }
      | Except.ok user =>
        { state := { st with user := user, isAuthenticated := true }
          trace := [req, Effect.setItem "user" user,
            Effect.setItem "token" (data.optGet "token"),
            Effect.toastSuccess "Login successful!"]
          value := Except.ok { success := true, data := data, error := JsVal.undefined } }

end AuthContext

namespace LoginPage

/-- The `useState` cells of `LoginPage`. -/
structure State where
  step : Nat
  email : String
  otp : List String
  otpSent : Bool
  countdown : Nat
  error : JsVal

/-- The cells at the first render. -/
def State.initial : State where
  step := 1
  email := ""
  otp := ["", "", "", "", "", ""]
  otpSent := false
  countdown := 0
  error := JsVal.str ""

/-- What a handler of the page leaves: the cells of the page and of the
provider, the effects, and whether its promise resolves. -/
structure Run where
  state : State
  auth : AuthContext.State
  trace : List Effect
  value : Except JsVal Unit

/-- The class `\d` of a regular expression: the ten characters from `0` to
`9`. -/
def isDigitChar (c : Char) : Bool := decide (48 ≤ c.toNat ∧ c.toNat ≤ 57)

/-- The test `/^\d?$/.test(value)`: the whole value is empty or one digit. -/
def isOtpInput (value : String) : Bool :=
  match value.data with
  | [] => true
  | [c] => isDigitChar c
  | _ => false

/-- The assignment `array[index] = value` on a copy of the array.  An index
past the end leaves holes before it, which `join` reads as empty strings; they
are kept as empty strings. -/
def arraySet (array : List String) (index : Nat) (value : String) : List String :=
  if index < array.length then array.set index value
  else array ++ List.replicate (index - array.length) "" ++ [value]

/-- `handleOtpChange(index, value)`, from the render that saw `st`. -/
def handleOtpChange (st : State) (index : Nat) (value : String) : State × List Effect :=
  if !isOtpInput value then (st, [])
  else
    let newOtp := arraySet st.otp index value
    ({ st with otp := newOtp },
      if value ≠ "" ∧ index < 5 then [Effect.focus ("otp-" ++ toString (index + 1))] else [])

/-- The number of UTF-16 code units of a character. -/
def utf16Size (c : Char) : Nat := if c.toNat < 65536 then 1 else 2

/-- The `length` of a string: its number of UTF-16 code units. -/
def jsLength (s : String) : Nat := (s.data.map utf16Size).sum

/-- `handleVerifyOTP`, from the render that saw `st`; `reply` is what the
request of `login` settles to. -/
def handleVerifyOTP (st : State) (auth : AuthContext.State) (reply : Outcome) : Run :=
  let otpString := String.join st.otp
  if jsLength otpString ≠ 6 then
    { state := { st with error := JsVal.str "Please enter the 6-digit OTP" }
      auth := auth
      trace := []
      value := Except.ok () }
  else
    let r := AuthContext.login auth (JsVal.str st.email) (JsVal.str otpString) reply
    match r.value with
    | Except.error thrown =>
      { state := { st with error := JsVal.str "" }
        auth := r.state
        trace := r.trace
        value := Except.error thrown }
    | Except.ok result =>
      if result.success then
        { state := { st with error := JsVal.str "" }
          auth := r.state
          trace := r.trace ++ [Effect.toastSuccess "Login successful!", Effect.navigate "/drive"]
          value := Except.ok () }
      else
        { state := { st with error := result.error, otp := ["", "", "", "", "", ""] }
          auth := r.state
          trace := r.trace ++ [Effect.focus "otp-0"]
          value := Except.ok () }

end LoginPage

/-! ## The storage service behind the API

The server that answers the requests of `utils/api.js` is not among the client
sources.  Its tree store, quota accountant, trash lifecycle, move validator,
listings and upload coordinator are modelled here from sections 3, 4 and 7 of
the specification.  The content store is left out: a content reference occurs in
no operation below except as the byte count that a finished write reports. -/

namespace Service

/-- Modelled from the spec: the error taxonomy of the absent server (section 7),
with `ParentNotFound` of `CreateNode` (section 4.1). -/
inductive ServiceError where
  | notFound
  | nameConflict
  | cyclicMove
  | quotaExceeded
  | invalidState
  | contentWriteFailed
  | parentNotFound
  deriving DecidableEq

/-- Modelled from the spec: a node of the absent server's tree store (section
3); `parentId = none` is the root sentinel, `trashedAt = none` is the state
`Active`.  `content_ref` and `file_type` are left out. -/
structure Node where
  id : Nat
  ownerId : Nat
  parentId : Option Nat
  name : String
  isFolder : Bool
  sizeBytes : Nat
  createdAt : Nat
  updatedAt : Nat
  trashedAt : Option Nat
  deriving DecidableEq

/-- Modelled from the spec: the state of the absent server: the nodes that are
not purged, the storage account of every user (`used_bytes`, `limit_bytes`),
the next unused id and the ids that were purged (ids are never reused). -/
structure Store where
  nodes : List Node
  usedBytes : Nat → Nat
  limitBytes : Nat → Nat
  nextId : Nat
  purged : List Nat

/-- Modelled from the spec: the absent server before any request, with the
given limit for every user. -/
def empty (limitBytes : Nat → Nat) : Store where
  nodes := []
  usedBytes := fun _ => 0
  limitBytes := limitBytes
  nextId := 1
  purged := []

/-- Modelled from the spec: the absent tree store's lookup of a node by id. -/
def nodeById (s : Store) (id : Nat) : Option Node :=
  s.nodes.find? (fun n => decide (n.id = id))

/-- Modelled from the spec: the absent tree store's lookup of a node by id for
a caller; a node of another owner is not found (section 7, `NotFound`). -/
def ownedNode (s : Store) (owner id : Nat) : Option Node :=
  s.nodes.find? (fun n => decide (n.id = id ∧ n.ownerId = owner))

/-- Modelled from the spec: the parent pointer of the node with the given id in
the absent tree store. -/
def parentOf (s : Store) (id : Nat) : Option Nat :=
  (nodeById s id).bind (fun n => n.parentId)

/-- Modelled from the spec: the walk over ancestors of the absent move
validator (section 4.2): the ids met from `cur` upwards, at most `fuel` of
them. -/
def ancestorChain (s : Store) : Nat → Option Nat → List Nat
  | 0, _ => []
  | _ + 1, none => []
  | fuel + 1, some p => p :: ancestorChain s fuel (parentOf s p)

/-- Modelled from the spec: the ancestors of a node with parent pointer
`parent` in the absent tree store; a walk of as many steps as there are nodes
meets them all. -/
def ancestorsFrom (s : Store) (parent : Option Nat) : List Nat :=
  ancestorChain s s.nodes.length parent

/-- Modelled from the spec: whether the node with this id is in state
`Trashed` in the absent tree store. -/
def trashedById (s : Store) (id : Nat) : Bool :=
  match nodeById s id with
  | some m => m.trashedAt.isSome
  | none => false

/-- Modelled from the spec: visibility in the absent server (section 3,
invariant 5): a node counts as trashed when it is trashed itself or one of its
ancestors is. -/
def consideredTrashed (s : Store) (n : Node) : Bool :=
  n.trashedAt.isSome || (ancestorsFrom s n.parentId).any (trashedById s)

/-- Modelled from the spec: the answer of the absent server to a list request
(section 6): the nodes of the owner under the given parent, the active ones or,
with the trashed flag, the trashed ones. -/
def listNodes (s : Store) (owner : Nat) (parent : Option Nat) (trashed : Bool) : List Node :=
  s.nodes.filter (fun n =>
    decide (n.ownerId = owner ∧ n.parentId = parent) && (consideredTrashed s n == trashed))

/-- Modelled from the spec: the name match of the absent search index (section
4.5): substring, case-insensitive; the empty query matches every name. -/
def nameMatches (query name : String) : Bool :=
  decide (query.toLower.data <:+: name.toLower.data)

/-- Modelled from the spec: `Search` of the absent server (section 4.5), over
the active nodes of the owner. -/
def search (s : Store) (owner : Nat) (query : String) : List Node :=
  s.nodes.filter (fun n =>
    decide (n.ownerId = owner) && !consideredTrashed s n && nameMatches query n.name)

/-- Modelled from the spec: `Recent` of the absent server (section 4.5): the
active files of the owner, latest `updated_at` first, truncated to `limit`. -/
def recent (s : Store) (owner limit : Nat) : List Node :=
  ((s.nodes.filter (fun n =>
      decide (n.ownerId = owner) && !n.isFolder && !consideredTrashed s n)).insertionSort
    (fun a b => a.updatedAt ≥ b.updatedAt)).take limit

/-- Modelled from the spec: `Reserve` of the absent quota accountant (section
4.4). -/
def reserve (s : Store) (owner bytes : Nat) : Except ServiceError Store :=
  if s.usedBytes owner + bytes ≤ s.limitBytes owner then
    Except.ok { s with usedBytes := Function.update s.usedBytes owner (s.usedBytes owner + bytes) }
  else Except.error ServiceError.quotaExceeded

/-- Modelled from the spec: the parent check of the absent `CreateNode` and
`Move`: the root, or an existing folder of the owner in state `Active`. -/
def parentValid (s : Store) (owner : Nat) (parent : Option Nat) : Bool :=
  match parent with
  | none => true
  | some p =>
    s.nodes.any (fun m =>
      decide (m.id = p ∧ m.ownerId = owner) && m.isFolder && m.trashedAt.isNone)

/-- Modelled from the spec: the uniqueness check of the absent move validator
(section 4.2): an active sibling with that name exists under the target parent
(case-sensitive); `moving` is the id of the node being renamed or moved, which
is not its own sibling. -/
def nameTaken (s : Store) (owner : Nat) (parent : Option Nat) (name : String)
    (moving : Option Nat) : Bool :=
  s.nodes.any (fun m =>
    decide (m.ownerId = owner ∧ m.parentId = parent ∧ m.name = name ∧ some m.id ≠ moving) &&
      m.trashedAt.isNone)

/-- Modelled from the spec: the cycle check of the absent move validator
(section 4.2): the new parent is the node itself, or the node is among the
ancestors of the new parent. -/
def cyclic (s : Store) (nodeId : Nat) (newParent : Option Nat) : Bool :=
  match newParent with
  | none => false
  | some p => decide (p = nodeId) || decide (nodeId ∈ ancestorsFrom s (parentOf s p))

/-- Modelled from the spec: the commit of a change to one node of the absent
tree store. -/
def updateNode (s : Store) (id : Nat) (f : Node → Node) : Store :=
  { s with nodes := s.nodes.map (fun m => if m.id = id then f m else m) }

/-- Modelled from the spec: the node that `CreateNode` of the absent tree store
inserts: a fresh id, state `Active`, both timestamps set to the time of the
request. -/
def newNode (s : Store) (owner : Nat) (parent : Option Nat) (name : String)
    (isFolder : Bool) (sizeBytes now : Nat) : Node where
  id := s.nextId
  ownerId := owner
  parentId := parent
  name := name
  isFolder := isFolder
  sizeBytes := sizeBytes
  createdAt := now
  updatedAt := now
  trashedAt := none

/-- Modelled from the spec: `CreateNode` of the absent tree store (section
4.1): it validates the parent, then the name, then reserves quota (files only),
then inserts the node under a fresh id, all in one step. -/
def createNode (s : Store) (owner : Nat) (parent : Option Nat) (name : String)
    (isFolder : Bool) (sizeBytes now : Nat) : Store × Except ServiceError Node :=
  if !parentValid s owner parent then (s, Except.error ServiceError.parentNotFound)
  else if nameTaken s owner parent name none then (s, Except.error ServiceError.nameConflict)
  else
    match (if isFolder then Except.ok s else reserve s owner sizeBytes) with
    | Except.error e => (s, Except.error e)
    | Except.ok reserved =>
      let node := newNode s owner parent name isFolder sizeBytes now
      ({ reserved with nodes := s.nodes ++ [node], nextId := s.nextId + 1 }, Except.ok node)

/-- Modelled from the spec: the create-folder request of the absent server
(section 6): a folder has size 0. -/
def createFolder (s : Store) (owner : Nat) (name : String) (parent : Option Nat) (now : Nat) :
    Store × Except ServiceError Node :=
  createNode s owner parent name true 0 now

/-- Modelled from the spec: `Upload` of the absent upload coordinator (section
4.6).  `written` is what streaming the content into the content store gives:
the actual byte count, or `none` when the write fails.  Step 1 checks the quota
with the declared size, step 3 checks it again with the actual size when that
differs from the declared one, step 4 is `CreateNode` with the actual size. -/
def upload (s : Store) (owner : Nat) (parent : Option Nat) (name : String)
    (declaredSize : Nat) (written : Option Nat) (now : Nat) :
    Store × Except ServiceError Node :=
  if s.usedBytes owner + declaredSize > s.limitBytes owner then
    (s, Except.error ServiceError.quotaExceeded)
  else
    match written with
    | none => (s, Except.error ServiceError.contentWriteFailed)
    | some actual =>
      if actual ≠ declaredSize ∧ s.usedBytes owner + actual > s.limitBytes owner then
        (s, Except.error ServiceError.quotaExceeded)
      else createNode s owner parent name false actual now

/-- Modelled from the spec: the change `Rename` of the absent server commits to
a node: the new name, and `updated_at` is bumped. -/
def markRenamed (newName : String) (now : Nat) (m : Node) : Node :=
  { m with name := newName, updatedAt := now }

/-- Modelled from the spec: the change `Move` of the absent server commits to a
node: the new parent, and `updated_at` is bumped. -/
def markMoved (newParent : Option Nat) (now : Nat) (m : Node) : Node :=
  { m with parentId := newParent, updatedAt := now }

/-- Modelled from the spec: `Rename` of the absent tree store (section 4.1). -/
def rename (s : Store) (owner nodeId : Nat) (newName : String) (now : Nat) :
    Store × Except ServiceError Node :=
  match ownedNode s owner nodeId with
  | none => (s, Except.error ServiceError.notFound)
  | some n =>
    if nameTaken s owner n.parentId newName (some nodeId) then
      (s, Except.error ServiceError.nameConflict)
    else
      (updateNode s nodeId (markRenamed newName now), Except.ok (markRenamed newName now n))

/-- Modelled from the spec: `Move` of the absent tree store (sections 4.1 and
4.2).  The cycle check comes first, as section 8 lets a move into the own
subtree always fail with `CyclicMove`; then the new parent is validated, then
the name. -/
def move (s : Store) (owner nodeId : Nat) (newParent : Option Nat) (now : Nat) :
    Store × Except ServiceError Node :=
  match ownedNode s owner nodeId with
  | none => (s, Except.error ServiceError.notFound)
  | some n =>
    if cyclic s nodeId newParent then (s, Except.error ServiceError.cyclicMove)
    else if !parentValid s owner newParent then (s, Except.error ServiceError.notFound)
    else if nameTaken s owner newParent n.name (some nodeId) then
      (s, Except.error ServiceError.nameConflict)
    else
      (updateNode s nodeId (markMoved newParent now), Except.ok (markMoved newParent now n))

/-- Modelled from the spec: the change `Trash` of the absent server commits to
a node: `trashed_at` is set. -/
def markTrashed (now : Nat) (m : Node) : Node := { m with trashedAt := some now }

/-- Modelled from the spec: the change `Restore` of the absent server commits
to a node: `trashed_at` is cleared and `updated_at` is bumped. -/
def markRestored (now : Nat) (m : Node) : Node :=
  { m with trashedAt := none, updatedAt := now }

/-- Modelled from the spec: `Trash` of the absent trash lifecycle manager
(section 4.3): it sets `trashed_at` on the node and on nothing else; quota is
not touched.  Only an `Active` node can be trashed. -/
def trash (s : Store) (owner nodeId now : Nat) : Store × Except ServiceError Unit :=
  match ownedNode s owner nodeId with
  | none => (s, Except.error ServiceError.notFound)
  | some n =>
    if n.trashedAt.isSome then (s, Except.error ServiceError.invalidState)
    else (updateNode s nodeId (markTrashed now), Except.ok ())

/-- Modelled from the spec: `Restore` of the absent trash lifecycle manager
(section 4.3): it clears `trashed_at` and bumps `updated_at`; restoring a node
that is not trashed is `InvalidState`. -/
def restore (s : Store) (owner nodeId now : Nat) : Store × Except ServiceError Unit :=
  match ownedNode s owner nodeId with
  | none => (s, Except.error ServiceError.notFound)
  | some n =>
    if n.trashedAt.isNone then (s, Except.error ServiceError.invalidState)
    else (updateNode s nodeId (markRestored now), Except.ok ())

/-- Modelled from the spec: the nodes a purge of `nodeId` removes from the
absent tree store: the node and its whole subtree. -/
def inSubtree (s : Store) (nodeId : Nat) (m : Node) : Bool :=
  decide (m.id = nodeId) || decide (nodeId ∈ ancestorsFrom s m.parentId)

/-- Modelled from the spec: the bytes of the files of one owner among some
nodes of the absent tree store; folders count 0. -/
def fileBytes (owner : Nat) (nodes : List Node) : Nat :=
  ((nodes.filter (fun m => decide (m.ownerId = owner) && !m.isFolder)).map
    (fun m => m.sizeBytes)).sum

/-- Modelled from the spec: `Purge` of the absent trash lifecycle manager
(section 4.3), legal from `Trashed` and from `Active`: it removes the node and
its whole subtree, releases the bytes of the removed files from the quota of
their owner, and records the removed ids.  Purging an id that is already purged
is a success that changes nothing. -/
def purge (s : Store) (owner nodeId : Nat) : Store × Except ServiceError Unit :=
  if nodeId ∈ s.purged then (s, Except.ok ())
  else
    match ownedNode s owner nodeId with
    | none => (s, Except.error ServiceError.notFound)
    | some _ =>
      ({ nodes := s.nodes.filter (fun m => !inSubtree s nodeId m)
         usedBytes := fun o =>
           s.usedBytes o - fileBytes o (s.nodes.filter (fun m => inSubtree s nodeId m))
         limitBytes := s.limitBytes
         nextId := s.nextId
         purged := s.purged ++ (s.nodes.filter (fun m => inSubtree s nodeId m)).map
           (fun m => m.id) },
        Except.ok ())

/-- Modelled from the spec: `Delete` of the absent tree store (section 4.1),
routed to the trash lifecycle manager by the `permanent` flag. -/
def delete (s : Store) (owner nodeId : Nat) (permanent : Bool) (now : Nat) :
    Store × Except ServiceError Unit :=
  if permanent then purge s owner nodeId else trash s owner nodeId now

/-- Modelled from the spec: the requests that change the absent server. -/
inductive Op where
  | createFolder (owner : Nat) (name : String) (parent : Option Nat) (now : Nat)
  | upload (owner : Nat) (parent : Option Nat) (name : String) (declaredSize : Nat)
      (written : Option Nat) (now : Nat)
  | rename (owner nodeId : Nat) (newName : String) (now : Nat)
  | move (owner nodeId : Nat) (newParent : Option Nat) (now : Nat)
  | trash (owner nodeId now : Nat)
  | restore (owner nodeId now : Nat)
  | purge (owner nodeId : Nat)

/-- Modelled from the spec: the state of the absent server after one request;
a request that fails leaves it as it was. -/
def step (s : Store) : Op → Store
  | Op.createFolder owner name parent now => (createFolder s owner name parent now).1
  | Op.upload owner parent name declaredSize written now =>
    (upload s owner parent name declaredSize written now).1
  | Op.rename owner nodeId newName now => (rename s owner nodeId newName now).1
  | Op.move owner nodeId newParent now => (move s owner nodeId newParent now).1
  | Op.trash owner nodeId now => (trash s owner nodeId now).1
  | Op.restore owner nodeId now => (restore s owner nodeId now).1
  | Op.purge owner nodeId => (purge s owner nodeId).1

/-- Modelled from the spec: the state of the absent server after a sequence of
requests. -/
def run (s : Store) (ops : List Op) : Store := ops.foldl step s

/-- Modelled from the spec: whether a request is a trash request. -/
def Op.isTrash : Op → Bool
  | Op.trash _ _ _ => true
  | _ => false

/-- Modelled from the spec: the sum of `size_bytes` over the active file nodes
of a user in the absent tree store (section 3, invariant 4). -/
def activeFileBytes (s : Store) (owner : Nat) : Nat :=
  fileBytes owner (s.nodes.filter (fun n => !consideredTrashed s n))

/-- Modelled from the spec: `d` is a proper descendant of `f` in the absent
tree store: parent pointers lead from `d` up to `f`. -/
inductive Descends (s : Store) : Nat → Nat → Prop where
  | child (n : Node) (f : Nat) : n ∈ s.nodes → n.parentId = some f → Descends s n.id f
  | above (n : Node) (p f : Nat) : n ∈ s.nodes → n.parentId = some p → Descends s p f →
      Descends s n.id f

/-- Modelled from the spec: the active children of a parent that carry a given
name in the absent tree store (section 3, invariant 3). -/
def activeNamed (s : Store) (owner : Nat) (parent : Option Nat) (name : String) : List Node :=
  s.nodes.filter (fun m =>
    decide (m.ownerId = owner ∧ m.parentId = parent ∧ m.name = name) && m.trashedAt.isNone)

/-- Modelled from the spec: the sum of `size_bytes` over the file nodes of a
user that are trashed, or below a trashed folder, and not purged. -/
def trashedFileBytes (s : Store) (owner : Nat) : Nat :=
  fileBytes owner (s.nodes.filter (fun n => consideredTrashed s n))

/-- Modelled from the spec: the quota counter of every user equals the bytes of
the file nodes of that user that are in the absent tree store. -/
def QuotaExact (s : Store) : Prop := ∀ owner, s.usedBytes owner = fileBytes owner s.nodes

/-- Modelled from the spec: no node of the absent tree store is in state
`Trashed`. -/
def NoneTrashed (s : Store) : Prop := ∀ n ∈ s.nodes, n.trashedAt = none

/-- Modelled from the spec: a purged id is never reused in the absent tree
store (section 3, invariant 6): no node carries a purged id, and every purged
id was handed out before. -/
def PurgedGone (s : Store) : Prop :=
  (∀ n ∈ s.nodes, n.id ∉ s.purged) ∧ ∀ id ∈ s.purged, id < s.nextId

/-- Modelled from the spec: ids identify the nodes of the absent tree store:
no two nodes share one, and none has reached the next unused id. -/
def UniqueIds (s : Store) : Prop :=
  (s.nodes.map (fun n => n.id)).Nodup ∧ ∀ n ∈ s.nodes, n.id < s.nextId

end Service

/-! ## Vocabulary of the statements -/

/-- What both filter callbacks test on an item: `ToBoolean(item.is_folder)`. -/
def hasFolderFlag (item : JsVal) : Bool := (item.optGet "is_folder").truthy

/-- The arrays `files` and `folders` partition `items` by the truthiness of
`is_folder`, keeping the order of `items`. -/
def SplitsByFolderFlag (items files folders : List JsVal) : Prop :=
  folders = items.filter hasFolderFlag ∧
  files = items.filter (fun item => !hasFolderFlag item) ∧
  (∀ item, item ∈ folders ↔ item ∈ items ∧ hasFolderFlag item = true) ∧
  (∀ item, item ∈ files ↔ item ∈ items ∧ hasFolderFlag item = false) ∧
  (∀ item, item ∈ items → (item ∈ files ↔ ¬ item ∈ folders)) ∧
  folders.Sublist items ∧ files.Sublist items ∧
  files.length + folders.length = items.length ∧
  (folders ++ files).Perm items

/-- The result `{ success: false, error }`. -/
def OpResult.failure (error : JsVal) : OpResult where
  success := false
  data := JsVal.undefined
  error := error

/-- The server's own error text in a failure, `error.response?.data?.error`. -/
def serverErrorText (error : JsVal) : JsVal :=
  ((error.optGet "response").optGet "data").optGet "error"

/-- A number between 0 and 100, both included. -/
def inPercentRange (v : JsVal) : Bool :=
  match v with
  | JsVal.num q => decide (0 ≤ q ∧ q ≤ 100)
  | _ => false

/-- Whether an awaited request was answered rather than rejected. -/
def Outcome.isResolved : Outcome → Bool
  | Outcome.resolve _ => true
  | Outcome.reject _ => false

/-- What axios settles a request with is an object: the response, or the
error. -/
def Outcome.isObject : Outcome → Bool
  | Outcome.resolve response => !response.isNullish
  | Outcome.reject error => !error.isNullish

/-- The promise of an operation resolves, with `success = true` exactly when
its own request was answered, and for a rejected request with `success = false`
and a truthy error: the text of the server when the failure carries one, the
fallback text of the operation otherwise. -/
def Settles (value : Except JsVal OpResult) (reply : Outcome) (fallback : String) : Prop :=
  ∃ res, value = Except.ok res ∧
    (res.success = true ↔ reply.isResolved = true) ∧
    ∀ error, reply = Outcome.reject error →
      res.success = false ∧ res.error.truthy = true ∧
      ((serverErrorText error).truthy = true → res.error = serverErrorText error) ∧
      ((serverErrorText error).truthy = false → res.error = JsVal.str fallback)

/-- A list request carries no `trashed` parameter; any other effect passes. -/
def Effect.listsActive : Effect → Bool
  | Effect.request (Request.listFiles params) => params.all (fun kv => decide (kv.1 ≠ "trashed"))
  | _ => true

/-- A primitive value: anything but an array or an object.  Item ids are
numbers or strings. -/
def JsVal.isPrimitive : JsVal → Bool
  | JsVal.arr _ => false
  | JsVal.obj _ => false
  | _ => true

/-- The ids of the loaded items, in the order `[...files, ...folders]`. -/
def loadedIds (st : FileState) : List JsVal :=
  (st.files ++ st.folders).map (fun item => item.optGet "id")

/-- One of the four statuses of a queue entry. -/
def validStatus (status : String) : Bool :=
  decide (status ∈ ["pending", "uploading", "success", "error"])

/-- The entry the callback of `handleUpload` leaves in place of the entry `f`
once the awaited `uploadFile` has settled to `r`: `success` for a result with
`success`; `error` otherwise, with the message of the `TypeError` that
`new Error(result.error)` throws, or with the message of the rejection. -/
def FileUpload.finishWith (r : Except JsVal OpResult) (f : FileUpload.Entry) :
    FileUpload.Entry :=
  match r with
  | Except.error thrown => { f with status := "error", error := thrown.optGet "message" }
  | Except.ok res =>
    if res.success then { f with status := "success" }
    else { f with status := "error", error := FileUpload.notAConstructor.optGet "message" }

/-- A box of the OTP form as it should be: empty, or one decimal digit. -/
def OtpBox (s : String) : Prop :=
  s = "" ∨ ∃ c, c ∈ "0123456789".data ∧ s = String.singleton c

/-- The cells of `LoginPage` after a sequence of `handleOtpChange(index, value)`
calls, each made from the render after the one before. -/
def LoginPage.afterChanges (st : LoginPage.State) (changes : List (Nat × String)) :
    LoginPage.State :=
  changes.foldl (fun cur change => (LoginPage.handleOtpChange cur change.1 change.2).1) st

/-! ## Sample values -/

/-- A folder node as the server lists it. -/
def sampleFolder : JsVal :=
  JsVal.obj [("id", JsVal.num 1), ("is_folder", JsVal.bool true),
    ("original_filename", JsVal.str "docs")]

/-- A file node as the server lists it. -/
def sampleFile : JsVal :=
  JsVal.obj [("id", JsVal.num 2), ("is_folder", JsVal.bool false),
    ("original_filename", JsVal.str "a.txt")]

/-- A logged-in user. -/
def sampleUser : JsVal := JsVal.obj [("id", JsVal.num 7)]

/-- The body of an answer that lists the sample folder and the sample file. -/
def sampleData : JsVal :=
  JsVal.obj [("items", JsVal.arr [sampleFolder, sampleFile]),
    ("results", JsVal.arr [sampleFolder, sampleFile])]

/-- The body of an answer without any item list. -/
def emptyData : JsVal := JsVal.obj []

/-- The rejection of a request that never got an answer (connection lost). -/
def networkError : JsVal := JsVal.obj [("request", JsVal.obj [])]

/-- The rejection of an upload that a proxy refused with status 413 and an
HTML body. -/
def tooLargeError : JsVal :=
  JsVal.obj [("response",
    JsVal.obj [("status", JsVal.num 413), ("data", JsVal.str "<html>413</html>")])]

/-- The rejection of a request the server refused with its own error text. -/
def conflictError : JsVal :=
  JsVal.obj [("response",
    JsVal.obj [("status", JsVal.num 409),
      ("data", JsVal.obj [("error", JsVal.str "File already exists")])])]

/-- An answer to a list request whose storage summary reports 150 percent. -/
def overfullListing : JsVal :=
  JsVal.obj [("data",
    JsVal.obj [("items", JsVal.arr []),
      ("storage_info", JsVal.obj [("used_percentage", JsVal.num 150)])])]

/-- An answer to the recent-files request that holds 51 files. -/
def longRecentAnswer : JsVal :=
  JsVal.obj [("data", JsVal.obj [("files", JsVal.arr (List.replicate 51 sampleFile))])]

/-- A file dropped on the upload dialog, waiting in the queue. -/
def pendingEntry : FileUpload.Entry :=
  FileUpload.newEntry (JsVal.obj [("name", JsVal.str "a.txt"), ("size", JsVal.num 3)]) "k1"

/-- A queue entry that an earlier run of `handleUpload` has uploaded. -/
def uploadedEntry : FileUpload.Entry :=
  { FileUpload.newEntry (JsVal.obj [("name", JsVal.str "b.txt"), ("size", JsVal.num 5)]) "k2"
    with status := "success" }

/-- The provider state with the sample folder and the sample file selected. -/
def bothSelected : FileState :=
  { FileState.initial with selectedItems := [JsVal.num 1, JsVal.num 2] }

/-- The provider state of the trash view with the sample file selected. -/
def fileSelected : FileState :=
  { FileState.initial with selectedItems := [JsVal.num 2] }

/-- The rejection of a request for a file the server does not know. -/
def notFoundError : JsVal :=
  JsVal.obj [("response",
    JsVal.obj [("status", JsVal.num 404),
      ("data", JsVal.obj [("error", JsVal.str "File not found")])])]

/-- The service after user 7 has created folders `A` (id 1) and `B` (id 2) at
the root and moved `A` into `B`. -/
def nestedFolders : Service.Store :=
  Service.run (Service.empty (fun _ => 1000))
    [Service.Op.createFolder 7 "A" none 10, Service.Op.createFolder 7 "B" none 11,
      Service.Op.move 7 1 (some 2) 12]

/-- The folder `A` of `nestedFolders`, inside `B`. -/
def folderA : Service.Node :=
  { id := 1, ownerId := 7, parentId := some 2, name := "A", isFolder := true, sizeBytes := 0,
    createdAt := 10, updatedAt := 12, trashedAt := none }

/-- The folder `B` of `nestedFolders`, at the root. -/
def folderB : Service.Node :=
  { id := 2, ownerId := 7, parentId := none, name := "B", isFolder := true, sizeBytes := 0,
    createdAt := 11, updatedAt := 11, trashedAt := none }

/-- The service after user 7, whose limit is 1000 bytes, has uploaded a file of
600 bytes. -/
def afterFirstUpload : Service.Store :=
  (Service.upload (Service.empty (fun _ => 1000)) 7 none "a.bin" 600 (some 600) 10).1

/-- The service after user 7, whose limit is 1000 bytes, has uploaded a file of
600 bytes and moved it to the trash. -/
def afterUploadAndTrash : Service.Store :=
  Service.run (Service.empty (fun _ => 1000))
    [Service.Op.upload 7 none "a.bin" 600 (some 600) 10, Service.Op.trash 7 1 11]

/-- The provider state of the trash view: the trash listing holds the sample
file, which is selected. -/
def trashView : FileState :=
  { FileState.initial with files := [sampleFile], selectedItems := [JsVal.num 2] }

/-- An answer to a list request for the active items of the root folder: the
sample folder alone. -/
def activeListing : JsVal :=
  JsVal.obj [("data", JsVal.obj [("items", JsVal.arr [sampleFolder])])]

/-- The provider state of a folder view that has loaded the sample file and the
sample folder, with a stale id selected. -/
def loadedFolder : FileState :=
  { FileState.initial with
    files := [sampleFile], folders := [sampleFolder], selectedItems := [JsVal.num 9] }

/-- An upload queue with one entry waiting and one uploaded by an earlier
run. -/
def sampleQueue : FileUpload.State :=
  { files := [pendingEntry, uploadedEntry], uploading := false, progress := [] }

/-- The changes of a user who types 1 and 2, then a letter, which is refused,
then 3, 4, 5 and 6. -/
def typedChanges : List (Nat × String) :=
  [(0, "1"), (1, "2"), (2, "x"), (2, "3"), (3, "4"), (4, "5"), (5, "6")]

/-- The cells of `AuthProvider` before anyone has signed in. -/
def signedOut : AuthContext.State :=
  { user := JsVal.null, loading := false, isAuthenticated := false }

/-! ## Properties -/

/-- Trimming leaves nothing exactly when every character is white space. -/
theorem dropWhile_all_iff (p : Char → Bool) (cs : List Char) :
    (∀ c ∈ cs.dropWhile p, p c = true) ↔ ∀ c ∈ cs, p c = true := by
  induction cs with
  | nil => simp
  | cons c rest ih =>
    by_cases hc : p c = true
    · simp [List.dropWhile_cons, hc, ih]
    · simp [List.dropWhile_cons, hc]

/-- `query.trim()` is the empty string exactly when the query is blank. -/
theorem jsTrim_eq_nil_iff (cs : List Char) :
    jsTrim cs = [] ↔ cs.all isJsWhitespace = true := by
  unfold jsTrim
  rw [List.reverse_eq_nil_iff, List.dropWhile_eq_nil_iff]
  simp only [List.mem_reverse, List.all_eq_true]
  exact dropWhile_all_iff isJsWhitespace cs

/-- The effects of `fetchFiles` for a truthy user id: one list request, then
possibly a toast and a console line, never another request. -/
theorem fetchFiles_requests (st : FileState) (userId parentId showTrashed : JsVal)
    (reply : Outcome) (h : userId.truthy = true) :
    (fetchFiles st userId parentId showTrashed reply).trace.filter Effect.isRequest =
      [Effect.request (Request.listFiles (listParams userId (parentId.orDefault JsVal.null)
        (showTrashed.orDefault (JsVal.bool false))))] := by
  unfold fetchFiles
  simp only [h, Bool.not_true, Bool.false_eq_true, if_false]
  cases reply with
  | reject error => simp [fetchFailed, Effect.isRequest, filesAPI.listFiles]
  | resolve response =>
    cases hr : readListing response with
    | error thrown => simp [hr, fetchFailed, Effect.isRequest, filesAPI.listFiles]
    | ok v =>
      obtain ⟨a, b, c⟩ := v
      simp [hr, Effect.isRequest, filesAPI.listFiles]

/-- A falsy user id makes `fetchFiles` return at once. -/
theorem fetchFiles_no_user (st : FileState) (userId parentId showTrashed : JsVal)
    (reply : Outcome) (h : userId.truthy = false) :
    fetchFiles st userId parentId showTrashed reply =
      { state := st, trace := [], value := JsVal.undefined } := by
  unfold fetchFiles
  simp [h]

/-- The whole trace of `fetchFiles` for a truthy user id: the list request,
alone or followed by the error toast and the console line. -/
theorem fetchFiles_trace (st : FileState) (userId parentId showTrashed : JsVal)
    (reply : Outcome) (h : userId.truthy = true) :
    (fetchFiles st userId parentId showTrashed reply).trace =
        [Effect.request (Request.listFiles (listParams userId (parentId.orDefault JsVal.null)
          (showTrashed.orDefault (JsVal.bool false))))] ∨
      ∃ error, (fetchFiles st userId parentId showTrashed reply).trace =
        [Effect.request (Request.listFiles (listParams userId (parentId.orDefault JsVal.null)
          (showTrashed.orDefault (JsVal.bool false)))),
          Effect.toastError (JsVal.str "Failed to load files"),
          Effect.consoleError "Error fetching files:" error] := by
  unfold fetchFiles
  simp only [h, Bool.not_true, Bool.false_eq_true, if_false]
  cases reply with
  | reject error => exact Or.inr ⟨error, by simp [fetchFailed, filesAPI.listFiles]⟩
  | resolve response =>
    cases hr : readListing response with
    | error thrown => exact Or.inr ⟨thrown, by simp [hr, fetchFailed, filesAPI.listFiles]⟩
    | ok v =>
      obtain ⟨a, b, c⟩ := v
      exact Or.inl (by simp [hr, filesAPI.listFiles])

/-- C8: `fetchFiles` issues no request and changes no state when `userId` is
missing (falsy, the test `!userId`); otherwise it issues exactly one list
request, and no other request, whose parameters carry `user_id` and
`parent_id` (`null` when no parent is given) and carry `trashed` exactly when
`showTrashed` is set, then with the value `true`, never `false`.
`fetchTrashedFiles` of `TrashPage` sends `parent_id = null` and
`trashed = true`. -/
theorem fetchFiles_list_request (st : FileState) (userId parentId showTrashed : JsVal)
    (reply : Outcome) :
    (userId.truthy = false →
      (fetchFiles st userId parentId showTrashed reply).trace = [] ∧
      (fetchFiles st userId parentId showTrashed reply).state = st) ∧
    (userId.truthy = true →
      ∃ params,
        (fetchFiles st userId parentId showTrashed reply).trace.filter Effect.isRequest =
          [Effect.request (Request.listFiles params)] ∧
        (fetchFiles st userId parentId showTrashed reply).trace.countP Effect.isListRequest = 1 ∧
        lookupField "user_id" params = userId ∧
        lookupField "parent_id" params = parentId.orDefault JsVal.null ∧
        ((∃ v, ("trashed", v) ∈ params) ↔
          (showTrashed.orDefault (JsVal.bool false)).truthy = true) ∧
        (∀ v, ("trashed", v) ∈ params → v = JsVal.bool true)) ∧
    (∀ user userId, user.get "id" = Except.ok userId → userId.truthy = true →
      (TrashPage.fetchTrashedFiles st user reply).trace.filter Effect.isRequest =
        [Effect.request (Request.listFiles
          [("user_id", userId), ("parent_id", JsVal.null), ("trashed", JsVal.bool true)])]) := by
  refine ⟨fun h => ?_, fun h => ?_, fun user uid hu h => ?_⟩
  · simp [fetchFiles_no_user st userId parentId showTrashed reply h]
  · refine ⟨listParams userId (parentId.orDefault JsVal.null)
      (showTrashed.orDefault (JsVal.bool false)), ?_, ?_, ?_, ?_, ?_, ?_⟩
    · exact fetchFiles_requests st userId parentId showTrashed reply h
    · rcases fetchFiles_trace st userId parentId showTrashed reply h with ht | ⟨e, ht⟩ <;>
        simp [ht, Effect.isListRequest]
    · simp [listParams, lookupField]
    · simp [listParams, lookupField]
    · cases hs : (showTrashed.orDefault (JsVal.bool false)).truthy <;> simp [listParams, hs]
    · intro v hv
      cases hs : (showTrashed.orDefault (JsVal.bool false)).truthy <;>
        simp [listParams, hs] at hv
      exact hv
  · unfold TrashPage.fetchTrashedFiles
    simp only [hu]
    rw [fetchFiles_requests st uid JsVal.null (JsVal.bool true) reply h]
    simp [listParams, JsVal.orDefault, JsVal.truthy]

/-- C8, at concrete inputs: no user id, and user 7 listing the root. -/
theorem fetchFiles_list_request_witness :
    ((fetchFiles FileState.initial JsVal.undefined JsVal.undefined JsVal.undefined
        (Outcome.reject JsVal.null)).trace = [] ∧
      (fetchFiles FileState.initial JsVal.undefined JsVal.undefined JsVal.undefined
        (Outcome.reject JsVal.null)).state = FileState.initial) ∧
    (∃ params,
      (fetchFiles FileState.initial (JsVal.num 7) JsVal.undefined JsVal.undefined
        (Outcome.reject JsVal.null)).trace.filter Effect.isRequest =
          [Effect.request (Request.listFiles params)] ∧
      (fetchFiles FileState.initial (JsVal.num 7) JsVal.undefined JsVal.undefined
        (Outcome.reject JsVal.null)).trace.countP Effect.isListRequest = 1 ∧
      lookupField "user_id" params = JsVal.num 7 ∧
      lookupField "parent_id" params = JsVal.undefined.orDefault JsVal.null ∧
      ((∃ v, ("trashed", v) ∈ params) ↔
        (JsVal.undefined.orDefault (JsVal.bool false)).truthy = true) ∧
      (∀ v, ("trashed", v) ∈ params → v = JsVal.bool true)) ∧
    (TrashPage.fetchTrashedFiles FileState.initial (JsVal.obj [("id", JsVal.num 7)])
        (Outcome.reject JsVal.null)).trace.filter Effect.isRequest =
      [Effect.request (Request.listFiles
        [("user_id", JsVal.num 7), ("parent_id", JsVal.null), ("trashed", JsVal.bool true)])] :=
  ⟨(fetchFiles_list_request FileState.initial JsVal.undefined JsVal.undefined JsVal.undefined
      (Outcome.reject JsVal.null)).1 rfl,
    (fetchFiles_list_request FileState.initial (JsVal.num 7) JsVal.undefined JsVal.undefined
      (Outcome.reject JsVal.null)).2.1 (by simp [JsVal.truthy]),
    (fetchFiles_list_request FileState.initial (JsVal.num 7) JsVal.undefined JsVal.undefined
      (Outcome.reject JsVal.null)).2.2 (JsVal.obj [("id", JsVal.num 7)]) (JsVal.num 7) rfl
      (by simp [JsVal.truthy])⟩

/-- C1: for every user id and every query that is empty or only white space,
`searchFiles` issues no search request and does what
`fetchFiles(userId, currentFolder)` does (same effects, same state), whose list
request, sent when the user id is truthy, carries the current folder as
`parent_id` and no `trashed` parameter; for every other query it issues exactly
one search request, for that user id and the query as typed, and no list
request.  `handleSearch` of `TopBar` passes the typed value on unchanged when a
user is logged in. -/
theorem searchFiles_blank_reloads (st : FileState) (userId : JsVal) (query : String)
    (listReply searchReply : Outcome) :
    (query.data.all isJsWhitespace = true →
      (searchFiles st userId query listReply searchReply).trace.countP
        Effect.isSearchRequest = 0 ∧
      (searchFiles st userId query listReply searchReply).trace =
        (fetchFiles st userId st.currentFolder JsVal.undefined listReply).trace ∧
      (searchFiles st userId query listReply searchReply).state =
        (fetchFiles st userId st.currentFolder JsVal.undefined listReply).state ∧
      (userId.truthy = true →
        (searchFiles st userId query listReply searchReply).trace.filter Effect.isRequest =
          [Effect.request (Request.listFiles
            [("user_id", userId), ("parent_id", st.currentFolder.orDefault JsVal.null)])])) ∧
    (query.data.all isJsWhitespace = false →
      (searchFiles st userId query listReply searchReply).trace.filter Effect.isRequest =
        [Effect.request (Request.searchFiles userId (JsVal.str query))] ∧
      (searchFiles st userId query listReply searchReply).trace.countP
        Effect.isSearchRequest = 1 ∧
      (searchFiles st userId query listReply searchReply).trace.countP
        Effect.isListRequest = 0) ∧
    (∀ user uid, user.get "id" = Except.ok uid → uid.truthy = true →
      TopBar.handleSearch st user query listReply searchReply =
        searchFiles st uid query listReply searchReply) := by
  refine ⟨fun hq => ?_, fun hq => ?_, fun user uid hu h => ?_⟩
  · have hb : jsTrim query.data = [] := (jsTrim_eq_nil_iff query.data).2 hq
    have hs : searchFiles st userId query listReply searchReply =
        { state := (fetchFiles st userId st.currentFolder JsVal.undefined listReply).state
          trace := (fetchFiles st userId st.currentFolder JsVal.undefined listReply).trace
          value := () } := by
      unfold searchFiles
      simp [hb]
    rw [hs]
    refine ⟨?_, rfl, rfl, fun h => ?_⟩
    · cases hu : userId.truthy with
      | false => simp [fetchFiles_no_user st userId st.currentFolder JsVal.undefined listReply hu]
      | true =>
        rcases fetchFiles_trace st userId st.currentFolder JsVal.undefined listReply hu with
          ht | ⟨e, ht⟩ <;> simp [ht, Effect.isSearchRequest]
    · simp only
      rw [fetchFiles_requests st userId st.currentFolder JsVal.undefined listReply h]
      simp [listParams, JsVal.orDefault, JsVal.truthy]
  · have hb : ¬ jsTrim query.data = [] := by
      intro hnil
      rw [(jsTrim_eq_nil_iff query.data).1 hnil] at hq
      exact Bool.noConfusion hq
    unfold searchFiles
    simp only [hb, if_false]
    cases searchReply with
    | reject error =>
      simp [searchFailed, Effect.isRequest, Effect.isSearchRequest, Effect.isListRequest,
        filesAPI.searchFiles]
    | resolve response =>
      cases hr : readResults response with
      | error thrown =>
        simp [hr, searchFailed, Effect.isRequest, Effect.isSearchRequest,
          Effect.isListRequest, filesAPI.searchFiles]
      | ok v =>
        obtain ⟨a, b⟩ := v
        simp [hr, Effect.isRequest, Effect.isSearchRequest, Effect.isListRequest,
          filesAPI.searchFiles]
  · unfold TopBar.handleSearch
    have : user.optGet "id" = uid := by
      cases user <;> simp [JsVal.get, JsVal.optGet] at hu ⊢
      all_goals exact hu
    simp [this, h, hu]

/-- C1, at concrete inputs: user 7 types two blanks, then `ab`. -/
theorem searchFiles_blank_reloads_witness :
    ((searchFiles FileState.initial (JsVal.num 7) "  " (Outcome.reject JsVal.null)
        (Outcome.reject JsVal.null)).trace.countP Effect.isSearchRequest = 0 ∧
      (searchFiles FileState.initial (JsVal.num 7) "  " (Outcome.reject JsVal.null)
        (Outcome.reject JsVal.null)).trace =
        (fetchFiles FileState.initial (JsVal.num 7) FileState.initial.currentFolder
          JsVal.undefined (Outcome.reject JsVal.null)).trace ∧
      (searchFiles FileState.initial (JsVal.num 7) "  " (Outcome.reject JsVal.null)
        (Outcome.reject JsVal.null)).state =
        (fetchFiles FileState.initial (JsVal.num 7) FileState.initial.currentFolder
          JsVal.undefined (Outcome.reject JsVal.null)).state ∧
      ((JsVal.num 7).truthy = true →
        (searchFiles FileState.initial (JsVal.num 7) "  " (Outcome.reject JsVal.null)
          (Outcome.reject JsVal.null)).trace.filter Effect.isRequest =
          [Effect.request (Request.listFiles
            [("user_id", JsVal.num 7),
              ("parent_id", FileState.initial.currentFolder.orDefault JsVal.null)])])) ∧
    ((searchFiles FileState.initial (JsVal.num 7) "ab" (Outcome.reject JsVal.null)
        (Outcome.reject JsVal.null)).trace.filter Effect.isRequest =
        [Effect.request (Request.searchFiles (JsVal.num 7) (JsVal.str "ab"))] ∧
      (searchFiles FileState.initial (JsVal.num 7) "ab" (Outcome.reject JsVal.null)
        (Outcome.reject JsVal.null)).trace.countP Effect.isSearchRequest = 1 ∧
      (searchFiles FileState.initial (JsVal.num 7) "ab" (Outcome.reject JsVal.null)
        (Outcome.reject JsVal.null)).trace.countP Effect.isListRequest = 0) ∧
    TopBar.handleSearch FileState.initial (JsVal.obj [("id", JsVal.num 7)]) "ab"
        (Outcome.reject JsVal.null) (Outcome.reject JsVal.null) =
      searchFiles FileState.initial (JsVal.num 7) "ab" (Outcome.reject JsVal.null)
        (Outcome.reject JsVal.null) :=
  ⟨(searchFiles_blank_reloads FileState.initial (JsVal.num 7) "  " (Outcome.reject JsVal.null)
      (Outcome.reject JsVal.null)).1 (by decide),
    (searchFiles_blank_reloads FileState.initial (JsVal.num 7) "ab" (Outcome.reject JsVal.null)
      (Outcome.reject JsVal.null)).2.1 (by decide),
    (searchFiles_blank_reloads FileState.initial (JsVal.num 7) "ab" (Outcome.reject JsVal.null)
      (Outcome.reject JsVal.null)).2.2 (JsVal.obj [("id", JsVal.num 7)]) (JsVal.num 7) rfl
      (by simp [JsVal.truthy])⟩

/-- Filtering by a flag and by its negation partitions a list. -/
theorem splitsByFolderFlag_filter (items : List JsVal) :
    SplitsByFolderFlag items (items.filter (fun item => !hasFolderFlag item))
      (items.filter hasFolderFlag) := by
  refine ⟨rfl, rfl, ?_, ?_, ?_, List.filter_sublist _, List.filter_sublist _, ?_, ?_⟩
  · intro item
    simp [List.mem_filter]
  · intro item
    simp [List.mem_filter]
  · intro item hmem
    simp [List.mem_filter, hmem]
  · induction items with
    | nil => simp
    | cons x rest ih =>
      cases hx : hasFolderFlag x <;> simp [List.filter_cons, hx] <;> omega
  · exact List.filter_append_perm hasFolderFlag items

/-- The folder callback does not throw on an item that is not nullish. -/
theorem isFolderItem_eq (item : JsVal) (h : item.isNullish = false) :
    isFolderItem item = Except.ok (hasFolderFlag item) := by
  cases item <;> simp [JsVal.isNullish] at h <;>
    simp [isFolderItem, JsVal.get, hasFolderFlag, JsVal.optGet]

/-- The file callback does not throw on an item that is not nullish. -/
theorem isFileItem_eq (item : JsVal) (h : item.isNullish = false) :
    isFileItem item = Except.ok (!hasFolderFlag item) := by
  cases item <;> simp [JsVal.isNullish] at h <;>
    simp [isFileItem, JsVal.get, hasFolderFlag, JsVal.optGet]

/-- A filter whose callback never throws is the pure filter. -/
theorem filterE_eq_filter (p : JsVal → Except JsVal Bool) (q : JsVal → Bool)
    (items : List JsVal) (h : ∀ item ∈ items, p item = Except.ok (q item)) :
    filterE p items = Except.ok (items.filter q) := by
  induction items with
  | nil => rfl
  | cons x rest ih =>
    have hrest := ih (fun item hi => h item (List.mem_cons_of_mem x hi))
    have hx := h x (List.mem_cons_self x rest)
    cases hq : q x <;> simp [filterE, hx, hrest, hq, List.filter_cons]

/-- On items that are not nullish the folder callback never throws. -/
theorem filterE_isFolderItem (items : List JsVal)
    (h : ∀ item ∈ items, item.isNullish = false) :
    filterE isFolderItem items = Except.ok (items.filter hasFolderFlag) :=
  filterE_eq_filter isFolderItem hasFolderFlag items
    (fun item hi => isFolderItem_eq item (h item hi))

/-- On items that are not nullish the file callback never throws. -/
theorem filterE_isFileItem (items : List JsVal)
    (h : ∀ item ∈ items, item.isNullish = false) :
    filterE isFileItem items = Except.ok (items.filter (fun item => !hasFolderFlag item)) :=
  filterE_eq_filter isFileItem (fun item => !hasFolderFlag item) items
    (fun item hi => isFileItem_eq item (h item hi))

/-- The two filters on an array of items that are not nullish. -/
theorem splitItems_arr (items : List JsVal) (h : ∀ item ∈ items, item.isNullish = false) :
    splitItems (JsVal.arr items) =
      Except.ok (items.filter (fun item => !hasFolderFlag item), items.filter hasFolderFlag) := by
  simp [splitItems, JsVal.orElse, JsVal.truthy, asArray, filterE_isFileItem items h,
    filterE_isFolderItem items h]

/-- A missing (falsy) item list is replaced by the empty array. -/
theorem splitItems_falsy (listed : JsVal) (h : listed.truthy = false) :
    splitItems listed = Except.ok ([], []) := by
  simp [splitItems, JsVal.orElse, h, asArray, filterE]

/-- A value one property can be read from lets every property be read. -/
theorem get_of_get (v : JsVal) (k k' : String) (a : JsVal) (h : v.get k = Except.ok a) :
    v.get k' = Except.ok (v.optGet k') := by
  cases v <;> simp [JsVal.get, JsVal.optGet] at h ⊢

/-- What `fetchFiles` stores once the listing has been read. -/
theorem fetchFiles_stores (st : FileState) (userId parentId showTrashed response : JsVal)
    (fileItems folderItems : List JsVal) (storage : JsVal) (h : userId.truthy = true)
    (hr : readListing response = Except.ok (fileItems, folderItems, storage)) :
    (fetchFiles st userId parentId showTrashed (Outcome.resolve response)).state =
      { st with
        files := fileItems, folders := folderItems, storageInfo := storage,
        currentFolder := parentId.orDefault JsVal.null, loading := false } := by
  unfold fetchFiles
  simp [h, hr]

/-- What `searchFiles` stores once the results have been read. -/
theorem searchFiles_stores (st : FileState) (userId : JsVal) (query : String)
    (listReply : Outcome) (response : JsVal) (fileItems folderItems : List JsVal)
    (hq : query.data.all isJsWhitespace = false)
    (hr : readResults response = Except.ok (fileItems, folderItems)) :
    (searchFiles st userId query listReply (Outcome.resolve response)).state =
      { st with
        files := fileItems, folders := folderItems, searchQuery := query, loading := false } := by
  have hb : ¬ jsTrim query.data = [] := by
    intro hnil
    rw [(jsTrim_eq_nil_iff query.data).1 hnil] at hq
    exact Bool.noConfusion hq
  unfold searchFiles
  simp [hb, hr]

/-- C9: for every list of items (node objects, none of them `null` or
`undefined`) in the answer to a list request or a search request, the `files`
and `folders` that `fetchFiles` and `searchFiles` store partition it: `folders`
is the items with a truthy `is_folder`, `files` the others, both in the order
of the response, each item is in exactly one of them, the two lengths add up to
the number of items, and `trashedItems = [...folders, ...files]` of `TrashPage`
is a rearrangement of the items.  A missing (falsy) item list gives two empty
arrays. -/
theorem listing_splits_items (st : FileState) (userId parentId showTrashed : JsVal)
    (query : String) (listReply : Outcome) (response data : JsVal) (items : List JsVal)
    (huser : userId.truthy = true) (hquery : query.data.all isJsWhitespace = false)
    (hdata : response.get "data" = Except.ok data)
    (hitems : ∀ item ∈ items, item.isNullish = false) :
    (data.get "items" = Except.ok (JsVal.arr items) →
      SplitsByFolderFlag items
        (fetchFiles st userId parentId showTrashed (Outcome.resolve response)).state.files
        (fetchFiles st userId parentId showTrashed (Outcome.resolve response)).state.folders ∧
      (TrashPage.trashedItems
        (fetchFiles st userId parentId showTrashed (Outcome.resolve response)).state).Perm
        items) ∧
    (data.get "results" = Except.ok (JsVal.arr items) →
      SplitsByFolderFlag items
        (searchFiles st userId query listReply (Outcome.resolve response)).state.files
        (searchFiles st userId query listReply (Outcome.resolve response)).state.folders) ∧
    (∀ listed, data.get "items" = Except.ok listed → listed.truthy = false →
      (fetchFiles st userId parentId showTrashed (Outcome.resolve response)).state.files = [] ∧
      (fetchFiles st userId parentId showTrashed (Outcome.resolve response)).state.folders
        = []) ∧
    (∀ listed, data.get "results" = Except.ok listed → listed.truthy = false →
      (searchFiles st userId query listReply (Outcome.resolve response)).state.files = [] ∧
      (searchFiles st userId query listReply (Outcome.resolve response)).state.folders
        = []) := by
  refine ⟨fun h => ?_, fun h => ?_, fun listed h hl => ?_, fun listed h hl => ?_⟩
  · have hr : readListing response = Except.ok
        (items.filter (fun item => !hasFolderFlag item), items.filter hasFolderFlag,
          data.optGet "storage_info") := by
      simp [readListing, hdata, h, splitItems_arr items hitems,
        get_of_get data "items" "storage_info" _ h]
    rw [fetchFiles_stores st userId parentId showTrashed response _ _ _ huser hr]
    exact ⟨splitsByFolderFlag_filter items, (splitsByFolderFlag_filter items).2.2.2.2.2.2.2.2⟩
  · have hr : readResults response = Except.ok
        (items.filter (fun item => !hasFolderFlag item), items.filter hasFolderFlag) := by
      simp [readResults, hdata, h, splitItems_arr items hitems]
    rw [searchFiles_stores st userId query listReply response _ _ hquery hr]
    exact splitsByFolderFlag_filter items
  · have hr : readListing response = Except.ok ([], [], data.optGet "storage_info") := by
      simp [readListing, hdata, h, splitItems_falsy listed hl,
        get_of_get data "items" "storage_info" _ h]
    rw [fetchFiles_stores st userId parentId showTrashed response _ _ _ huser hr]
    exact ⟨rfl, rfl⟩
  · have hr : readResults response = Except.ok ([], []) := by
      simp [readResults, hdata, h, splitItems_falsy listed hl]
    rw [searchFiles_stores st userId query listReply response _ _ hquery hr]
    exact ⟨rfl, rfl⟩

/-- C9, at concrete inputs: an answer listing one folder and one file, and an
answer without an item list. -/
theorem listing_splits_items_witness :
    (SplitsByFolderFlag [sampleFolder, sampleFile]
        (fetchFiles FileState.initial (JsVal.num 7) JsVal.undefined JsVal.undefined
          (Outcome.resolve (JsVal.obj [("data", sampleData)]))).state.files
        (fetchFiles FileState.initial (JsVal.num 7) JsVal.undefined JsVal.undefined
          (Outcome.resolve (JsVal.obj [("data", sampleData)]))).state.folders ∧
      (TrashPage.trashedItems
        (fetchFiles FileState.initial (JsVal.num 7) JsVal.undefined JsVal.undefined
          (Outcome.resolve (JsVal.obj [("data", sampleData)]))).state).Perm
        [sampleFolder, sampleFile]) ∧
    SplitsByFolderFlag [sampleFolder, sampleFile]
      (searchFiles FileState.initial (JsVal.num 7) "a" (Outcome.reject JsVal.null)
        (Outcome.resolve (JsVal.obj [("data", sampleData)]))).state.files
      (searchFiles FileState.initial (JsVal.num 7) "a" (Outcome.reject JsVal.null)
        (Outcome.resolve (JsVal.obj [("data", sampleData)]))).state.folders ∧
    ((fetchFiles FileState.initial (JsVal.num 7) JsVal.undefined JsVal.undefined
        (Outcome.resolve (JsVal.obj [("data", emptyData)]))).state.files = [] ∧
      (fetchFiles FileState.initial (JsVal.num 7) JsVal.undefined JsVal.undefined
        (Outcome.resolve (JsVal.obj [("data", emptyData)]))).state.folders = []) :=
  ⟨(listing_splits_items FileState.initial (JsVal.num 7) JsVal.undefined JsVal.undefined "a"
      (Outcome.reject JsVal.null) (JsVal.obj [("data", sampleData)]) sampleData
      [sampleFolder, sampleFile] (by simp [JsVal.truthy]) (by decide) rfl
      (by simp [sampleFolder, sampleFile, JsVal.isNullish])).1 rfl,
    (listing_splits_items FileState.initial (JsVal.num 7) JsVal.undefined JsVal.undefined "a"
      (Outcome.reject JsVal.null) (JsVal.obj [("data", sampleData)]) sampleData
      [sampleFolder, sampleFile] (by simp [JsVal.truthy]) (by decide) rfl
      (by simp [sampleFolder, sampleFile, JsVal.isNullish])).2.1 rfl,
    (listing_splits_items FileState.initial (JsVal.num 7) JsVal.undefined JsVal.undefined "a"
      (Outcome.reject JsVal.null) (JsVal.obj [("data", emptyData)]) emptyData
      [] (by simp [JsVal.truthy]) (by decide) rfl
      (by simp)).2.2.1 JsVal.undefined rfl rfl⟩

/-- A listing refresh sends no delete request, whatever the user id. -/
theorem fetchFiles_no_delete (st : FileState) (userId parentId showTrashed : JsVal)
    (reply : Outcome) :
    (fetchFiles st userId parentId showTrashed reply).trace.filter Effect.isDeleteRequest =
      [] := by
  cases hu : userId.truthy with
  | false => simp [fetchFiles_no_user st userId parentId showTrashed reply hu]
  | true =>
    rcases fetchFiles_trace st userId parentId showTrashed reply hu with ht | ⟨e, ht⟩ <;>
      simp [ht, Effect.isDeleteRequest]

/-- The delete requests of the provider's `deleteFile`: the single one it
starts with. -/
theorem deleteFile_requests (st : FileState) (fileId userId permanent : JsVal)
    (reply listReply : Outcome) :
    (deleteFile st fileId userId permanent reply listReply).trace.filter
        Effect.isDeleteRequest =
      [Effect.request (Request.deleteFile fileId userId
        (permanent.orDefault (JsVal.bool false)))] := by
  have hidem : (permanent.orDefault (JsVal.bool false)).orDefault (JsVal.bool false) =
      permanent.orDefault (JsVal.bool false) := by
    cases permanent <;> rfl
  unfold deleteFile
  cases reply with
  | reject error => simp [Effect.isDeleteRequest, filesAPI.deleteFile, hidem]
  | resolve response =>
    simp [Effect.isDeleteRequest, filesAPI.deleteFile, hidem, List.filter_cons,
      fetchFiles_no_delete]

/-- C2: for every file card (a file with an `id`, shown to a logged-in user),
`handleDelete` issues exactly one delete request when the user confirms and
none when the user declines; the request is for that file and that user, and
its `permanent` flag is `inTrash`, so it is `true` exactly in the trash view.
`filesAPI.deleteFile` called without a `permanent` argument sends
`permanent = false`. -/
theorem handleDelete_requests (st : FileState) (file user fileId userId : JsVal)
    (inTrash : Bool) (reply listReply : Outcome)
    (hfile : file.get "id" = Except.ok fileId) (huser : user.get "id" = Except.ok userId) :
    (FileCard.handleDelete st file user inTrash true reply listReply).trace.filter
        Effect.isDeleteRequest =
      [Effect.request (Request.deleteFile fileId userId (JsVal.bool inTrash))] ∧
    (FileCard.handleDelete st file user inTrash true reply listReply).trace.countP
        Effect.isDeleteRequest = 1 ∧
    (FileCard.handleDelete st file user inTrash false reply listReply).trace.countP
        Effect.isRequest = 0 ∧
    (FileCard.handleDelete st file user inTrash false reply listReply).state = st ∧
    filesAPI.deleteFile fileId userId JsVal.undefined =
      Request.deleteFile fileId userId (JsVal.bool false) := by
  have hreq := deleteFile_requests st fileId userId (JsVal.bool inTrash) reply listReply
  have hon : (FileCard.handleDelete st file user inTrash true reply listReply).trace.filter
        Effect.isDeleteRequest =
      [Effect.request (Request.deleteFile fileId userId (JsVal.bool inTrash))] := by
    unfold FileCard.handleDelete
    simp only [hfile, huser, if_true]
    cases hv : (deleteFile st fileId userId (JsVal.bool inTrash) reply listReply).value with
    | error thrown => simpa [JsVal.orDefault] using hreq
    | ok result =>
      simp only [List.filter_append, hreq]
      simp [JsVal.orDefault, Effect.isDeleteRequest]
  refine ⟨hon, ?_, ?_, ?_, rfl⟩
  · rw [List.countP_eq_length_filter, hon]
    rfl
  · simp [FileCard.handleDelete, Effect.isRequest]
  · simp [FileCard.handleDelete]

/-- C2, at concrete inputs: the sample file in the trash view, the delete
request refused by the server. -/
theorem handleDelete_requests_witness :
    (FileCard.handleDelete FileState.initial sampleFile sampleUser true true
        (Outcome.reject JsVal.null) (Outcome.reject JsVal.null)).trace.filter
        Effect.isDeleteRequest =
      [Effect.request (Request.deleteFile (JsVal.num 2) (JsVal.num 7) (JsVal.bool true))] ∧
    (FileCard.handleDelete FileState.initial sampleFile sampleUser true true
        (Outcome.reject JsVal.null) (Outcome.reject JsVal.null)).trace.countP
        Effect.isDeleteRequest = 1 ∧
    (FileCard.handleDelete FileState.initial sampleFile sampleUser true false
        (Outcome.reject JsVal.null) (Outcome.reject JsVal.null)).trace.countP
        Effect.isRequest = 0 ∧
    (FileCard.handleDelete FileState.initial sampleFile sampleUser true false
        (Outcome.reject JsVal.null) (Outcome.reject JsVal.null)).state = FileState.initial ∧
    filesAPI.deleteFile (JsVal.num 2) (JsVal.num 7) JsVal.undefined =
      Request.deleteFile (JsVal.num 2) (JsVal.num 7) (JsVal.bool false) :=
  handleDelete_requests FileState.initial sampleFile sampleUser (JsVal.num 2) (JsVal.num 7)
    true (Outcome.reject JsVal.null) (Outcome.reject JsVal.null) rfl rfl

/-- The provider's `downloadFile` sends its download request and no other. -/
theorem downloadFile_requests (fileId userId filename : JsVal) (reply : Outcome) :
    (downloadFile fileId userId filename reply).filter Effect.isRequest =
      [Effect.request (Request.downloadFile fileId userId)] := by
  unfold downloadFile
  cases reply with
  | reject error => simp [downloadFailed, Effect.isRequest, filesAPI.downloadFile]
  | resolve response =>
    cases hd : response.get "data" <;>
      simp [hd, downloadFailed, Effect.isRequest, filesAPI.downloadFile]

/-- C3: for every item whose `is_folder` is truthy, `handleDownload` of
`FileCard` and of `FileList` issue no request at all; for every item whose
`is_folder` is falsy (shown to a logged-in user) each of them runs the
provider's `downloadFile` exactly once, with the item's `id`, the user's `id`
and the item's `original_filename`, which sends exactly one download request,
for that item and that user. -/
theorem handleDownload_requests (st : FileState) (item user flag userId : JsVal)
    (reply : Outcome) (hflag : item.get "is_folder" = Except.ok flag)
    (huser : user.get "id" = Except.ok userId) :
    (flag.truthy = true →
      (FileCard.handleDownload st item user reply).trace = [Effect.closeMenu] ∧
      (FileCard.handleDownload st item user reply).trace.countP Effect.isRequest = 0 ∧
      (FileList.handleDownload st item user reply).trace = []) ∧
    (flag.truthy = false →
      (FileCard.handleDownload st item user reply).trace =
        downloadFile (item.optGet "id") userId (item.optGet "original_filename") reply ++
          [Effect.closeMenu] ∧
      (FileCard.handleDownload st item user reply).trace.filter Effect.isRequest =
        [Effect.request (Request.downloadFile (item.optGet "id") userId)] ∧
      (FileCard.handleDownload st item user reply).trace.countP Effect.isDownloadRequest = 1 ∧
      (FileList.handleDownload st item user reply).trace =
        downloadFile (item.optGet "id") userId (item.optGet "original_filename") reply ∧
      (FileList.handleDownload st item user reply).trace.filter Effect.isRequest =
        [Effect.request (Request.downloadFile (item.optGet "id") userId)] ∧
      (FileList.handleDownload st item user reply).trace.countP Effect.isDownloadRequest = 1) := by
  have hid := get_of_get item "is_folder" "id" flag hflag
  have hname := get_of_get item "is_folder" "original_filename" flag hflag
  refine ⟨fun h => ?_, fun h => ?_⟩
  · simp [FileCard.handleDownload, FileList.handleDownload, hflag, h, Effect.isRequest]
  · have hcard : (FileCard.handleDownload st item user reply).trace =
        downloadFile (item.optGet "id") userId (item.optGet "original_filename") reply ++
          [Effect.closeMenu] := by
      simp [FileCard.handleDownload, hflag, h, hid, hname, huser]
    have hlist : (FileList.handleDownload st item user reply).trace =
        downloadFile (item.optGet "id") userId (item.optGet "original_filename") reply := by
      simp [FileList.handleDownload, hflag, h, hid, hname, huser]
    have hcount : ∀ trace : List Effect,
        trace.filter Effect.isRequest =
          [Effect.request (Request.downloadFile (item.optGet "id") userId)] →
        trace.countP Effect.isDownloadRequest = 1 := by
      intro trace ht
      have hsub : trace.filter Effect.isDownloadRequest =
          (trace.filter Effect.isRequest).filter Effect.isDownloadRequest := by
        rw [List.filter_filter]
        apply List.filter_congr
        intro e _
        cases e with
        | request r => cases r <;> simp [Effect.isRequest, Effect.isDownloadRequest]
        | _ => simp [Effect.isRequest, Effect.isDownloadRequest]
      rw [List.countP_eq_length_filter, hsub, ht]
      simp [Effect.isDownloadRequest]
    have hcardReq : (FileCard.handleDownload st item user reply).trace.filter
        Effect.isRequest =
        [Effect.request (Request.downloadFile (item.optGet "id") userId)] := by
      rw [hcard, List.filter_append, downloadFile_requests]
      simp [Effect.isRequest]
    have hlistReq : (FileList.handleDownload st item user reply).trace.filter
        Effect.isRequest =
        [Effect.request (Request.downloadFile (item.optGet "id") userId)] := by
      rw [hlist, downloadFile_requests]
    exact ⟨hcard, hcardReq, hcount _ hcardReq, hlist, hlistReq, hcount _ hlistReq⟩

/-- C3, at concrete inputs: the sample folder and the sample file, the server
answering the download with a body. -/
theorem handleDownload_requests_witness :
    ((FileCard.handleDownload FileState.initial sampleFolder sampleUser
        (Outcome.resolve (JsVal.obj [("data", JsVal.str "bytes")]))).trace =
        [Effect.closeMenu] ∧
      (FileCard.handleDownload FileState.initial sampleFolder sampleUser
        (Outcome.resolve (JsVal.obj [("data", JsVal.str "bytes")]))).trace.countP
        Effect.isRequest = 0 ∧
      (FileList.handleDownload FileState.initial sampleFolder sampleUser
        (Outcome.resolve (JsVal.obj [("data", JsVal.str "bytes")]))).trace = []) ∧
    (FileCard.handleDownload FileState.initial sampleFile sampleUser
        (Outcome.resolve (JsVal.obj [("data", JsVal.str "bytes")]))).trace =
      [Effect.request (Request.downloadFile (JsVal.num 2) (JsVal.num 7)),
        Effect.saveBlob (JsVal.str "bytes") (JsVal.str "a.txt"),
        Effect.toastSuccess "Download started!", Effect.closeMenu] :=
  ⟨(handleDownload_requests FileState.initial sampleFolder sampleUser (JsVal.bool true)
      (JsVal.num 7) (Outcome.resolve (JsVal.obj [("data", JsVal.str "bytes")])) rfl rfl).1 rfl,
    ((handleDownload_requests FileState.initial sampleFile sampleUser (JsVal.bool false)
      (JsVal.num 7) (Outcome.resolve (JsVal.obj [("data", JsVal.str "bytes")])) rfl rfl).2
      rfl).1⟩

/-- C4: for every file (with any `original_filename`) and every answer to the
prompt, `handleRename` sends no request, so it never reaches `renameFile`, and
leaves the provider state as it was; it writes the log line exactly when the
entered name is non-empty and differs from the current `original_filename`, and
then closes the menu, which is all it does for an empty name, an unchanged name
or a cancelled prompt. -/
theorem handleRename_only_logs (st : FileState) (file current : JsVal)
    (newName : Option String) (hfile : file.get "original_filename" = Except.ok current) :
    (FileCard.handleRename st file newName).state = st ∧
    (FileCard.handleRename st file newName).trace.countP Effect.isRequest = 0 ∧
    (FileCard.handleRename st file newName).trace.countP Effect.isRenameRequest = 0 ∧
    (newName = none → (FileCard.handleRename st file newName).trace = [Effect.closeMenu]) ∧
    (∀ name, newName = some name →
      (name ≠ "" ∧ current ≠ JsVal.str name →
        (FileCard.handleRename st file newName).trace =
          [Effect.consoleLog "Rename to:" (JsVal.str name), Effect.closeMenu]) ∧
      (name = "" ∨ current = JsVal.str name →
        (FileCard.handleRename st file newName).trace = [Effect.closeMenu])) := by
  have hstrict : ∀ name, strictEqStr name current = true ↔ current = JsVal.str name := by
    intro name
    cases current <;> simp [strictEqStr, eq_comm]
  cases newName with
  | none => simp [FileCard.handleRename, hfile, Effect.isRequest, Effect.isRenameRequest]
  | some name =>
    by_cases hempty : name = ""
    · simp [FileCard.handleRename, hfile, hempty, JsVal.truthy, Effect.isRequest,
        Effect.isRenameRequest]
    · by_cases hsame : current = JsVal.str name
      · subst hsame
        simp [FileCard.handleRename, hfile, hempty, JsVal.truthy, strictEqStr,
          Effect.isRequest, Effect.isRenameRequest]
      · have hs : strictEqStr name current = false := by
          cases h : strictEqStr name current
          · rfl
          · exact absurd ((hstrict name).1 h) hsame
        simp [FileCard.handleRename, hfile, hempty, JsVal.truthy, hs, hsame,
          Effect.isRequest, Effect.isRenameRequest]

/-- C4, at concrete inputs: the sample file renamed to `b.txt`. -/
theorem handleRename_only_logs_witness :
    (FileCard.handleRename FileState.initial sampleFile (some "b.txt")).state =
      FileState.initial ∧
    (FileCard.handleRename FileState.initial sampleFile (some "b.txt")).trace.countP
      Effect.isRequest = 0 ∧
    (FileCard.handleRename FileState.initial sampleFile (some "b.txt")).trace.countP
      Effect.isRenameRequest = 0 ∧
    (FileCard.handleRename FileState.initial sampleFile (some "b.txt")).trace =
      [Effect.consoleLog "Rename to:" (JsVal.str "b.txt"), Effect.closeMenu] :=
  ⟨(handleRename_only_logs FileState.initial sampleFile (JsVal.str "a.txt") (some "b.txt")
      rfl).1,
    (handleRename_only_logs FileState.initial sampleFile (JsVal.str "a.txt") (some "b.txt")
      rfl).2.1,
    (handleRename_only_logs FileState.initial sampleFile (JsVal.str "a.txt") (some "b.txt")
      rfl).2.2.1,
    ((handleRename_only_logs FileState.initial sampleFile (JsVal.str "a.txt") (some "b.txt")
      rfl).2.2.2.2 "b.txt" rfl).1 ⟨by decide, by simp⟩⟩

/-- A value that is not nullish can be read from. -/
theorem get_of_not_nullish (v : JsVal) (k : String) (h : v.isNullish = false) :
    v.get k = Except.ok (v.optGet k) := by
  cases v <;> simp [JsVal.isNullish] at h <;> simp [JsVal.get, JsVal.optGet]

/-- A truthy value is not nullish. -/
theorem not_nullish_of_truthy (v : JsVal) (h : v.truthy = true) : v.isNullish = false := by
  cases v <;> simp [JsVal.truthy] at h <;> simp [JsVal.isNullish]

/-- A value with a truthy property is not nullish. -/
theorem not_nullish_of_optGet (v : JsVal) (k : String) (h : (v.optGet k).truthy = true) :
    v.isNullish = false := by
  cases v <;> simp [JsVal.optGet, JsVal.truthy] at h
  simp [JsVal.isNullish]

/-- The `catch` block on an error that is not nullish. -/
theorem failureResult_eq (error : JsVal) (fallback : String) (h : error.isNullish = false) :
    failureResult error fallback =
      Except.ok (OpResult.failure ((serverErrorText error).orElse (JsVal.str fallback))) := by
  simp [failureResult, get_of_not_nullish error "response" h, serverErrorText,
    OpResult.failure]

/-- C5, as stated, fails: a lost connection and an upload refused with status
413 are failures with different causes, and `uploadFile` returns the same
generic error `Upload failed` for both. -/
theorem upload_failures_share_generic_error :
    networkError ≠ tooLargeError ∧
    (uploadFile FileState.initial sampleFile (JsVal.num 7) JsVal.undefined
        (Outcome.reject networkError) (Outcome.reject JsVal.null)).value =
      Except.ok (OpResult.failure (JsVal.str "Upload failed")) ∧
    (uploadFile FileState.initial sampleFile (JsVal.num 7) JsVal.undefined
        (Outcome.reject tooLargeError) (Outcome.reject JsVal.null)).value =
      Except.ok (OpResult.failure (JsVal.str "Upload failed")) := by
  refine ⟨?_, rfl, rfl⟩
  simp [networkError, tooLargeError]

/-- C5, amended: for every failed request of `uploadFile`, `createFolder`,
`deleteFile`, `restoreFile`, `moveFile` or `renameFile` (rejected with an error
object), the returned result has `success = false` and its error is the
server's error text `error.response.data.error` when the failure carries a
truthy one, and otherwise the fixed fallback text of the operation; two
failures whose server texts are truthy and different yield different errors. -/
theorem failed_operation_error (st : FileState)
    (file fileId userId parentId name permanent target newName error : JsVal)
    (listReply : Outcome) (herr : error.isNullish = false) :
    (uploadFile st file userId parentId (Outcome.reject error) listReply).value =
      Except.ok (OpResult.failure
        ((serverErrorText error).orElse (JsVal.str "Upload failed"))) ∧
    (createFolder st userId name parentId (Outcome.reject error) listReply).value =
      Except.ok (OpResult.failure
        ((serverErrorText error).orElse (JsVal.str "Failed to create folder"))) ∧
    (deleteFile st fileId userId permanent (Outcome.reject error) listReply).value =
      Except.ok (OpResult.failure
        ((serverErrorText error).orElse (JsVal.str "Delete failed"))) ∧
    (restoreFile st fileId userId (Outcome.reject error) listReply).value =
      Except.ok (OpResult.failure
        ((serverErrorText error).orElse (JsVal.str "Restore failed"))) ∧
    (moveFile st fileId userId target (Outcome.reject error) listReply).value =
      Except.ok (OpResult.failure
        ((serverErrorText error).orElse (JsVal.str "Move failed"))) ∧
    (renameFile st fileId userId newName (Outcome.reject error) listReply).value =
      Except.ok (OpResult.failure
        ((serverErrorText error).orElse (JsVal.str "Rename failed"))) ∧
    ((serverErrorText error).truthy = true →
      ∀ fallback, (serverErrorText error).orElse (JsVal.str fallback) = serverErrorText error) ∧
    ((serverErrorText error).truthy = false →
      ∀ fallback, (serverErrorText error).orElse (JsVal.str fallback) = JsVal.str fallback) ∧
    (∀ other fallback, (serverErrorText error).truthy = true →
      (serverErrorText other).truthy = true → serverErrorText error ≠ serverErrorText other →
      (serverErrorText error).orElse (JsVal.str fallback) ≠
        (serverErrorText other).orElse (JsVal.str fallback)) := by
  refine ⟨?_, ?_, ?_, ?_, ?_, ?_, ?_, ?_, ?_⟩
  · simp [uploadFile, failureResult_eq error _ herr]
  · simp [createFolder, failureResult_eq error _ herr]
  · simp [deleteFile, failureResult_eq error _ herr]
  · simp [restoreFile, failureResult_eq error _ herr]
  · simp [moveFile, failureResult_eq error _ herr]
  · simp [renameFile, failureResult_eq error _ herr]
  · intro h fallback
    simp [JsVal.orElse, h]
  · intro h fallback
    simp [JsVal.orElse, h]
  · intro other fallback h h' hne
    simpa [JsVal.orElse, h, h'] using hne

/-- C5 amended, at a concrete input: a name conflict reported by the server. -/
theorem failed_operation_error_witness :
    (uploadFile FileState.initial sampleFile (JsVal.num 7) JsVal.undefined
        (Outcome.reject conflictError) (Outcome.reject JsVal.null)).value =
      Except.ok (OpResult.failure
        ((serverErrorText conflictError).orElse (JsVal.str "Upload failed"))) ∧
    (serverErrorText conflictError).orElse (JsVal.str "Upload failed") =
      JsVal.str "File already exists" :=
  ⟨(failed_operation_error FileState.initial sampleFile (JsVal.num 2) (JsVal.num 7)
      JsVal.undefined (JsVal.str "docs") JsVal.undefined JsVal.null (JsVal.str "b.txt")
      conflictError (Outcome.reject JsVal.null) rfl).1,
    rfl⟩

/-- C6: for every error object passed to the response interceptor (its
response has any status, or it has a request and no response, or neither), the
interceptor returns a promise rejected with that same error, and none of its
effects is a request: nothing is retried. -/
theorem interceptor_rejects_same_error (error : JsVal) (h : error.isNullish = false) :
    (responseErrorInterceptor error).2 = Outcome.reject error ∧
    (responseErrorInterceptor error).1.countP Effect.isRequest = 0 := by
  unfold responseErrorInterceptor
  rw [get_of_not_nullish error "response" h, get_of_not_nullish error "request" h]
  simp only
  by_cases hresp : (error.optGet "response").truthy = true
  · have hr := not_nullish_of_truthy _ hresp
    rw [get_of_not_nullish _ "status" hr, get_of_not_nullish _ "data" hr]
    simp only [hresp, if_true]
    by_cases h401 : strictEqNum ((error.optGet "response").optGet "status") 401 = true
    · simp [h401, Effect.isRequest]
    · by_cases h413 : strictEqNum ((error.optGet "response").optGet "status") 413 = true
      · simp [h401, h413, Effect.isRequest]
      · by_cases h500 : strictEqNum ((error.optGet "response").optGet "status") 500 = true
        · simp [h401, h413, h500, Effect.isRequest]
        · by_cases htext :
              ((((error.optGet "response").optGet "data").optGet "error").truthy = true)
          · have hd := not_nullish_of_optGet _ "error" htext
            rw [get_of_not_nullish _ "error" hd]
            simp [h401, h413, h500, htext, Effect.isRequest]
          · simp [h401, h413, h500, htext]
  · by_cases hreq : (error.optGet "request").truthy = true
    · simp [hresp, hreq, Effect.isRequest]
    · simp [hresp, hreq]

/-- C6, at concrete inputs: a refused request with the server's error text. -/
theorem interceptor_rejects_same_error_witness :
    (responseErrorInterceptor conflictError).2 = Outcome.reject conflictError ∧
    (responseErrorInterceptor conflictError).1.countP Effect.isRequest = 0 :=
  interceptor_rejects_same_error conflictError rfl

/-- C7, as stated, fails: a listing whose storage summary reports 150 percent
makes `Sidebar` pass 150 to the progress bar. -/
theorem progressValue_above_hundred :
    Sidebar.progressValue
        (fetchFiles FileState.initial (JsVal.num 7) JsVal.undefined JsVal.undefined
          (Outcome.resolve overfullListing)).state.storageInfo = JsVal.num 150 ∧
    inPercentRange (Sidebar.progressValue
        (fetchFiles FileState.initial (JsVal.num 7) JsVal.undefined JsVal.undefined
          (Outcome.resolve overfullListing)).state.storageInfo) = false := by
  have hr : readListing overfullListing =
      Except.ok ([], [], JsVal.obj [("used_percentage", JsVal.num 150)]) := rfl
  rw [fetchFiles_stores FileState.initial (JsVal.num 7) JsVal.undefined JsVal.undefined
    overfullListing [] [] _ (by simp [JsVal.truthy]) hr]
  have hv : Sidebar.progressValue (JsVal.obj [("used_percentage", JsVal.num 150)]) =
      JsVal.num 150 := by
    simp [Sidebar.progressValue, JsVal.optGet, lookupField, JsVal.orElse, JsVal.truthy]
  refine ⟨hv, ?_⟩
  simp only [hv, inPercentRange]
  norm_num

/-- C7, amended: the value `Sidebar` passes to the storage progress bar is the
`used_percentage` of the storage summary that `fetchFiles` stored, unchanged,
whenever that is truthy, and 0 when the summary or its percentage is missing
(or falsy); so it lies in [0, 100] whenever the server's percentage does. -/
theorem progressValue_passes_percentage (st : FileState)
    (userId parentId showTrashed response storage : JsVal) (fileItems folderItems : List JsVal)
    (huser : userId.truthy = true)
    (hr : readListing response = Except.ok (fileItems, folderItems, storage)) :
    (fetchFiles st userId parentId showTrashed (Outcome.resolve response)).state.storageInfo =
      storage ∧
    ((storage.optGet "used_percentage").truthy = true →
      Sidebar.progressValue storage = storage.optGet "used_percentage") ∧
    ((storage.optGet "used_percentage").truthy = false →
      Sidebar.progressValue storage = JsVal.num 0) ∧
    (inPercentRange (storage.optGet "used_percentage") = true →
      inPercentRange (Sidebar.progressValue storage) = true) ∧
    Sidebar.progressValue JsVal.undefined = JsVal.num 0 ∧
    Sidebar.progressValue JsVal.null = JsVal.num 0 ∧
    inPercentRange (JsVal.num 0) = true := by
  rw [fetchFiles_stores st userId parentId showTrashed response _ _ _ huser hr]
  refine ⟨rfl, ?_, ?_, ?_, ?_, ?_, ?_⟩
  · intro h
    simp [Sidebar.progressValue, JsVal.orElse, h]
  · intro h
    simp [Sidebar.progressValue, JsVal.orElse, h]
  · intro h
    cases ht : (storage.optGet "used_percentage").truthy
    · simp [Sidebar.progressValue, JsVal.orElse, ht, inPercentRange]
    · simpa [Sidebar.progressValue, JsVal.orElse, ht] using h
  · simp [Sidebar.progressValue, JsVal.optGet, JsVal.orElse, JsVal.truthy]
  · simp [Sidebar.progressValue, JsVal.optGet, JsVal.orElse, JsVal.truthy]
  · simp [inPercentRange]

/-- C7 amended, at a concrete input: the listing that reports 150 percent. -/
theorem progressValue_passes_percentage_witness :
    (fetchFiles FileState.initial (JsVal.num 7) JsVal.undefined JsVal.undefined
        (Outcome.resolve overfullListing)).state.storageInfo =
      JsVal.obj [("used_percentage", JsVal.num 150)] ∧
    Sidebar.progressValue (JsVal.obj [("used_percentage", JsVal.num 150)]) =
      (JsVal.obj [("used_percentage", JsVal.num 150)]).optGet "used_percentage" :=
  ⟨(progressValue_passes_percentage FileState.initial (JsVal.num 7) JsVal.undefined
      JsVal.undefined overfullListing (JsVal.obj [("used_percentage", JsVal.num 150)]) [] []
      (by simp [JsVal.truthy]) rfl).1,
    (progressValue_passes_percentage FileState.initial (JsVal.num 7) JsVal.undefined
      JsVal.undefined overfullListing (JsVal.obj [("used_percentage", JsVal.num 150)]) [] []
      (by simp [JsVal.truthy]) rfl).2.1
      (by simp [JsVal.optGet, lookupField, JsVal.truthy])⟩

/-- C10, as stated, fails: `RecentPage` asks for 50 files, the server answers
with 51, and the page shows all 51. -/
theorem recentPage_shows_fifty_one :
    (RecentPage.fetchRecentFiles
        { recentFiles := JsVal.arr [], loading := true } sampleUser
        (Outcome.resolve longRecentAnswer)).2 =
      [Effect.request (Request.getRecentFiles (JsVal.num 7) (JsVal.num 50))] ∧
    ∃ shown,
      RecentPage.shownEntries
        (RecentPage.fetchRecentFiles
          { recentFiles := JsVal.arr [], loading := true } sampleUser
          (Outcome.resolve longRecentAnswer)).1 = some shown ∧
      shown.length = 51 ∧ ¬ shown.length ≤ 50 := by
  refine ⟨rfl, List.replicate 51 sampleFile, rfl, ?_, ?_⟩ <;> simp

/-- C10, amended: `RecentPage` asks for limit 50 and shows exactly the entries
of the server's answer (`response.data.files`, or none when that is missing),
without truncating them: it shows at most 50 entries whenever the answer holds
at most 50.  `filesAPI.getRecentFiles` uses limit 20 when no limit is given. -/
theorem recentPage_shows_answer (st : RecentPage.State) (user userId response data : JsVal)
    (huser : user.get "id" = Except.ok userId)
    (hdata : response.get "data" = Except.ok data) :
    (RecentPage.fetchRecentFiles st user (Outcome.resolve response)).2.filter
        Effect.isRequest =
      [Effect.request (Request.getRecentFiles userId (JsVal.num 50))] ∧
    (∀ files, data.get "files" = Except.ok (JsVal.arr files) →
      RecentPage.shownEntries
        (RecentPage.fetchRecentFiles st user (Outcome.resolve response)).1 = some files ∧
      (files.length ≤ 50 →
        ∀ shown, RecentPage.shownEntries
          (RecentPage.fetchRecentFiles st user (Outcome.resolve response)).1 = some shown →
          shown.length ≤ 50)) ∧
    (∀ listed, data.get "files" = Except.ok listed → listed.truthy = false →
      RecentPage.shownEntries
        (RecentPage.fetchRecentFiles st user (Outcome.resolve response)).1 = some []) ∧
    filesAPI.getRecentFiles userId JsVal.undefined =
      Request.getRecentFiles userId (JsVal.num 20) := by
  refine ⟨?_, fun files hf => ?_, fun listed hf hl => ?_, rfl⟩
  · unfold RecentPage.fetchRecentFiles
    simp only [RecentPage.recentRequest, huser, hdata]
    cases hf : data.get "files" <;>
      simp [hf, RecentPage.recentFailed, Effect.isRequest, filesAPI.getRecentFiles,
        JsVal.orDefault]
  · have hshown : RecentPage.shownEntries
        (RecentPage.fetchRecentFiles st user (Outcome.resolve response)).1 = some files := by
      simp [RecentPage.fetchRecentFiles, RecentPage.recentRequest, huser, hdata, hf,
        JsVal.orElse, JsVal.truthy, RecentPage.shownEntries]
    refine ⟨hshown, fun hlen shown hs => ?_⟩
    rw [hshown] at hs
    cases hs
    exact hlen
  · simp [RecentPage.fetchRecentFiles, RecentPage.recentRequest, huser, hdata, hf,
      JsVal.orElse, hl, RecentPage.shownEntries]

/-- C10 amended, at a concrete input: the answer that holds 51 files. -/
theorem recentPage_shows_answer_witness :
    (RecentPage.fetchRecentFiles { recentFiles := JsVal.arr [], loading := true } sampleUser
        (Outcome.resolve longRecentAnswer)).2.filter Effect.isRequest =
      [Effect.request (Request.getRecentFiles (JsVal.num 7) (JsVal.num 50))] ∧
    RecentPage.shownEntries
        (RecentPage.fetchRecentFiles { recentFiles := JsVal.arr [], loading := true }
          sampleUser (Outcome.resolve longRecentAnswer)).1 =
      some (List.replicate 51 sampleFile) :=
  ⟨(recentPage_shows_answer { recentFiles := JsVal.arr [], loading := true } sampleUser
      (JsVal.num 7) longRecentAnswer
      (JsVal.obj [("files", JsVal.arr (List.replicate 51 sampleFile))]) rfl rfl).1,
    ((recentPage_shows_answer { recentFiles := JsVal.arr [], loading := true } sampleUser
      (JsVal.num 7) longRecentAnswer
      (JsVal.obj [("files", JsVal.arr (List.replicate 51 sampleFile))]) rfl rfl).2.1
      (List.replicate 51 sampleFile) rfl).1⟩

/-- C18, on the code: with the sample folder (id 1) and the sample file (id 2)
listed and nothing selected, changing the header checkbox leaves only id 2
selected, not both; with both selected, changing it leaves id 1 selected, not
none.  Each `toggleSelection` of the loop starts from the selection of the
render, so only the last call is kept. -/
theorem headerChange_keeps_last_toggle :
    (FileList.handleHeaderChange FileState.initial
        [sampleFolder, sampleFile]).state.selectedItems = [JsVal.num 2] ∧
    setHas (FileList.handleHeaderChange FileState.initial
        [sampleFolder, sampleFile]).state.selectedItems (JsVal.num 1) = false ∧
    (FileList.handleHeaderChange bothSelected
        [sampleFolder, sampleFile]).state.selectedItems = [JsVal.num 1] ∧
    setHas (FileList.handleHeaderChange bothSelected
        [sampleFolder, sampleFile]).state.selectedItems (JsVal.num 1) = true :=
  ⟨rfl, rfl, rfl, rfl⟩

/-- C19, on the code: a logged-in user uploads one pending file and the upload
succeeds, so the entry ends as `success`, yet `handleUpload` shows no toast at
all; and with an entry uploaded by an earlier run in the queue, a run whose only
upload fails announces one successful upload and no failure.  The summary
counts the statuses of the render that started the run. -/
theorem handleUpload_summary_is_stale :
    ((FileUpload.handleUpload { files := [pendingEntry], uploading := false, progress := [] }
        sampleUser (fun _ => Except.ok successResult)).state.files.map
        (fun f => f.status) = ["success"] ∧
      (FileUpload.handleUpload { files := [pendingEntry], uploading := false, progress := [] }
        sampleUser (fun _ => Except.ok successResult)).trace = []) ∧
    ((FileUpload.handleUpload
        { files := [uploadedEntry, pendingEntry], uploading := false, progress := [] }
        sampleUser (fun _ => Except.ok (OpResult.failure (JsVal.str "Upload failed")))
        ).state.files.map (fun f => f.status) = ["success", "error"] ∧
      (FileUpload.handleUpload
        { files := [uploadedEntry, pendingEntry], uploading := false, progress := [] }
        sampleUser (fun _ => Except.ok (OpResult.failure (JsVal.str "Upload failed")))
        ).trace = [Effect.toastSuccess "Successfully uploaded 1 file(s)"]) :=
  ⟨⟨rfl, rfl⟩, rfl, rfl⟩

/-- C20, on the code: with the sample file selected and its request refused by
the server, `deleteFile` and `restoreFile` return `success = false`, and
`handlePermanentDelete` still announces `Files permanently deleted`,
`handleRestoreSelected` still announces `Files restored`. -/
theorem trash_actions_announce_after_failure :
    (deleteFile fileSelected (JsVal.num 2) (JsVal.num 7) (JsVal.bool true)
        (Outcome.reject notFoundError) (Outcome.reject JsVal.null)).value =
      Except.ok (OpResult.failure (JsVal.str "File not found")) ∧
    (TrashPage.handlePermanentDelete fileSelected sampleUser
        (fun _ => (Outcome.reject notFoundError, Outcome.reject JsVal.null))).trace =
      [Effect.request (Request.deleteFile (JsVal.num 2) (JsVal.num 7) (JsVal.bool true)),
        Effect.setDialog "delete" false, Effect.toastSuccess "Files permanently deleted"] ∧
    (restoreFile fileSelected (JsVal.num 2) (JsVal.num 7)
        (Outcome.reject notFoundError) (Outcome.reject JsVal.null)).value =
      Except.ok (OpResult.failure (JsVal.str "File not found")) ∧
    (TrashPage.handleRestoreSelected fileSelected sampleUser
        (fun _ => (Outcome.reject notFoundError, Outcome.reject JsVal.null))).trace =
      [Effect.request (Request.restoreFile (JsVal.num 2) (JsVal.num 7)),
        Effect.setDialog "restore" false, Effect.toastSuccess "Files restored"] :=
  ⟨rfl, rfl, rfl, rfl⟩

/-! ### The storage service -/

namespace Service

/-- One step up from an optional id. -/
theorem up_none_iterate (s : Store) (k : Nat) :
    (fun c : Option Nat => c.bind (parentOf s))^[k] none = none := by
  induction k with
  | zero => rfl
  | succ k ih => rw [Function.iterate_succ_apply]; exact ih

/-- The walk lists exactly the ids reached in fewer steps than its fuel. -/
theorem mem_ancestorChain (s : Store) (x : Nat) (fuel : Nat) (c : Option Nat) :
    x ∈ ancestorChain s fuel c ↔
      ∃ i, i < fuel ∧ (fun c : Option Nat => c.bind (parentOf s))^[i] c = some x := by
  induction fuel generalizing c with
  | zero => simp [ancestorChain]
  | succ fuel ih =>
    cases c with
    | none =>
      simp only [ancestorChain, List.not_mem_nil, false_iff]
      rintro ⟨i, _, hi⟩
      rw [up_none_iterate] at hi
      exact Option.noConfusion hi
    | some p =>
      simp only [ancestorChain, List.mem_cons, ih]
      constructor
      · rintro (h | ⟨i, hi, hx⟩)
        · exact ⟨0, Nat.succ_pos _, by simp [h]⟩
        · exact ⟨i + 1, Nat.succ_lt_succ hi, by
            rw [Function.iterate_succ_apply]; exact hx⟩
      · rintro ⟨i, hi, hx⟩
        cases i with
        | zero =>
          left
          simpa [eq_comm] using hx
        | succ i =>
          right
          refine ⟨i, Nat.lt_of_succ_lt_succ hi, ?_⟩
          rw [Function.iterate_succ_apply] at hx
          exact hx

/-- An id with a parent pointer is the id of a node. -/
theorem mem_ids_of_parentOf (s : Store) (x y : Nat) (h : parentOf s x = some y) :
    x ∈ s.nodes.map (fun n => n.id) := by
  unfold parentOf nodeById at h
  cases hf : s.nodes.find? (fun n => decide (n.id = x)) with
  | none => simp [hf] at h
  | some n =>
    have hmem := List.mem_of_find?_eq_some hf
    have hid := List.find?_some hf
    simp only [decide_eq_true_eq] at hid
    exact List.mem_map.2 ⟨n, hmem, hid⟩

/-- Once the walk has left the tree it stays out. -/
theorem up_iterate_none_of_le (s : Store) (c : Option Nat) (i j : Nat) (hij : i ≤ j)
    (h : (fun c : Option Nat => c.bind (parentOf s))^[i] c = none) :
    (fun c : Option Nat => c.bind (parentOf s))^[j] c = none := by
  obtain ⟨d, rfl⟩ := Nat.exists_eq_add_of_le hij
  rw [Nat.add_comm, Function.iterate_add_apply, h, up_none_iterate]

/-- Whatever is reached from `c` in at least one step is reached from the step
above `c` in fewer steps than there are nodes. -/
theorem reach_within (s : Store) (c : Option Nat) (f : Nat)
    (h : ∃ m, (fun c : Option Nat => c.bind (parentOf s))^[m + 1] c = some f) :
    ∃ j, j < s.nodes.length ∧
      (fun c : Option Nat => c.bind (parentOf s))^[j] (c.bind (parentOf s)) = some f := by
  classical
  let m := Nat.find h
  have hm : (fun c : Option Nat => c.bind (parentOf s))^[m + 1] c = some f := Nat.find_spec h
  have hmin : ∀ k, k < m → ¬ (fun c : Option Nat => c.bind (parentOf s))^[k + 1] c = some f :=
    fun k hk => Nat.find_min h hk
  refine ⟨m, ?_, by rw [← Function.iterate_succ_apply]; exact hm⟩
  by_contra hlen
  have hlen : s.nodes.length ≤ m := Nat.le_of_not_lt hlen
  -- every position up to `m` holds the id of a node
  have hids : ∀ i, i ≤ m → ∃ x, (fun c : Option Nat => c.bind (parentOf s))^[i] c = some x ∧
      x ∈ (s.nodes.map (fun n => n.id)).toFinset := by
    intro i hi
    cases hx : (fun c : Option Nat => c.bind (parentOf s))^[i] c with
    | none =>
      have := up_iterate_none_of_le s c i (m + 1) (Nat.le_succ_of_le hi) hx
      rw [this] at hm
      exact Option.noConfusion hm
    | some x =>
      refine ⟨x, rfl, ?_⟩
      cases hy : (fun c : Option Nat => c.bind (parentOf s))^[i + 1] c with
      | none =>
        have := up_iterate_none_of_le s c (i + 1) (m + 1) (Nat.succ_le_succ hi) hy
        rw [this] at hm
        exact Option.noConfusion hm
      | some y =>
        rw [Function.iterate_succ_apply', hx] at hy
        exact List.mem_toFinset.2 (mem_ids_of_parentOf s x y hy)
  have hcard : (s.nodes.map (fun n => n.id)).toFinset.card <
      (Finset.range (s.nodes.length + 1)).card := by
    rw [Finset.card_range]
    exact Nat.lt_succ_of_le (le_trans (List.toFinset_card_le _) (by simp))
  obtain ⟨i, hi, j, hj, hne, heq⟩ := Finset.exists_ne_map_eq_of_card_lt_of_maps_to hcard
    (f := fun i => ((fun c : Option Nat => c.bind (parentOf s))^[i] c).getD 0)
    (fun i hi => by
      have hi' : i ≤ m := le_trans (Nat.le_of_lt_succ (Finset.mem_range.1 hi)) hlen
      obtain ⟨x, hx, hmem⟩ := hids i hi'
      simpa [hx] using hmem)
  have hi' : i ≤ m := le_trans (Nat.le_of_lt_succ (Finset.mem_range.1 hi)) hlen
  have hj' : j ≤ m := le_trans (Nat.le_of_lt_succ (Finset.mem_range.1 hj)) hlen
  -- two positions `a < b` with the same id shorten the way to `f`
  have key : ∀ a b, a < b → b ≤ m →
      (fun c : Option Nat => c.bind (parentOf s))^[a] c =
        (fun c : Option Nat => c.bind (parentOf s))^[b] c → False := by
    intro a b hab hb hsame
    have hstep : (fun c : Option Nat => c.bind (parentOf s))^[(m - b + a) + 1] c = some f := by
      have e1 : (m - b + a) + 1 = (m + 1 - b) + a := by omega
      have e2 : m + 1 = (m + 1 - b) + b := by omega
      rw [e1, Function.iterate_add_apply, hsame, ← Function.iterate_add_apply, ← e2]
      exact hm
    exact hmin (m - b + a) (by omega) hstep
  obtain ⟨x, hx, _⟩ := hids i hi'
  obtain ⟨y, hy, _⟩ := hids j hj'
  have hxy : x = y := by simpa [hx, hy] using heq
  have hsame : (fun c : Option Nat => c.bind (parentOf s))^[i] c =
      (fun c : Option Nat => c.bind (parentOf s))^[j] c := by rw [hx, hy, hxy]
  rcases Nat.lt_or_gt_of_ne hne with hlt | hgt
  · exact key i j hlt hj' hsame
  · exact key j i hgt hi' hsame.symm

/-- With unique ids, looking up the id of a node finds that node. -/
theorem find_id_of_mem (nodes : List Node) (n : Node)
    (hnodup : (nodes.map (fun m => m.id)).Nodup) (hmem : n ∈ nodes) :
    nodes.find? (fun m => decide (m.id = n.id)) = some n := by
  induction nodes with
  | nil => cases hmem
  | cons a rest ih =>
    rw [List.map_cons, List.nodup_cons] at hnodup
    rcases List.mem_cons.1 hmem with h | h
    · subst h
      simp
    · have hne : a.id ≠ n.id := by
        intro heq
        exact hnodup.1 (heq ▸ List.mem_map.2 ⟨n, h, rfl⟩)
      rw [List.find?_cons]
      simp only [hne, decide_False]
      exact ih hnodup.2 h

/-- With unique ids, `nodeById` finds every node under its id. -/
theorem nodeById_of_mem (s : Store) (n : Node) (hids : UniqueIds s) (hmem : n ∈ s.nodes) :
    nodeById s n.id = some n :=
  find_id_of_mem s.nodes n hids.1 hmem

/-- The node found under an id is also found by its owner. -/
theorem find_owned_of_find (nodes : List Node) (n : Node)
    (hfind : nodes.find? (fun m => decide (m.id = n.id)) = some n) :
    nodes.find? (fun m => decide (m.id = n.id ∧ m.ownerId = n.ownerId)) = some n := by
  induction nodes with
  | nil => simp at hfind
  | cons a rest ih =>
    rw [List.find?_cons] at hfind ⊢
    by_cases ha : a.id = n.id
    · simp only [ha, decide_True] at hfind
      have : a = n := Option.some.inj hfind
      subst this
      simp
    · simp only [ha, decide_False] at hfind
      simp only [ha, false_and, decide_False]
      exact ih hfind

/-- With unique ids, the owner of a node finds it under its id. -/
theorem ownedNode_of_mem (s : Store) (n : Node) (hids : UniqueIds s) (hmem : n ∈ s.nodes) :
    ownedNode s n.ownerId n.id = some n :=
  find_owned_of_find s.nodes n (find_id_of_mem s.nodes n hids.1 hmem)

/-- With unique ids, the parent pointer read through the id of a node is the
pointer of that node. -/
theorem parentOf_of_mem (s : Store) (n : Node) (hids : UniqueIds s) (hmem : n ∈ s.nodes) :
    parentOf s n.id = n.parentId := by
  simp [parentOf, nodeById_of_mem s n hids hmem]

/-- A proper descendant reaches its ancestor in at least one step up. -/
theorem descends_reaches (s : Store) (hids : UniqueIds s) (d f : Nat) (h : Descends s d f) :
    ∃ m, (fun c : Option Nat => c.bind (parentOf s))^[m + 1] (some d) = some f := by
  induction h with
  | child n f hmem hparent =>
    exact ⟨0, by simp [parentOf_of_mem s n hids hmem, hparent]⟩
  | above n p f hmem hparent _ ih =>
    obtain ⟨m, hm⟩ := ih
    refine ⟨m + 1, ?_⟩
    rw [Function.iterate_succ_apply]
    simpa [parentOf_of_mem s n hids hmem, hparent] using hm

/-- With unique ids, the walk over the ancestors of a node meets every node it
descends from. -/
theorem mem_ancestors_of_descends (s : Store) (hids : UniqueIds s) (d f : Nat)
    (h : Descends s d f) : f ∈ ancestorsFrom s (parentOf s d) := by
  obtain ⟨j, hj, hreach⟩ := reach_within s (some d) f (descends_reaches s hids d f h)
  exact (mem_ancestorChain s f s.nodes.length (parentOf s d)).2 ⟨j, hj, by simpa using hreach⟩

/-- C11: for every tree state (with unique node ids) and every node `f` of the
caller, in particular every folder, a move of `f` whose target parent is `f`
itself or any descendant of `f` fails with `CyclicMove` and returns the state it
was given. -/
theorem move_into_subtree_fails (s : Store) (f : Node) (target now : Nat)
    (hids : UniqueIds s) (hf : f ∈ s.nodes)
    (htarget : target = f.id ∨ Descends s target f.id) :
    move s f.ownerId f.id (some target) now = (s, Except.error ServiceError.cyclicMove) := by
  have hcyc : cyclic s f.id (some target) = true := by
    rcases htarget with h | h
    · simp [cyclic, h]
    · have := mem_ancestors_of_descends s hids target f.id h
      simp [cyclic, this]
  simp [move, ownedNode_of_mem s f hids hf, hcyc]

/-- C13: for every account and every upload whose size, the declared one or
the one actually written, would bring `used_bytes` above `limit_bytes`, the
upload fails with `QuotaExceeded` and returns the state it was given: it creates
no node and leaves `used_bytes` unchanged. -/
theorem upload_over_quota_fails (s : Store) (owner : Nat) (parent : Option Nat)
    (name : String) (declaredSize : Nat) (written : Option Nat) (now : Nat)
    (hover : s.usedBytes owner + declaredSize > s.limitBytes owner ∨
      ∃ actual, written = some actual ∧ s.usedBytes owner + actual > s.limitBytes owner) :
    upload s owner parent name declaredSize written now =
      (s, Except.error ServiceError.quotaExceeded) ∧
    (upload s owner parent name declaredSize written now).1.nodes = s.nodes ∧
    (upload s owner parent name declaredSize written now).1.usedBytes owner =
      s.usedBytes owner := by
  have h : upload s owner parent name declaredSize written now =
      (s, Except.error ServiceError.quotaExceeded) := by
    unfold upload
    by_cases hd : s.usedBytes owner + declaredSize > s.limitBytes owner
    · simp [hd]
    · rcases hover with h | ⟨actual, hw, ha⟩
      · exact absurd h hd
      · have hne : actual ≠ declaredSize := by
          intro heq
          exact hd (heq ▸ ha)
        simp [hd, hw, hne, ha]
  rw [h]
  exact ⟨rfl, rfl, rfl⟩

/-- C16: purging an id that is already purged succeeds and returns the state it
was given, tree and quota included; and for every state and every id, a purge
followed by a second purge of the same id gives what the single purge gave. -/
theorem purge_idempotent (s : Store) (owner nodeId : Nat) :
    (nodeId ∈ s.purged → purge s owner nodeId = (s, Except.ok ())) ∧
    ((purge s owner nodeId).2 = Except.ok () → nodeId ∈ (purge s owner nodeId).1.purged) ∧
    purge (purge s owner nodeId).1 owner nodeId = purge s owner nodeId := by
  have hfirst : nodeId ∈ s.purged → purge s owner nodeId = (s, Except.ok ()) := by
    intro h
    simp [purge, h]
  have hmarks : (purge s owner nodeId).2 = Except.ok () →
      nodeId ∈ (purge s owner nodeId).1.purged := by
    intro hok
    by_cases hp : nodeId ∈ s.purged
    · rw [hfirst hp]; exact hp
    · cases hfind : ownedNode s owner nodeId with
      | none => simp [purge, hp, hfind] at hok
      | some n =>
        have hmem : n ∈ s.nodes := List.mem_of_find?_eq_some hfind
        have hid : n.id = nodeId := by
          have := List.find?_some hfind
          simp only [decide_eq_true_eq] at this
          exact this.1
        simp only [purge, hp, if_false, hfind, List.mem_append, List.mem_map,
          List.mem_filter]
        exact Or.inr ⟨n, ⟨hmem, by simp [inSubtree, hid]⟩, hid⟩
  refine ⟨hfirst, hmarks, ?_⟩
  by_cases hp : nodeId ∈ s.purged
  · rw [hfirst hp, hfirst hp]
  · cases hfind : ownedNode s owner nodeId with
    | none => simp [purge, hp, hfind]
    | some n =>
      have hok : (purge s owner nodeId).2 = Except.ok () := by simp [purge, hp, hfind]
      have h2 := hmarks hok
      have hsecond : purge (purge s owner nodeId).1 owner nodeId =
          ((purge s owner nodeId).1, Except.ok ()) := by
        generalize (purge s owner nodeId).1 = s' at h2
        simp [purge, h2]
      rw [hsecond, ← hok]

/-- C17: two create requests for the same name in the same folder of the same
owner, each of which would succeed on its own, run as the atomic steps that
`CreateNode` is: in either order the first succeeds and the second fails with
`NameConflict` and changes nothing, so one active sibling carries the name
afterwards, not two. -/
theorem creates_of_same_name_conflict (s : Store) (owner : Nat) (parent : Option Nat)
    (name : String) (folder1 folder2 : Bool) (size1 size2 now1 now2 : Nat) (n1 n2 : Node)
    (h1 : (createNode s owner parent name folder1 size1 now1).2 = Except.ok n1)
    (h2 : (createNode s owner parent name folder2 size2 now2).2 = Except.ok n2) :
    createNode (createNode s owner parent name folder1 size1 now1).1 owner parent name
        folder2 size2 now2 =
      ((createNode s owner parent name folder1 size1 now1).1,
        Except.error ServiceError.nameConflict) ∧
    createNode (createNode s owner parent name folder2 size2 now2).1 owner parent name
        folder1 size1 now1 =
      ((createNode s owner parent name folder2 size2 now2).1,
        Except.error ServiceError.nameConflict) ∧
    (activeNamed (createNode s owner parent name folder1 size1 now1).1 owner parent
      name).length = 1 ∧
    (activeNamed (createNode s owner parent name folder2 size2 now2).1 owner parent
      name).length = 1 := by
  have key : ∀ (folder : Bool) (size now : Nat) (n : Node),
      (createNode s owner parent name folder size now).2 = Except.ok n →
      (∀ (folder' : Bool) (size' now' : Nat),
        createNode (createNode s owner parent name folder size now).1 owner parent name
            folder' size' now' =
          ((createNode s owner parent name folder size now).1,
            Except.error ServiceError.nameConflict)) ∧
      (activeNamed (createNode s owner parent name folder size now).1 owner parent
        name).length = 1 := by
    intro folder size now n hok
    by_cases hpv : parentValid s owner parent = true
    swap
    · simp [createNode, hpv] at hok
    by_cases hnt : nameTaken s owner parent name none = true
    · simp [createNode, hpv, hnt] at hok
    cases hres : (if folder then Except.ok s else reserve s owner size) with
    | error e => simp [createNode, hpv, hnt, hres] at hok
    | ok reserved =>
      have hstate : (createNode s owner parent name folder size now).1 =
          { reserved with
            nodes := s.nodes ++ [newNode s owner parent name folder size now]
            nextId := s.nextId + 1 } := by
        simp [createNode, hpv, hnt, hres]
      rw [hstate]
      have hpv' : parentValid { reserved with
            nodes := s.nodes ++ [newNode s owner parent name folder size now]
            nextId := s.nextId + 1 } owner parent = true := by
        cases parent with
        | none => rfl
        | some p =>
          simp only [parentValid, List.any_append, Bool.or_eq_true] at hpv ⊢
          exact Or.inl hpv
      have hnone : ∀ m ∈ s.nodes,
          (decide (m.ownerId = owner ∧ m.parentId = parent ∧ m.name = name) &&
            m.trashedAt.isNone) = false := by
        intro m hm
        have hnt' : nameTaken s owner parent name none = false := by
          cases h : nameTaken s owner parent name none
          · rfl
          · exact absurd h hnt
        simp only [nameTaken, List.any_eq_false] at hnt'
        have := hnt' m hm
        by_contra hcon
        rw [Bool.not_eq_false, Bool.and_eq_true, decide_eq_true_eq] at hcon
        apply this
        rw [Bool.and_eq_true, decide_eq_true_eq]
        exact ⟨⟨hcon.1.1, hcon.1.2.1, hcon.1.2.2, Option.some_ne_none _⟩, hcon.2⟩
      refine ⟨fun folder' size' now' => ?_, ?_⟩
      · have hnt2 : nameTaken { reserved with
            nodes := s.nodes ++ [newNode s owner parent name folder size now]
            nextId := s.nextId + 1 } owner parent name none = true := by
          simp [nameTaken, List.any_append, newNode]
        simp [createNode, hpv', hnt2]
      · simp only [activeNamed, List.filter_append]
        rw [List.filter_eq_nil_iff.2 (fun m hm h => by
          rw [hnone m hm] at h
          exact Bool.noConfusion h)]
        simp [newNode]
  exact ⟨(key folder1 size1 now1 n1 h1).1 folder2 size2 now2,
    (key folder2 size2 now2 n2 h2).1 folder1 size1 now1,
    (key folder1 size1 now1 n1 h1).2, (key folder2 size2 now2 n2 h2).2⟩

/-- A change of nodes that keeps their ids commutes with the lookup by id. -/
theorem find_id_map (nodes : List Node) (g : Node → Node) (hid : ∀ m, (g m).id = m.id)
    (a : Nat) :
    (nodes.map g).find? (fun m => decide (m.id = a)) =
      (nodes.find? (fun m => decide (m.id = a))).map g := by
  induction nodes with
  | nil => rfl
  | cons x rest ih =>
    rw [List.map_cons, List.find?_cons, List.find?_cons, hid x]
    by_cases hx : x.id = a
    · simp [hx]
    · simp only [hx, decide_False]
      exact ih

/-- Lookup by id after a change of nodes that keeps their ids. -/
theorem nodeById_of_map (s s' : Store) (g : Node → Node) (hnodes : s'.nodes = s.nodes.map g)
    (hid : ∀ m, (g m).id = m.id) (a : Nat) : nodeById s' a = (nodeById s a).map g := by
  unfold nodeById
  rw [hnodes]
  exact find_id_map s.nodes g hid a

/-- Parent pointers after a change of nodes that keeps ids and parents. -/
theorem parentOf_of_map (s s' : Store) (g : Node → Node) (hnodes : s'.nodes = s.nodes.map g)
    (hid : ∀ m, (g m).id = m.id) (hpar : ∀ m, (g m).parentId = m.parentId) (a : Nat) :
    parentOf s' a = parentOf s a := by
  unfold parentOf
  rw [nodeById_of_map s s' g hnodes hid a]
  cases nodeById s a <;> simp [hpar]

/-- The ancestor walk after a change of nodes that keeps ids and parents. -/
theorem ancestorChain_of_map (s s' : Store) (g : Node → Node)
    (hnodes : s'.nodes = s.nodes.map g) (hid : ∀ m, (g m).id = m.id)
    (hpar : ∀ m, (g m).parentId = m.parentId) (fuel : Nat) (c : Option Nat) :
    ancestorChain s' fuel c = ancestorChain s fuel c := by
  induction fuel generalizing c with
  | zero => rfl
  | succ fuel ih =>
    cases c with
    | none => rfl
    | some p =>
      simp only [ancestorChain, parentOf_of_map s s' g hnodes hid hpar p, ih]

/-- The ancestors after a change of nodes that keeps ids and parents. -/
theorem ancestorsFrom_of_map (s s' : Store) (g : Node → Node)
    (hnodes : s'.nodes = s.nodes.map g) (hid : ∀ m, (g m).id = m.id)
    (hpar : ∀ m, (g m).parentId = m.parentId) (c : Option Nat) :
    ancestorsFrom s' c = ancestorsFrom s c := by
  have hlen : s'.nodes.length = s.nodes.length := by rw [hnodes, List.length_map]
  unfold ancestorsFrom
  rw [hlen]
  exact ancestorChain_of_map s s' g hnodes hid hpar _ c

/-- The trashed state by id after a change that keeps ids and, on the nodes of
the store, whether they are trashed. -/
theorem trashedById_of_map (s s' : Store) (g : Node → Node)
    (hnodes : s'.nodes = s.nodes.map g) (hid : ∀ m, (g m).id = m.id)
    (htr : ∀ m ∈ s.nodes, (g m).trashedAt.isSome = m.trashedAt.isSome) (a : Nat) :
    trashedById s' a = trashedById s a := by
  unfold trashedById
  rw [nodeById_of_map s s' g hnodes hid a]
  cases hfind : nodeById s a with
  | none => rfl
  | some m => exact htr m (List.mem_of_find?_eq_some hfind)

/-- Visibility after a change that keeps ids, parents and, on the nodes of the
store, whether they are trashed. -/
theorem consideredTrashed_of_map (s s' : Store) (g : Node → Node)
    (hnodes : s'.nodes = s.nodes.map g) (hid : ∀ m, (g m).id = m.id)
    (hpar : ∀ m, (g m).parentId = m.parentId)
    (htr : ∀ m ∈ s.nodes, (g m).trashedAt.isSome = m.trashedAt.isSome) (m : Node)
    (hm : m ∈ s.nodes) : consideredTrashed s' (g m) = consideredTrashed s m := by
  have hfun : trashedById s' = trashedById s :=
    funext (trashedById_of_map s s' g hnodes hid htr)
  unfold consideredTrashed
  rw [htr m hm, hpar m, ancestorsFrom_of_map s s' g hnodes hid hpar, hfun]

/-- With unique ids, two nodes of the store with the same id are the same. -/
theorem eq_of_id_eq (s : Store) (hids : UniqueIds s) (m n : Node) (hm : m ∈ s.nodes)
    (hn : n ∈ s.nodes) (h : m.id = n.id) : m = n := by
  have h1 := find_id_of_mem s.nodes m hids.1 hm
  have h2 := find_id_of_mem s.nodes n hids.1 hn
  rw [h] at h1
  exact Option.some.inj (h1.symm.trans h2)

/-- A change of one node that keeps its id keeps the ids unique. -/
theorem uniqueIds_updateNode (s : Store) (id : Nat) (f : Node → Node)
    (hf : ∀ m, (f m).id = m.id) (hids : UniqueIds s) : UniqueIds (updateNode s id f) := by
  have hmap : (updateNode s id f).nodes.map (fun n => n.id) = s.nodes.map (fun n => n.id) := by
    simp only [updateNode, List.map_map]
    apply List.map_congr_left
    intro m _
    by_cases h : m.id = id <;> simp [h, hf]
  refine ⟨by rw [hmap]; exact hids.1, ?_⟩
  intro n hn
  have : n.id ∈ (updateNode s id f).nodes.map (fun n => n.id) := List.mem_map.2 ⟨n, hn, rfl⟩
  rw [hmap] at this
  obtain ⟨m, hm, hmid⟩ := List.mem_map.1 this
  have := hids.2 m hm
  simp only [updateNode]
  omega

/-- The changed node is in the store after `updateNode`. -/
theorem mem_updateNode_self (s : Store) (n : Node) (f : Node → Node) (hn : n ∈ s.nodes) :
    f n ∈ (updateNode s n.id f).nodes :=
  List.mem_map.2 ⟨n, hn, by simp⟩

/-- With unique ids, the changed node is the only one under its id after
`updateNode`. -/
theorem eq_of_mem_updateNode (s : Store) (n : Node) (f : Node → Node)
    (hf : ∀ m, (f m).id = m.id) (hids : UniqueIds s) (hn : n ∈ s.nodes) (m : Node)
    (hm : m ∈ (updateNode s n.id f).nodes) (hid : m.id = n.id) : m = f n := by
  have hfn : (f n).id = m.id := by rw [hf, hid]
  exact eq_of_id_eq _ (uniqueIds_updateNode s n.id f hf hids) m (f n) hm
    (mem_updateNode_self s n f hn) hfn.symm

/-- What `Trash` does to an active node of the caller. -/
theorem trash_of_active (s : Store) (n : Node) (t1 : Nat) (hids : UniqueIds s)
    (hn : n ∈ s.nodes) (hnone : n.trashedAt = none) :
    trash s n.ownerId n.id t1 = (updateNode s n.id (markTrashed t1), Except.ok ()) := by
  simp [trash, ownedNode_of_mem s n hids hn, hnone]

/-- What `Restore` does to a trashed node of the caller. -/
theorem restore_of_trashed (s : Store) (n : Node) (owner id t t2 : Nat) (hids : UniqueIds s)
    (hn : n ∈ s.nodes) (howner : n.ownerId = owner) (hid : n.id = id)
    (hsome : n.trashedAt = some t) :
    restore s owner id t2 = (updateNode s id (markRestored t2), Except.ok ()) := by
  subst howner hid
  simp [restore, ownedNode_of_mem s n hids hn, hsome]

/-- Trashing and then restoring an active node only bumps its `updated_at`:
every node is as visible as before. -/
theorem consideredTrashed_roundtrip (s : Store) (n : Node) (t1 t2 : Nat) (hids : UniqueIds s)
    (hn : n ∈ s.nodes) (hnone : n.trashedAt = none) :
    consideredTrashed
        (updateNode (updateNode s n.id (markTrashed t1)) n.id (markRestored t2))
        (markRestored t2 (markTrashed t1 n)) =
      consideredTrashed s n := by
  have h := consideredTrashed_of_map s
    (updateNode (updateNode s n.id (markTrashed t1)) n.id (markRestored t2))
    (fun m => if m.id = n.id then markRestored t2 (markTrashed t1 m) else m)
    (by
      simp only [updateNode, List.map_map]
      apply List.map_congr_left
      intro m _
      by_cases h : m.id = n.id <;> simp [h, markTrashed])
    (fun m => by by_cases h : m.id = n.id <;> simp [h, markTrashed, markRestored])
    (fun m => by by_cases h : m.id = n.id <;> simp [h, markTrashed, markRestored])
    (fun m hm => by
      by_cases h : m.id = n.id
      · have := eq_of_id_eq s hids m n hm hn h
        subst this
        simp [hnone, markTrashed, markRestored]
      · simp [h])
    n hn
  simpa using h

/-- C14: for every active node (not trashed and below no trashed folder, so
shown in the active listing), trashing it puts it in the trash listing and takes
it out of the active listing, and restoring it then returns it to `Active` with
the `parent_id`, `name` and `size_bytes` it had: it is again in the active
listing of its folder and in no trash listing. -/
theorem trash_restore_roundtrip (s : Store) (n : Node) (t1 t2 : Nat) (hids : UniqueIds s)
    (hn : n ∈ s.nodes) (hactive : consideredTrashed s n = false) :
    n ∈ listNodes s n.ownerId n.parentId false ∧
    (trash s n.ownerId n.id t1).2 = Except.ok () ∧
    (∃ m ∈ listNodes (trash s n.ownerId n.id t1).1 n.ownerId n.parentId true, m.id = n.id) ∧
    (∀ parent, ∀ m ∈ listNodes (trash s n.ownerId n.id t1).1 n.ownerId parent false,
      m.id ≠ n.id) ∧
    (restore (trash s n.ownerId n.id t1).1 n.ownerId n.id t2).2 = Except.ok () ∧
    (∃ m ∈ listNodes (restore (trash s n.ownerId n.id t1).1 n.ownerId n.id t2).1
        n.ownerId n.parentId false,
      m.id = n.id ∧ m.trashedAt = none ∧ m.parentId = n.parentId ∧ m.name = n.name ∧
        m.sizeBytes = n.sizeBytes) ∧
    (∀ parent, ∀ m ∈ listNodes (restore (trash s n.ownerId n.id t1).1 n.ownerId n.id t2).1
        n.ownerId parent true, m.id ≠ n.id) ∧
    (∀ m ∈ (restore (trash s n.ownerId n.id t1).1 n.ownerId n.id t2).1.nodes, m.id = n.id →
      m.trashedAt = none ∧ m.parentId = n.parentId ∧ m.name = n.name ∧
        m.sizeBytes = n.sizeBytes) := by
  have hnone : n.trashedAt = none := by
    cases h : n.trashedAt with
    | none => rfl
    | some t => simp [consideredTrashed, h] at hactive
  have hids1 : UniqueIds (updateNode s n.id (markTrashed t1)) :=
    uniqueIds_updateNode s n.id _ (fun _ => rfl) hids
  have hn1 := mem_updateNode_self s n (markTrashed t1) hn
  have hone1 := eq_of_mem_updateNode s n (markTrashed t1) (fun _ => rfl) hids hn
  have hn2 := mem_updateNode_self (updateNode s n.id (markTrashed t1)) (markTrashed t1 n)
    (markRestored t2) hn1
  have hone2 := eq_of_mem_updateNode (updateNode s n.id (markTrashed t1)) (markTrashed t1 n)
    (markRestored t2) (fun _ => rfl) hids1 hn1
  have hvis := consideredTrashed_roundtrip s n t1 t2 hids hn hnone
  rw [hactive] at hvis
  rw [trash_of_active s n t1 hids hn hnone]
  simp only
  rw [restore_of_trashed (updateNode s n.id (markTrashed t1)) (markTrashed t1 n) n.ownerId n.id
    t1 t2 hids1 hn1 rfl rfl rfl]
  simp only
  refine ⟨?_, trivial, ?_, ?_, trivial, ?_, ?_, ?_⟩
  · simp [listNodes, hn, hactive]
  · refine ⟨markTrashed t1 n, ?_, rfl⟩
    simp only [listNodes, List.mem_filter]
    exact ⟨hn1, by simp [consideredTrashed, markTrashed]⟩
  · intro parent m hm hid
    simp only [listNodes, List.mem_filter] at hm
    have := hone1 m hm.1 hid
    subst this
    simp [consideredTrashed, markTrashed] at hm
  · refine ⟨markRestored t2 (markTrashed t1 n), ?_, rfl, rfl, rfl, rfl, rfl⟩
    simp only [listNodes, List.mem_filter]
    refine ⟨hn2, ?_⟩
    simp only [hvis]
    simp [markTrashed, markRestored]
  · intro parent m hm hid
    simp only [listNodes, List.mem_filter] at hm
    have := hone2 m hm.1 hid
    subst this
    simp [hvis] at hm
  · intro m hm hid
    have := hone2 m hm hid
    subst this
    exact ⟨rfl, rfl, rfl, rfl⟩

/-- The bytes of files add up over a concatenation. -/
theorem fileBytes_append (owner : Nat) (l l' : List Node) :
    fileBytes owner (l ++ l') = fileBytes owner l + fileBytes owner l' := by
  simp [fileBytes, List.filter_append, List.map_append, List.sum_append]

/-- The bytes of files do not change when owner, kind and size are kept. -/
theorem fileBytes_map (owner : Nat) (g : Node → Node) (l : List Node)
    (hg : ∀ m, (g m).ownerId = m.ownerId ∧ (g m).isFolder = m.isFolder ∧
      (g m).sizeBytes = m.sizeBytes) :
    fileBytes owner (l.map g) = fileBytes owner l := by
  induction l with
  | nil => rfl
  | cons x rest ih =>
    have hx := hg x
    have h1 : fileBytes owner (g x :: rest.map g) =
        fileBytes owner [g x] + fileBytes owner (rest.map g) := fileBytes_append owner [g x] _
    have h2 : fileBytes owner (x :: rest) = fileBytes owner [x] + fileBytes owner rest :=
      fileBytes_append owner [x] _
    have h3 : fileBytes owner [g x] = fileBytes owner [x] := by
      by_cases hc : x.ownerId = owner ∧ x.isFolder = false <;>
        simp [fileBytes, List.filter_cons, hx.1, hx.2.1, hx.2.2, hc]
    rw [List.map_cons, h1, h2, h3, ih]

/-- The bytes of files split over a filter and its complement. -/
theorem fileBytes_filter_add (owner : Nat) (p : Node → Bool) (l : List Node) :
    fileBytes owner (l.filter p) + fileBytes owner (l.filter (fun m => !p m)) =
      fileBytes owner l := by
  induction l with
  | nil => rfl
  | cons x rest ih =>
    have h2 : fileBytes owner (x :: rest) = fileBytes owner [x] + fileBytes owner rest :=
      fileBytes_append owner [x] _
    cases hp : p x
    · have h1 : fileBytes owner (x :: rest.filter (fun m => !p m)) =
          fileBytes owner [x] + fileBytes owner (rest.filter (fun m => !p m)) :=
        fileBytes_append owner [x] _
      simp only [List.filter_cons, hp, Bool.not_false, if_true, Bool.false_eq_true, if_false]
      rw [h1, h2, ← ih]
      omega
    · have h1 : fileBytes owner (x :: rest.filter p) =
          fileBytes owner [x] + fileBytes owner (rest.filter p) :=
        fileBytes_append owner [x] _
      simp only [List.filter_cons, hp, Bool.not_true, if_true, Bool.false_eq_true, if_false]
      rw [h1, h2, ← ih]
      omega

/-- What `CreateNode` leaves: the state it was given, or that state with the
quota reserved and the new node appended. -/
theorem createNode_state (s : Store) (owner : Nat) (parent : Option Nat) (name : String)
    (isFolder : Bool) (sizeBytes now : Nat) :
    (createNode s owner parent name isFolder sizeBytes now).1 = s ∨
      ((isFolder = true ∨ s.usedBytes owner + sizeBytes ≤ s.limitBytes owner) ∧
        (createNode s owner parent name isFolder sizeBytes now).1 =
          { nodes := s.nodes ++ [newNode s owner parent name isFolder sizeBytes now]
            usedBytes := if isFolder then s.usedBytes
              else Function.update s.usedBytes owner (s.usedBytes owner + sizeBytes)
            limitBytes := s.limitBytes
            nextId := s.nextId + 1
            purged := s.purged }) := by
  unfold createNode
  by_cases hpv : parentValid s owner parent = true
  swap
  · simp [hpv]
  by_cases hnt : nameTaken s owner parent name none = true
  · simp [hpv, hnt]
  cases isFolder with
  | true => simp [hpv, hnt]
  | false =>
    by_cases hq : s.usedBytes owner + sizeBytes ≤ s.limitBytes owner
    · simp [hpv, hnt, reserve, hq]
    · simp [hpv, hnt, reserve, hq]

/-- What `Upload` leaves: the state it was given, or what `CreateNode` of a
file leaves. -/
theorem upload_state (s : Store) (owner : Nat) (parent : Option Nat) (name : String)
    (declaredSize : Nat) (written : Option Nat) (now : Nat) :
    (upload s owner parent name declaredSize written now).1 = s ∨
      ∃ actual, (upload s owner parent name declaredSize written now).1 =
        (createNode s owner parent name false actual now).1 := by
  unfold upload
  by_cases hd : s.usedBytes owner + declaredSize > s.limitBytes owner
  · simp [hd]
  · cases written with
    | none => simp [hd]
    | some actual =>
      by_cases ha : actual ≠ declaredSize ∧ s.usedBytes owner + actual > s.limitBytes owner
      · left
        simp only [hd, if_false]
        rw [if_pos ha]
      · right
        refine ⟨actual, ?_⟩
        simp only [hd, if_false]
        rw [if_neg ha]

/-- What a purge leaves: the state it was given, or that state without the
subtree and with the bytes of the removed files released. -/
theorem purge_state (s : Store) (owner nodeId : Nat) :
    (purge s owner nodeId).1 = s ∨
      (purge s owner nodeId).1 =
        { nodes := s.nodes.filter (fun m => !inSubtree s nodeId m)
          usedBytes := fun o =>
            s.usedBytes o - fileBytes o (s.nodes.filter (fun m => inSubtree s nodeId m))
          limitBytes := s.limitBytes
          nextId := s.nextId
          purged := s.purged ++ (s.nodes.filter (fun m => inSubtree s nodeId m)).map
            (fun m => m.id) } := by
  unfold purge
  by_cases hp : nodeId ∈ s.purged
  · simp [hp]
  · cases ownedNode s owner nodeId <;> simp [hp]

/-- What `Rename`, `Move`, `Trash` and `Restore` leave: the state they were
given, or that state with one node changed in name, parent, trash time or
update time. -/
theorem step_update_state (s : Store) (op : Op)
    (hop : (∃ owner nodeId newName now, op = Op.rename owner nodeId newName now) ∨
      (∃ owner nodeId newParent now, op = Op.move owner nodeId newParent now) ∨
      (∃ owner nodeId now, op = Op.trash owner nodeId now) ∨
      (∃ owner nodeId now, op = Op.restore owner nodeId now)) :
    step s op = s ∨ ∃ id f,
      (∀ m, (f m).id = m.id ∧ (f m).ownerId = m.ownerId ∧ (f m).isFolder = m.isFolder ∧
        (f m).sizeBytes = m.sizeBytes) ∧
      (op.isTrash = false → ∀ m, m.trashedAt = none → (f m).trashedAt = none) ∧
      step s op = updateNode s id f := by
  rcases hop with ⟨owner, nodeId, newName, now, rfl⟩ | ⟨owner, nodeId, newParent, now, rfl⟩ |
    ⟨owner, nodeId, now, rfl⟩ | ⟨owner, nodeId, now, rfl⟩
  · simp only [step, rename]
    cases ownedNode s owner nodeId with
    | none => exact Or.inl rfl
    | some n =>
      by_cases h : nameTaken s owner n.parentId newName (some nodeId) = true
      · simp [h]
      · right
        exact ⟨nodeId, markRenamed newName now, fun _ => ⟨rfl, rfl, rfl, rfl⟩,
          fun _ _ hm => hm, by simp [h]⟩
  · simp only [step, move]
    cases ownedNode s owner nodeId with
    | none => exact Or.inl rfl
    | some n =>
      by_cases h1 : cyclic s nodeId newParent = true
      · simp [h1]
      by_cases h2 : parentValid s owner newParent = true
      swap
      · simp [h1, h2]
      by_cases h3 : nameTaken s owner newParent n.name (some nodeId) = true
      · simp [h1, h2, h3]
      · right
        exact ⟨nodeId, markMoved newParent now, fun _ => ⟨rfl, rfl, rfl, rfl⟩,
          fun _ _ hm => hm, by simp [h1, h2, h3]⟩
  · simp only [step, trash]
    cases ownedNode s owner nodeId with
    | none => exact Or.inl rfl
    | some n =>
      by_cases h : n.trashedAt.isSome = true
      · simp [h]
      · right
        exact ⟨nodeId, markTrashed now, fun _ => ⟨rfl, rfl, rfl, rfl⟩,
          fun hk => by simp [Op.isTrash] at hk, by simp [h]⟩
  · simp only [step, restore]
    cases ownedNode s owner nodeId with
    | none => exact Or.inl rfl
    | some n =>
      by_cases h : n.trashedAt.isNone = true
      · simp [h]
      · right
        exact ⟨nodeId, markRestored now, fun _ => ⟨rfl, rfl, rfl, rfl⟩, fun _ _ _ => rfl,
          by simp [h]⟩

/-- `CreateNode` keeps the quota counters exact. -/
theorem quotaExact_createNode (s : Store) (owner : Nat) (parent : Option Nat) (name : String)
    (isFolder : Bool) (sizeBytes now : Nat) (h : QuotaExact s) :
    QuotaExact (createNode s owner parent name isFolder sizeBytes now).1 := by
  rcases createNode_state s owner parent name isFolder sizeBytes now with hs | ⟨_, hs⟩
  · rw [hs]; exact h
  · rw [hs]
    intro o
    simp only [fileBytes_append]
    cases isFolder with
    | true =>
      simp only [if_true]
      rw [h o]
      simp [fileBytes, newNode, List.filter_cons]
    | false =>
      simp only [Bool.false_eq_true, if_false]
      by_cases ho : o = owner
      · subst ho
        rw [Function.update_same, h o]
        simp [fileBytes, newNode, List.filter_cons]
      · rw [Function.update_noteq ho, h o]
        have hne : ¬ owner = o := fun hh => ho hh.symm
        simp [fileBytes, newNode, List.filter_cons, hne]

/-- A change of one node that keeps owner, kind and size keeps the quota
counters exact. -/
theorem quotaExact_updateNode (s : Store) (id : Nat) (f : Node → Node)
    (hf : ∀ m, (f m).ownerId = m.ownerId ∧ (f m).isFolder = m.isFolder ∧
      (f m).sizeBytes = m.sizeBytes) (h : QuotaExact s) :
    QuotaExact (updateNode s id f) := by
  intro o
  simp only [updateNode]
  rw [fileBytes_map o (fun m => if m.id = id then f m else m) s.nodes
    (fun m => by by_cases hm : m.id = id <;> simp [hm, hf m])]
  exact h o

/-- A purge keeps the quota counters exact. -/
theorem quotaExact_purge (s : Store) (owner nodeId : Nat) (h : QuotaExact s) :
    QuotaExact (purge s owner nodeId).1 := by
  rcases purge_state s owner nodeId with hs | hs
  · rw [hs]; exact h
  · rw [hs]
    intro o
    have hsplit := fileBytes_filter_add o (fun m => inSubtree s nodeId m) s.nodes
    simp only
    rw [h o]
    omega

/-- Every request keeps the quota counters exact. -/
theorem quotaExact_step (s : Store) (op : Op) (h : QuotaExact s) : QuotaExact (step s op) := by
  cases op with
  | createFolder owner name parent now => exact quotaExact_createNode s owner parent name _ _ _ h
  | upload owner parent name declaredSize written now =>
    rcases upload_state s owner parent name declaredSize written now with hs | ⟨actual, hs⟩
    · simp only [step]; rw [hs]; exact h
    · simp only [step]; rw [hs]; exact quotaExact_createNode s owner parent name _ _ _ h
  | purge owner nodeId => exact quotaExact_purge s owner nodeId h
  | rename owner nodeId newName now =>
    rcases step_update_state s (Op.rename owner nodeId newName now)
      (Or.inl ⟨_, _, _, _, rfl⟩) with hs | ⟨id, f, hf, _, hs⟩
    · rw [hs]; exact h
    · rw [hs]; exact quotaExact_updateNode s id f (fun m => (hf m).2) h
  | move owner nodeId newParent now =>
    rcases step_update_state s (Op.move owner nodeId newParent now)
      (Or.inr (Or.inl ⟨_, _, _, _, rfl⟩)) with hs | ⟨id, f, hf, _, hs⟩
    · rw [hs]; exact h
    · rw [hs]; exact quotaExact_updateNode s id f (fun m => (hf m).2) h
  | trash owner nodeId now =>
    rcases step_update_state s (Op.trash owner nodeId now)
      (Or.inr (Or.inr (Or.inl ⟨_, _, _, rfl⟩))) with hs | ⟨id, f, hf, _, hs⟩
    · rw [hs]; exact h
    · rw [hs]; exact quotaExact_updateNode s id f (fun m => (hf m).2) h
  | restore owner nodeId now =>
    rcases step_update_state s (Op.restore owner nodeId now)
      (Or.inr (Or.inr (Or.inr ⟨_, _, _, rfl⟩))) with hs | ⟨id, f, hf, _, hs⟩
    · rw [hs]; exact h
    · rw [hs]; exact quotaExact_updateNode s id f (fun m => (hf m).2) h

/-- Every sequence of requests keeps the quota counters exact. -/
theorem quotaExact_run (ops : List Op) (s : Store) (h : QuotaExact s) :
    QuotaExact (run s ops) := by
  induction ops generalizing s with
  | nil => exact h
  | cons op rest ih => exact ih (step s op) (quotaExact_step s op h)

/-- `CreateNode` keeps the ids unique. -/
theorem uniqueIds_createNode (s : Store) (owner : Nat) (parent : Option Nat) (name : String)
    (isFolder : Bool) (sizeBytes now : Nat) (h : UniqueIds s) :
    UniqueIds (createNode s owner parent name isFolder sizeBytes now).1 := by
  rcases createNode_state s owner parent name isFolder sizeBytes now with hs | ⟨_, hs⟩
  · rw [hs]; exact h
  · rw [hs]
    refine ⟨?_, ?_⟩
    · simp only [List.map_append, List.map_cons, List.map_nil]
      rw [List.nodup_append]
      refine ⟨h.1, List.nodup_singleton _, ?_⟩
      intro a ha hb
      rw [List.mem_singleton] at hb
      obtain ⟨m, hm, rfl⟩ := List.mem_map.1 ha
      have := h.2 m hm
      simp only [newNode] at hb
      omega
    · intro n hn
      simp only [List.mem_append, List.mem_singleton] at hn
      rcases hn with hn | hn
      · have := h.2 n hn
        simp only
        omega
      · subst hn
        simp [newNode]

/-- A purge keeps the ids unique. -/
theorem uniqueIds_purge (s : Store) (owner nodeId : Nat) (h : UniqueIds s) :
    UniqueIds (purge s owner nodeId).1 := by
  rcases purge_state s owner nodeId with hs | hs
  · rw [hs]; exact h
  · rw [hs]
    refine ⟨?_, ?_⟩
    · exact List.Nodup.sublist ((List.filter_sublist _).map _) h.1
    · intro n hn
      exact h.2 n (List.mem_of_mem_filter hn)

/-- Every request keeps the ids unique. -/
theorem uniqueIds_step (s : Store) (op : Op) (h : UniqueIds s) : UniqueIds (step s op) := by
  cases op with
  | createFolder owner name parent now => exact uniqueIds_createNode s owner parent name _ _ _ h
  | upload owner parent name declaredSize written now =>
    rcases upload_state s owner parent name declaredSize written now with hs | ⟨actual, hs⟩
    · simp only [step]; rw [hs]; exact h
    · simp only [step]; rw [hs]; exact uniqueIds_createNode s owner parent name _ _ _ h
  | purge owner nodeId => exact uniqueIds_purge s owner nodeId h
  | rename owner nodeId newName now =>
    rcases step_update_state s (Op.rename owner nodeId newName now)
      (Or.inl ⟨_, _, _, _, rfl⟩) with hs | ⟨id, f, hf, _, hs⟩
    · rw [hs]; exact h
    · rw [hs]; exact uniqueIds_updateNode s id f (fun m => (hf m).1) h
  | move owner nodeId newParent now =>
    rcases step_update_state s (Op.move owner nodeId newParent now)
      (Or.inr (Or.inl ⟨_, _, _, _, rfl⟩)) with hs | ⟨id, f, hf, _, hs⟩
    · rw [hs]; exact h
    · rw [hs]; exact uniqueIds_updateNode s id f (fun m => (hf m).1) h
  | trash owner nodeId now =>
    rcases step_update_state s (Op.trash owner nodeId now)
      (Or.inr (Or.inr (Or.inl ⟨_, _, _, rfl⟩))) with hs | ⟨id, f, hf, _, hs⟩
    · rw [hs]; exact h
    · rw [hs]; exact uniqueIds_updateNode s id f (fun m => (hf m).1) h
  | restore owner nodeId now =>
    rcases step_update_state s (Op.restore owner nodeId now)
      (Or.inr (Or.inr (Or.inr ⟨_, _, _, rfl⟩))) with hs | ⟨id, f, hf, _, hs⟩
    · rw [hs]; exact h
    · rw [hs]; exact uniqueIds_updateNode s id f (fun m => (hf m).1) h

/-- Every state reached from the empty service has unique ids. -/
theorem uniqueIds_run (ops : List Op) (s : Store) (h : UniqueIds s) : UniqueIds (run s ops) := by
  induction ops generalizing s with
  | nil => exact h
  | cons op rest ih => exact ih (step s op) (uniqueIds_step s op h)

/-- The empty service has unique ids and exact quota counters. -/
theorem empty_invariants (limitBytes : Nat → Nat) :
    UniqueIds (empty limitBytes) ∧ QuotaExact (empty limitBytes) ∧
      NoneTrashed (empty limitBytes) := by
  refine ⟨⟨by simp [empty], by simp [empty]⟩, fun o => by simp [empty, fileBytes], ?_⟩
  intro n hn
  simp [empty] at hn

/-- A request other than `Trash` trashes nothing. -/
theorem noneTrashed_step (s : Store) (op : Op) (hop : op.isTrash = false)
    (h : NoneTrashed s) : NoneTrashed (step s op) := by
  have hcreate : ∀ owner parent name isFolder sizeBytes now,
      NoneTrashed (createNode s owner parent name isFolder sizeBytes now).1 := by
    intro owner parent name isFolder sizeBytes now
    rcases createNode_state s owner parent name isFolder sizeBytes now with hs | ⟨_, hs⟩
    · rw [hs]; exact h
    · rw [hs]
      intro n hn
      simp only [List.mem_append, List.mem_singleton] at hn
      rcases hn with hn | hn
      · exact h n hn
      · subst hn; rfl
  have hupdate : ∀ id f, (∀ m, m.trashedAt = none → (f m).trashedAt = none) →
      NoneTrashed (updateNode s id f) := by
    intro id f hf n hn
    obtain ⟨m, hm, rfl⟩ := List.mem_map.1 hn
    by_cases hmid : m.id = id
    · simp only [hmid, if_true]; exact hf m (h m hm)
    · simp only [hmid, if_false]; exact h m hm
  cases op with
  | createFolder owner name parent now => exact hcreate owner parent name _ _ _
  | upload owner parent name declaredSize written now =>
    rcases upload_state s owner parent name declaredSize written now with hs | ⟨actual, hs⟩
    · simp only [step]; rw [hs]; exact h
    · simp only [step]; rw [hs]; exact hcreate owner parent name _ _ _
  | purge owner nodeId =>
    rcases purge_state s owner nodeId with hs | hs
    · simp only [step]; rw [hs]; exact h
    · simp only [step]; rw [hs]
      intro n hn
      exact h n (List.mem_of_mem_filter hn)
  | rename owner nodeId newName now =>
    rcases step_update_state s (Op.rename owner nodeId newName now)
      (Or.inl ⟨_, _, _, _, rfl⟩) with hs | ⟨id, f, _, hf, hs⟩
    · rw [hs]; exact h
    · rw [hs]; exact hupdate id f (hf hop)
  | move owner nodeId newParent now =>
    rcases step_update_state s (Op.move owner nodeId newParent now)
      (Or.inr (Or.inl ⟨_, _, _, _, rfl⟩)) with hs | ⟨id, f, _, hf, hs⟩
    · rw [hs]; exact h
    · rw [hs]; exact hupdate id f (hf hop)
  | trash owner nodeId now => simp [Op.isTrash] at hop
  | restore owner nodeId now =>
    rcases step_update_state s (Op.restore owner nodeId now)
      (Or.inr (Or.inr (Or.inr ⟨_, _, _, rfl⟩))) with hs | ⟨id, f, _, hf, hs⟩
    · rw [hs]; exact h
    · rw [hs]; exact hupdate id f (hf hop)

/-- A sequence of requests without `Trash` trashes nothing. -/
theorem noneTrashed_run (ops : List Op) (s : Store)
    (hops : ops.all (fun op => !op.isTrash) = true) (h : NoneTrashed s) :
    NoneTrashed (run s ops) := by
  induction ops generalizing s with
  | nil => exact h
  | cons op rest ih =>
    simp only [List.all_cons, Bool.and_eq_true, Bool.not_eq_true'] at hops
    exact ih (step s op) hops.2 (noneTrashed_step s op hops.1 h)

/-- Where nothing is trashed, every node is visible as active. -/
theorem consideredTrashed_of_noneTrashed (s : Store) (h : NoneTrashed s) (n : Node)
    (hn : n ∈ s.nodes) : consideredTrashed s n = false := by
  have hby : ∀ a, trashedById s a = false := by
    intro a
    unfold trashedById
    cases hfind : nodeById s a with
    | none => rfl
    | some m =>
      have := h m (List.mem_of_find?_eq_some hfind)
      simp [this]
  simp [consideredTrashed, h n hn, hby]

/-- The quota counter of a user is the bytes of the active files plus the
bytes of the trashed files, whenever the counters are exact. -/
theorem usedBytes_active_add_trashed (s : Store) (h : QuotaExact s) (owner : Nat) :
    s.usedBytes owner = activeFileBytes s owner + trashedFileBytes s owner := by
  rw [h owner, activeFileBytes, trashedFileBytes, Nat.add_comm]
  exact (fileBytes_filter_add owner (fun n => consideredTrashed s n) s.nodes).symm

/-- With `Trash` and `Release` read as sections 4.3 and 4.4 word them (`Trash`
sets `trashed_at` only, `Release` is called on purge): after an upload of 600
bytes and a trash request for the uploaded file, `used_bytes` is 600 while the
active files of the user sum to 0.  Section 3 words the counter as the sum over
the active files; the two passages differ on a trashed file. -/
theorem usedBytes_counts_trashed_file :
    afterUploadAndTrash.usedBytes 7 = 600 ∧ activeFileBytes afterUploadAndTrash 7 = 0 ∧
      afterUploadAndTrash.usedBytes 7 ≠ activeFileBytes afterUploadAndTrash 7 := by
  decide

/-- The quota counter under sections 4.3 and 4.4: in every state reachable by
any sequence of folder creations, uploads, renames, moves, trash, restore and
purge requests, the `used_bytes` of a user equals the exact sum of `size_bytes`
over the file nodes of that user that are not purged, the active ones plus the
trashed ones (folders contribute 0); it equals the sum over the active file
nodes whenever no file counts as trashed, in particular after every sequence
without a trash request, such as the sequences of uploads and purges of
section 8. -/
theorem usedBytes_counts_stored_files (limitBytes : Nat → Nat) (ops : List Op) (owner : Nat) :
    (run (empty limitBytes) ops).usedBytes owner =
      fileBytes owner (run (empty limitBytes) ops).nodes ∧
    (run (empty limitBytes) ops).usedBytes owner =
      activeFileBytes (run (empty limitBytes) ops) owner +
        trashedFileBytes (run (empty limitBytes) ops) owner ∧
    (trashedFileBytes (run (empty limitBytes) ops) owner = 0 →
      (run (empty limitBytes) ops).usedBytes owner =
        activeFileBytes (run (empty limitBytes) ops) owner) ∧
    (ops.all (fun op => !op.isTrash) = true →
      (run (empty limitBytes) ops).usedBytes owner =
        activeFileBytes (run (empty limitBytes) ops) owner) := by
  have hq := quotaExact_run ops (empty limitBytes) (empty_invariants limitBytes).2.1
  have hsum := usedBytes_active_add_trashed _ hq owner
  refine ⟨hq owner, hsum, fun h0 => by rw [hsum, h0, Nat.add_zero], fun hops => ?_⟩
  have hnone := noneTrashed_run ops (empty limitBytes) hops (empty_invariants limitBytes).2.2
  have hzero : trashedFileBytes (run (empty limitBytes) ops) owner = 0 := by
    unfold trashedFileBytes
    rw [List.filter_eq_nil_iff.2 (fun n hn h => by
      rw [consideredTrashed_of_noneTrashed _ hnone n hn] at h
      exact Bool.noConfusion h)]
    rfl
  rw [hsum, hzero, Nat.add_zero]

/-- Every listing, search result and recent list shows nodes of the store. -/
theorem listings_subset (s : Store) (m : Node) :
    (∀ owner parent trashed, m ∈ listNodes s owner parent trashed → m ∈ s.nodes) ∧
    (∀ owner query, m ∈ search s owner query → m ∈ s.nodes) ∧
    (∀ owner limit, m ∈ recent s owner limit → m ∈ s.nodes) := by
  refine ⟨fun _ _ _ h => List.mem_of_mem_filter h, fun _ _ h => List.mem_of_mem_filter h,
    fun owner limit h => ?_⟩
  have h1 := List.mem_of_mem_take h
  have h2 := (List.perm_insertionSort _ _).mem_iff.1 h1
  exact List.mem_of_mem_filter h2

/-- With unique ids, the node to purge and all its descendants are in the
subtree that the purge removes. -/
theorem inSubtree_of_descends (s : Store) (hids : UniqueIds s) (nodeId : Nat) (m : Node)
    (hm : m ∈ s.nodes) (h : m.id = nodeId ∨ Descends s m.id nodeId) :
    inSubtree s nodeId m = true := by
  rcases h with h | h
  · simp [inSubtree, h]
  · have := mem_ancestors_of_descends s hids m.id nodeId h
    rw [parentOf_of_mem s m hids hm] at this
    simp [inSubtree, this]

/-- C15: after the purge of a node (in a store with unique ids, by the owner of
the node), no node of the store carries the id of that node or of any of its
descendants, so they are absent from every listing (active and trashed), from
every search result and from every recent list; their ids are recorded as
purged; the bytes of all removed files are released from the quota of their
owner, which then counts exactly the files that are left. -/
theorem purge_removes_subtree (s : Store) (n : Node) (hids : UniqueIds s) (hn : n ∈ s.nodes)
    (hfresh : n.id ∉ s.purged) :
    (purge s n.ownerId n.id).2 = Except.ok () ∧
    (∀ m ∈ s.nodes, (m.id = n.id ∨ Descends s m.id n.id) →
      (∀ k ∈ (purge s n.ownerId n.id).1.nodes, k.id ≠ m.id) ∧
      (∀ owner parent trashed, ∀ k ∈ listNodes (purge s n.ownerId n.id).1 owner parent trashed,
        k.id ≠ m.id) ∧
      (∀ owner query, ∀ k ∈ search (purge s n.ownerId n.id).1 owner query, k.id ≠ m.id) ∧
      (∀ owner limit, ∀ k ∈ recent (purge s n.ownerId n.id).1 owner limit, k.id ≠ m.id) ∧
      m.id ∈ (purge s n.ownerId n.id).1.purged) ∧
    (∀ owner, (purge s n.ownerId n.id).1.usedBytes owner =
      s.usedBytes owner - fileBytes owner (s.nodes.filter (fun m => inSubtree s n.id m))) ∧
    (∀ owner, s.usedBytes owner = fileBytes owner s.nodes →
      (purge s n.ownerId n.id).1.usedBytes owner =
        fileBytes owner (purge s n.ownerId n.id).1.nodes) := by
  have hp : purge s n.ownerId n.id =
      ({ nodes := s.nodes.filter (fun m => !inSubtree s n.id m)
         usedBytes := fun o =>
           s.usedBytes o - fileBytes o (s.nodes.filter (fun m => inSubtree s n.id m))
         limitBytes := s.limitBytes
         nextId := s.nextId
         purged := s.purged ++ (s.nodes.filter (fun m => inSubtree s n.id m)).map
           (fun m => m.id) }, Except.ok ()) := by
    simp [purge, hfresh, ownedNode_of_mem s n hids hn]
  rw [hp]
  refine ⟨rfl, fun m hm hsub => ?_, fun owner => rfl, fun owner hexact => ?_⟩
  · have hin := inSubtree_of_descends s hids n.id m hm hsub
    have hgone : ∀ k ∈ s.nodes.filter (fun m => !inSubtree s n.id m), k.id ≠ m.id := by
      intro k hk hid
      rw [List.mem_filter] at hk
      have := eq_of_id_eq s hids k m hk.1 hm hid
      subst this
      simp [hin] at hk
    refine ⟨hgone, fun owner parent trashed k hk => ?_, fun owner query k hk => ?_,
      fun owner limit k hk => ?_, ?_⟩
    · exact hgone k ((listings_subset _ k).1 owner parent trashed hk)
    · exact hgone k ((listings_subset _ k).2.1 owner query hk)
    · exact hgone k ((listings_subset _ k).2.2 owner limit hk)
    · simp only [List.mem_append, List.mem_map, List.mem_filter]
      exact Or.inr ⟨m, ⟨hm, hin⟩, rfl⟩
  · have hsplit := fileBytes_filter_add owner (fun m => inSubtree s n.id m) s.nodes
    simp only
    rw [hexact]
    omega

/-- Every request keeps purged ids out of the store. -/
theorem purgedGone_step (s : Store) (op : Op) (hids : UniqueIds s) (h : PurgedGone s) :
    PurgedGone (step s op) := by
  have hcreate : ∀ owner parent name isFolder sizeBytes now,
      PurgedGone (createNode s owner parent name isFolder sizeBytes now).1 := by
    intro owner parent name isFolder sizeBytes now
    rcases createNode_state s owner parent name isFolder sizeBytes now with hs | ⟨_, hs⟩
    · rw [hs]; exact h
    · rw [hs]
      refine ⟨fun n hn hp => ?_, fun id hid => Nat.lt_succ_of_lt (h.2 id hid)⟩
      simp only [List.mem_append, List.mem_singleton] at hn
      rcases hn with hn | hn
      · exact h.1 n hn hp
      · subst hn
        exact Nat.lt_irrefl _ (h.2 _ hp)
  have hupdate : ∀ id f, (∀ m, (f m).id = m.id) → PurgedGone (updateNode s id f) := by
    intro id f hf
    refine ⟨fun n hn hp => ?_, h.2⟩
    obtain ⟨m, hm, rfl⟩ := List.mem_map.1 hn
    have hid : (if m.id = id then f m else m).id = m.id := by
      by_cases hmid : m.id = id <;> simp [hmid, hf]
    rw [hid] at hp
    exact h.1 m hm hp
  cases op with
  | createFolder owner name parent now => exact hcreate owner parent name _ _ _
  | upload owner parent name declaredSize written now =>
    rcases upload_state s owner parent name declaredSize written now with hs | ⟨actual, hs⟩
    · simp only [step]; rw [hs]; exact h
    · simp only [step]; rw [hs]; exact hcreate owner parent name _ _ _
  | purge owner nodeId =>
    rcases purge_state s owner nodeId with hs | hs
    · simp only [step]; rw [hs]; exact h
    · simp only [step]; rw [hs]
      refine ⟨fun k hk hp => ?_, fun id hid => ?_⟩
      · rw [List.mem_filter] at hk
        simp only [List.mem_append, List.mem_map, List.mem_filter] at hp
        rcases hp with hp | ⟨m, ⟨hm, hin⟩, hid⟩
        · exact h.1 k hk.1 hp
        · have := eq_of_id_eq s hids m k hm hk.1 hid
          subst this
          simp [hin] at hk
      · simp only [List.mem_append, List.mem_map, List.mem_filter] at hid
        rcases hid with hid | ⟨m, ⟨hm, _⟩, rfl⟩
        · exact h.2 id hid
        · exact hids.2 m hm
  | rename owner nodeId newName now =>
    rcases step_update_state s (Op.rename owner nodeId newName now)
      (Or.inl ⟨_, _, _, _, rfl⟩) with hs | ⟨id, f, hf, _, hs⟩
    · rw [hs]; exact h
    · rw [hs]; exact hupdate id f (fun m => (hf m).1)
  | move owner nodeId newParent now =>
    rcases step_update_state s (Op.move owner nodeId newParent now)
      (Or.inr (Or.inl ⟨_, _, _, _, rfl⟩)) with hs | ⟨id, f, hf, _, hs⟩
    · rw [hs]; exact h
    · rw [hs]; exact hupdate id f (fun m => (hf m).1)
  | trash owner nodeId now =>
    rcases step_update_state s (Op.trash owner nodeId now)
      (Or.inr (Or.inr (Or.inl ⟨_, _, _, rfl⟩))) with hs | ⟨id, f, hf, _, hs⟩
    · rw [hs]; exact h
    · rw [hs]; exact hupdate id f (fun m => (hf m).1)
  | restore owner nodeId now =>
    rcases step_update_state s (Op.restore owner nodeId now)
      (Or.inr (Or.inr (Or.inr ⟨_, _, _, rfl⟩))) with hs | ⟨id, f, hf, _, hs⟩
    · rw [hs]; exact h
    · rw [hs]; exact hupdate id f (fun m => (hf m).1)

/-- Every state reached from the empty service has unique ids, no node under a
purged id and exact quota counters: the states that the statements about the
service speak of include all reachable ones. -/
theorem reachable_wellFormed (limitBytes : Nat → Nat) (ops : List Op) :
    UniqueIds (run (empty limitBytes) ops) ∧ PurgedGone (run (empty limitBytes) ops) ∧
      QuotaExact (run (empty limitBytes) ops) := by
  have hgen : ∀ (ops : List Op) (s : Store), UniqueIds s → PurgedGone s →
      PurgedGone (run s ops) := by
    intro ops
    induction ops with
    | nil => exact fun _ _ h => h
    | cons op rest ih =>
      exact fun s hids h => ih (step s op) (uniqueIds_step s op hids)
        (purgedGone_step s op hids h)
  have he := empty_invariants limitBytes
  refine ⟨uniqueIds_run ops _ he.1, hgen ops _ he.1 ?_, quotaExact_run ops _ he.2.1⟩
  exact ⟨fun n hn => by simp [empty] at hn, fun id hid => by simp [empty] at hid⟩

end Service

/-- The quota counter at concrete inputs: after the upload of 600 bytes and the
trash request, `used_bytes` is the 600 bytes of the trashed file; after the
upload alone it is the 600 bytes of the active file. -/
theorem usedBytes_counts_stored_files_witness :
    afterUploadAndTrash.usedBytes 7 =
      Service.activeFileBytes afterUploadAndTrash 7 +
        Service.trashedFileBytes afterUploadAndTrash 7 ∧
    (Service.run (Service.empty (fun _ => 1000))
        [Service.Op.upload 7 none "a.bin" 600 (some 600) 10]).usedBytes 7 =
      Service.activeFileBytes
        (Service.run (Service.empty (fun _ => 1000))
          [Service.Op.upload 7 none "a.bin" 600 (some 600) 10]) 7 :=
  ⟨(Service.usedBytes_counts_stored_files (fun _ => 1000)
      [Service.Op.upload 7 none "a.bin" 600 (some 600) 10, Service.Op.trash 7 1 11] 7).2.1,
    (Service.usedBytes_counts_stored_files (fun _ => 1000)
      [Service.Op.upload 7 none "a.bin" 600 (some 600) 10] 7).2.2.2 rfl⟩













/-- What `nestedFolders` holds. -/
theorem nestedFolders_nodes : nestedFolders.nodes = [folderA, folderB] := by
  decide

/-- The ids of `nestedFolders` are unique. -/
theorem nestedFolders_uniqueIds : Service.UniqueIds nestedFolders := by
  refine ⟨?_, ?_⟩
  · rw [nestedFolders_nodes]; decide
  · rw [nestedFolders_nodes]
    intro n hn
    have hnext : nestedFolders.nextId = 3 := by decide
    rw [hnext]
    rcases List.mem_cons.1 hn with h | h
    · subst h; decide
    · rw [List.mem_singleton] at h; subst h; decide

/-- C11, the scenario of the specification: folders `A` and `B` at the root,
`A` moved into `B`; then moving `B` into `A`, and `B` into itself, fails with
`CyclicMove` and changes nothing. -/
theorem move_into_subtree_fails_witness :
    Service.move nestedFolders 7 2 (some 1) 13 =
      (nestedFolders, Except.error Service.ServiceError.cyclicMove) ∧
    Service.move nestedFolders 7 2 (some 2) 13 =
      (nestedFolders, Except.error Service.ServiceError.cyclicMove) :=
  ⟨Service.move_into_subtree_fails nestedFolders folderB 1 13 nestedFolders_uniqueIds
      (by rw [nestedFolders_nodes]; decide)
      (Or.inr (Service.Descends.child folderA 2 (by rw [nestedFolders_nodes]; decide) rfl)),
    Service.move_into_subtree_fails nestedFolders folderB 2 13 nestedFolders_uniqueIds
      (by rw [nestedFolders_nodes]; decide) (Or.inl rfl)⟩



/-- C13, the scenario of the specification: with a limit of 1000 bytes an
upload of 600 bytes succeeds and `used_bytes` is 600; an upload of 500 bytes
then fails with `QuotaExceeded` and `used_bytes` stays 600. -/
theorem upload_over_quota_fails_witness :
    (Service.upload (Service.empty (fun _ => 1000)) 7 none "a.bin" 600 (some 600) 10).2 =
      Except.ok
        (Service.newNode (Service.empty (fun _ => 1000)) 7 none "a.bin" false 600 10) ∧
    afterFirstUpload.usedBytes 7 = 600 ∧
    (Service.upload afterFirstUpload 7 none "b.bin" 500 (some 500) 11 =
        (afterFirstUpload, Except.error Service.ServiceError.quotaExceeded) ∧
      (Service.upload afterFirstUpload 7 none "b.bin" 500 (some 500) 11).1.nodes =
        afterFirstUpload.nodes ∧
      (Service.upload afterFirstUpload 7 none "b.bin" 500 (some 500) 11).1.usedBytes 7 =
        afterFirstUpload.usedBytes 7) :=
  ⟨rfl, by decide,
    Service.upload_over_quota_fails afterFirstUpload 7 none "b.bin" 500 (some 500) 11
      (Or.inl (by decide))⟩

/-- C16, at concrete inputs: the folder `B` of `nestedFolders` purged twice. -/
theorem purge_idempotent_witness :
    2 ∈ (Service.purge nestedFolders 7 2).1.purged ∧
    Service.purge (Service.purge nestedFolders 7 2).1 7 2 =
      ((Service.purge nestedFolders 7 2).1, Except.ok ()) ∧
    Service.purge (Service.purge nestedFolders 7 2).1 7 2 = Service.purge nestedFolders 7 2 :=
  ⟨(Service.purge_idempotent nestedFolders 7 2).2.1 rfl,
    (Service.purge_idempotent (Service.purge nestedFolders 7 2).1 7 2).1
      ((Service.purge_idempotent nestedFolders 7 2).2.1 rfl),
    (Service.purge_idempotent nestedFolders 7 2).2.2⟩

/-- C17, at concrete inputs: a folder and a file, both named `docs`, created
at the root of the empty service by user 7. -/
theorem creates_of_same_name_conflict_witness :
    Service.createNode
        (Service.createNode (Service.empty (fun _ => 1000)) 7 none "docs" true 0 10).1
        7 none "docs" false 5 11 =
      ((Service.createNode (Service.empty (fun _ => 1000)) 7 none "docs" true 0 10).1,
        Except.error Service.ServiceError.nameConflict) ∧
    Service.createNode
        (Service.createNode (Service.empty (fun _ => 1000)) 7 none "docs" false 5 11).1
        7 none "docs" true 0 10 =
      ((Service.createNode (Service.empty (fun _ => 1000)) 7 none "docs" false 5 11).1,
        Except.error Service.ServiceError.nameConflict) ∧
    (Service.activeNamed
      (Service.createNode (Service.empty (fun _ => 1000)) 7 none "docs" true 0 10).1
      7 none "docs").length = 1 ∧
    (Service.activeNamed
      (Service.createNode (Service.empty (fun _ => 1000)) 7 none "docs" false 5 11).1
      7 none "docs").length = 1 :=
  Service.creates_of_same_name_conflict (Service.empty (fun _ => 1000)) 7 none "docs"
    true false 0 5 10 11
    (Service.newNode (Service.empty (fun _ => 1000)) 7 none "docs" true 0 10)
    (Service.newNode (Service.empty (fun _ => 1000)) 7 none "docs" false 5 11) rfl rfl

/-- C15, at concrete inputs: the folder `B` of `nestedFolders`, which holds
the folder `A`, is purged: neither id is left in the store, both are recorded as
purged. -/
theorem purge_removes_subtree_witness :
    (Service.purge nestedFolders 7 2).2 = Except.ok () ∧
    ((∀ k ∈ (Service.purge nestedFolders 7 2).1.nodes, k.id ≠ 1) ∧
      (∀ owner parent trashed,
        ∀ k ∈ Service.listNodes (Service.purge nestedFolders 7 2).1 owner parent trashed,
          k.id ≠ 1) ∧
      (∀ owner query, ∀ k ∈ Service.search (Service.purge nestedFolders 7 2).1 owner query,
        k.id ≠ 1) ∧
      (∀ owner limit, ∀ k ∈ Service.recent (Service.purge nestedFolders 7 2).1 owner limit,
        k.id ≠ 1) ∧
      1 ∈ (Service.purge nestedFolders 7 2).1.purged) ∧
    (Service.purge nestedFolders 7 2).1.nodes = [] :=
  ⟨(Service.purge_removes_subtree nestedFolders folderB nestedFolders_uniqueIds
      (by rw [nestedFolders_nodes]; decide) (by decide)).1,
    (Service.purge_removes_subtree nestedFolders folderB nestedFolders_uniqueIds
      (by rw [nestedFolders_nodes]; decide) (by decide)).2.1 folderA
      (by rw [nestedFolders_nodes]; decide)
      (Or.inr (Service.Descends.child folderA 2 (by rw [nestedFolders_nodes]; decide) rfl)),
    by decide⟩

/-- C14, at concrete inputs: the folder `A` of `nestedFolders` is trashed and
restored. -/
theorem trash_restore_roundtrip_witness :
    (Service.restore (Service.trash nestedFolders 7 1 20).1 7 1 21).2 = Except.ok () ∧
    (∃ m ∈ Service.listNodes (Service.restore (Service.trash nestedFolders 7 1 20).1 7 1 21).1
        7 (some 2) false,
      m.id = 1 ∧ m.trashedAt = none ∧ m.parentId = some 2 ∧ m.name = "A" ∧ m.sizeBytes = 0) ∧
    (∀ parent,
      ∀ m ∈ Service.listNodes (Service.restore (Service.trash nestedFolders 7 1 20).1 7 1 21).1
        7 parent true, m.id ≠ 1) :=
  ⟨(Service.trash_restore_roundtrip nestedFolders folderA 20 21 nestedFolders_uniqueIds
      (by rw [nestedFolders_nodes]; decide) (by decide)).2.2.2.2.1,
    (Service.trash_restore_roundtrip nestedFolders folderA 20 21 nestedFolders_uniqueIds
      (by rw [nestedFolders_nodes]; decide) (by decide)).2.2.2.2.2.1,
    (Service.trash_restore_roundtrip nestedFolders folderA 20 21 nestedFolders_uniqueIds
      (by rw [nestedFolders_nodes]; decide) (by decide)).2.2.2.2.2.2.1⟩

/-! ### Results and frame of the provider operations -/

/-- The shape of a failure result. -/
theorem settles_failure (error : JsVal) (fallback : String) (herr : error.isNullish = false)
    (hfallback : fallback ≠ "") :
    Settles (failureResult error fallback) (Outcome.reject error) fallback := by
  refine ⟨OpResult.failure ((serverErrorText error).orElse (JsVal.str fallback)),
    failureResult_eq error fallback herr, by simp [OpResult.failure, Outcome.isResolved], ?_⟩
  intro e he
  cases he
  refine ⟨rfl, ?_, ?_, ?_⟩
  · cases ht : (serverErrorText error).truthy
    · simp only [OpResult.failure, JsVal.orElse, ht]
      simp [JsVal.truthy, hfallback]
    · simp only [OpResult.failure, JsVal.orElse, ht]
      simp [ht]
  · intro ht
    simp [OpResult.failure, JsVal.orElse, ht]
  · intro ht
    simp [OpResult.failure, JsVal.orElse, ht]

/-- The shape of a success result. -/
theorem settles_success (res : OpResult) (response : JsVal) (fallback : String)
    (hres : res.success = true) :
    Settles (Except.ok res) (Outcome.resolve response) fallback :=
  ⟨res, rfl, by simp [hres, Outcome.isResolved], fun e he => Outcome.noConfusion he⟩

/-- C23: `uploadFile`, `createFolder`, `deleteFile`, `restoreFile`, `moveFile`
and `renameFile` never reject (axios settling their request with an object, the
response or the error): each resolves to a result with `success = true` exactly
when its own request was answered, whatever the listing refresh after it does,
and otherwise to `success = false` with a non-empty error, which is the error
text of the server when the failure carries one and the fixed fallback text of
the operation otherwise. -/
theorem operations_settle (st : FileState)
    (file fileId userId parentId name permanent target newName : JsVal)
    (reply listReply : Outcome) (hreply : reply.isObject = true) :
    Settles (uploadFile st file userId parentId reply listReply).value reply "Upload failed" ∧
    Settles (createFolder st userId name parentId reply listReply).value reply
      "Failed to create folder" ∧
    Settles (deleteFile st fileId userId permanent reply listReply).value reply
      "Delete failed" ∧
    Settles (restoreFile st fileId userId reply listReply).value reply "Restore failed" ∧
    Settles (moveFile st fileId userId target reply listReply).value reply "Move failed" ∧
    Settles (renameFile st fileId userId newName reply listReply).value reply
      "Rename failed" := by
  cases reply with
  | reject error =>
    have herr : error.isNullish = false := by simpa [Outcome.isObject] using hreply
    refine ⟨?_, ?_, ?_, ?_, ?_, ?_⟩
    · simpa [uploadFile] using settles_failure error "Upload failed" herr (by decide)
    · simpa [createFolder] using settles_failure error "Failed to create folder" herr (by decide)
    · simpa [deleteFile] using settles_failure error "Delete failed" herr (by decide)
    · simpa [restoreFile] using settles_failure error "Restore failed" herr (by decide)
    · simpa [moveFile] using settles_failure error "Move failed" herr (by decide)
    · simpa [renameFile] using settles_failure error "Rename failed" herr (by decide)
  | resolve response =>
    have hresp : response.isNullish = false := by simpa [Outcome.isObject] using hreply
    have hdata := get_of_not_nullish response "data" hresp
    refine ⟨?_, ?_, ?_, ?_, ?_, ?_⟩
    · simpa [uploadFile, hdata] using settles_success
        { success := true, data := response.optGet "data", error := JsVal.undefined }
        response "Upload failed" rfl
    · simpa [createFolder, hdata] using settles_success
        { success := true, data := response.optGet "data", error := JsVal.undefined }
        response "Failed to create folder" rfl
    · simpa [deleteFile] using settles_success successResult response "Delete failed" rfl
    · simpa [restoreFile] using settles_success successResult response "Restore failed" rfl
    · simpa [moveFile] using settles_success successResult response "Move failed" rfl
    · simpa [renameFile] using settles_success successResult response "Rename failed" rfl

/-- C23, at concrete inputs: an upload refused with the server's error text,
and a deletion answered by the server whose listing refresh then fails. -/
theorem operations_settle_witness :
    Settles (uploadFile FileState.initial sampleFile (JsVal.num 7) JsVal.undefined
        (Outcome.reject conflictError) (Outcome.reject JsVal.null)).value
      (Outcome.reject conflictError) "Upload failed" ∧
    Settles (deleteFile FileState.initial (JsVal.num 2) (JsVal.num 7) JsVal.undefined
        (Outcome.resolve (JsVal.obj [])) (Outcome.reject networkError)).value
      (Outcome.resolve (JsVal.obj [])) "Delete failed" :=
  ⟨(operations_settle FileState.initial sampleFile (JsVal.num 2) (JsVal.num 7) JsVal.undefined
      (JsVal.str "docs") JsVal.undefined JsVal.null (JsVal.str "b.txt")
      (Outcome.reject conflictError) (Outcome.reject JsVal.null) rfl).1,
    (operations_settle FileState.initial sampleFile (JsVal.num 2) (JsVal.num 7) JsVal.undefined
      (JsVal.str "docs") JsVal.undefined JsVal.null (JsVal.str "b.txt")
      (Outcome.resolve (JsVal.obj [])) (Outcome.reject networkError) rfl).2.2.1⟩

/-- C24: when the request of `uploadFile`, `createFolder`, `deleteFile`,
`restoreFile`, `moveFile` or `renameFile` is rejected, the operation sends
nothing but that request, so no listing refresh, and leaves the whole provider
state, with `files`, `folders`, `storageInfo`, `currentFolder` and
`selectedItems`, exactly as it was; `deleteFile` empties the selection when its
request was answered, and only then. -/
theorem failed_operation_frame (st : FileState)
    (file fileId userId parentId name permanent target newName error response : JsVal)
    (listReply : Outcome) :
    ((uploadFile st file userId parentId (Outcome.reject error) listReply).state = st ∧
      (uploadFile st file userId parentId (Outcome.reject error) listReply).trace.countP
        Effect.isListRequest = 0) ∧
    ((createFolder st userId name parentId (Outcome.reject error) listReply).state = st ∧
      (createFolder st userId name parentId (Outcome.reject error) listReply).trace.countP
        Effect.isListRequest = 0) ∧
    ((deleteFile st fileId userId permanent (Outcome.reject error) listReply).state = st ∧
      (deleteFile st fileId userId permanent (Outcome.reject error) listReply).trace.countP
        Effect.isListRequest = 0) ∧
    ((restoreFile st fileId userId (Outcome.reject error) listReply).state = st ∧
      (restoreFile st fileId userId (Outcome.reject error) listReply).trace.countP
        Effect.isListRequest = 0) ∧
    ((moveFile st fileId userId target (Outcome.reject error) listReply).state = st ∧
      (moveFile st fileId userId target (Outcome.reject error) listReply).trace.countP
        Effect.isListRequest = 0) ∧
    ((renameFile st fileId userId newName (Outcome.reject error) listReply).state = st ∧
      (renameFile st fileId userId newName (Outcome.reject error) listReply).trace.countP
        Effect.isListRequest = 0) ∧
    (deleteFile st fileId userId permanent (Outcome.resolve response)
      listReply).state.selectedItems = [] ∧
    (deleteFile st fileId userId permanent (Outcome.reject error)
      listReply).state.selectedItems = st.selectedItems := by
  refine ⟨⟨rfl, ?_⟩, ⟨rfl, ?_⟩, ⟨rfl, ?_⟩, ⟨rfl, ?_⟩, ⟨rfl, ?_⟩, ⟨rfl, ?_⟩, rfl, rfl⟩
  · simp [uploadFile, Effect.isListRequest, filesAPI.uploadFile]
  · simp [createFolder, Effect.isListRequest, filesAPI.createFolder]
  · simp [deleteFile, Effect.isListRequest, filesAPI.deleteFile]
  · simp [restoreFile, Effect.isListRequest, filesAPI.restoreFile]
  · simp [moveFile, Effect.isListRequest, filesAPI.moveFile]
  · simp [renameFile, Effect.isListRequest, filesAPI.renameFile]

/-! ### The refresh after an operation -/

/-- The list requests of a refresh `fetchFiles(userId, parentId)` for a truthy
user id: one, for the active items of that folder. -/
theorem fetchFiles_active_request (st : FileState) (userId parentId : JsVal)
    (reply : Outcome) (h : userId.truthy = true) :
    (fetchFiles st userId parentId JsVal.undefined reply).trace.filter Effect.isListRequest =
      [Effect.request (Request.listFiles
        [("user_id", userId), ("parent_id", parentId.orDefault JsVal.null)])] := by
  rcases fetchFiles_trace st userId parentId JsVal.undefined reply h with ht | ⟨e, ht⟩ <;>
    simp [ht, Effect.isListRequest, listParams, JsVal.orDefault, JsVal.truthy]

/-- No list request of a refresh `fetchFiles(userId, parentId)` asks for the
trash, whatever the user id. -/
theorem fetchFiles_listsActive (st : FileState) (userId parentId : JsVal) (reply : Outcome) :
    ∀ e ∈ (fetchFiles st userId parentId JsVal.undefined reply).trace,
      e.listsActive = true := by
  cases hu : userId.truthy with
  | false => simp [fetchFiles_no_user st userId parentId JsVal.undefined reply hu]
  | true =>
    rcases fetchFiles_trace st userId parentId JsVal.undefined reply hu with ht | ⟨e, ht⟩ <;>
      simp [ht, Effect.listsActive, listParams, JsVal.orDefault, JsVal.truthy]

/-- No list request of the provider's `deleteFile` asks for the trash. -/
theorem deleteFile_listsActive (st : FileState) (fileId userId permanent : JsVal)
    (reply listReply : Outcome) :
    ∀ e ∈ (deleteFile st fileId userId permanent reply listReply).trace,
      e.listsActive = true := by
  intro e he
  cases reply with
  | reject error =>
    simp only [deleteFile, List.mem_singleton] at he
    subst he
    rfl
  | resolve response =>
    simp only [deleteFile, List.mem_append, List.mem_cons, List.mem_singleton,
      List.not_mem_nil, or_false] at he
    rcases he with (he | he) | he
    · subst he; rfl
    · subst he; rfl
    · exact fetchFiles_listsActive st userId st.currentFolder listReply e he

/-- No list request of the provider's `restoreFile` asks for the trash. -/
theorem restoreFile_listsActive (st : FileState) (fileId userId : JsVal)
    (reply listReply : Outcome) :
    ∀ e ∈ (restoreFile st fileId userId reply listReply).trace, e.listsActive = true := by
  intro e he
  cases reply with
  | reject error =>
    simp only [restoreFile, List.mem_singleton] at he
    subst he
    rfl
  | resolve response =>
    simp only [restoreFile, List.mem_append, List.mem_cons, List.mem_singleton,
      List.not_mem_nil, or_false] at he
    rcases he with (he | he) | he
    · subst he; rfl
    · subst he; rfl
    · exact fetchFiles_listsActive st userId st.currentFolder listReply e he

/-- The effects of `runEach` satisfy what the effects of every call do. -/
theorem runEach_trace_all (st : FileState)
    (op : FileState → JsVal → Run (Except JsVal OpResult)) (p : Effect → Bool)
    (hop : ∀ cur itemId, ∀ e ∈ (op cur itemId).trace, p e = true) :
    ∀ (selected : List JsVal) (cur : FileState),
      ∀ e ∈ (TrashPage.runEach st op selected cur).trace, p e = true := by
  intro selected
  induction selected with
  | nil => intro cur e he; simp [TrashPage.runEach] at he
  | cons itemId rest ih =>
    intro cur e he
    simp only [TrashPage.runEach, List.mem_append] at he
    rcases he with he | he
    · exact hop _ _ e he
    · exact ih _ e he

/-- No list request of `handlePermanentDelete` asks for the trash. -/
theorem handlePermanentDelete_listsActive (st : FileState) (user : JsVal)
    (replies : JsVal → Outcome × Outcome) :
    ∀ e ∈ (TrashPage.handlePermanentDelete st user replies).trace, e.listsActive = true := by
  have hrun := fun uid => runEach_trace_all st
    (fun cur itemId =>
      deleteFile cur itemId uid (JsVal.bool true) (replies itemId).1 (replies itemId).2)
    Effect.listsActive
    (fun cur itemId => deleteFile_listsActive cur itemId uid (JsVal.bool true) _ _)
  intro e he
  unfold TrashPage.handlePermanentDelete at he
  split at he
  · simp at he
  · dsimp only at he
    split at he
    · exact hrun _ _ _ e he
    · simp only [List.mem_append, List.mem_cons, List.mem_singleton, List.not_mem_nil,
        or_false] at he
      rcases he with he | he | he
      · exact hrun _ _ _ e he
      · subst he; rfl
      · subst he; rfl

/-- No list request of `handleRestoreSelected` asks for the trash. -/
theorem handleRestoreSelected_listsActive (st : FileState) (user : JsVal)
    (replies : JsVal → Outcome × Outcome) :
    ∀ e ∈ (TrashPage.handleRestoreSelected st user replies).trace, e.listsActive = true := by
  have hrun := fun uid => runEach_trace_all st
    (fun cur itemId => restoreFile cur itemId uid (replies itemId).1 (replies itemId).2)
    Effect.listsActive
    (fun cur itemId => restoreFile_listsActive cur itemId uid _ _)
  intro e he
  unfold TrashPage.handleRestoreSelected at he
  split at he
  · simp at he
  · dsimp only at he
    split at he
    · exact hrun _ _ _ e he
    · simp only [List.mem_append, List.mem_cons, List.mem_singleton, List.not_mem_nil,
        or_false] at he
      rcases he with he | he | he
      · exact hrun _ _ _ e he
      · subst he; rfl
      · subst he; rfl

/-- What `handleRestoreSelected` and `handlePermanentDelete` leave loaded when
one item is selected and its request and the refresh after it are answered: the
listing the refresh has read. -/
theorem trash_action_loads (st : FileState) (user userId itemId r listing : JsVal)
    (replies : JsVal → Outcome × Outcome) (fileItems folderItems : List JsVal)
    (storage : JsVal) (hu : userId.truthy = true) (hsel : st.selectedItems = [itemId])
    (huser : user.get "id" = Except.ok userId)
    (hrep : replies itemId = (Outcome.resolve r, Outcome.resolve listing))
    (hr : readListing listing = Except.ok (fileItems, folderItems, storage)) :
    ((TrashPage.handleRestoreSelected st user replies).state.files = fileItems ∧
      (TrashPage.handleRestoreSelected st user replies).state.folders = folderItems) ∧
    ((TrashPage.handlePermanentDelete st user replies).state.files = fileItems ∧
      (TrashPage.handlePermanentDelete st user replies).state.folders = folderItems) := by
  have hcur : { st with currentFolder := st.currentFolder } = st := rfl
  have hst := fun s => fetchFiles_stores s userId st.currentFolder JsVal.undefined listing
    fileItems folderItems storage hu hr
  refine ⟨?_, ?_⟩
  · simp [TrashPage.handleRestoreSelected, hsel, huser, TrashPage.runEach, restoreFile, hrep,
      hcur, hst, clearSelection]
  · simp [TrashPage.handlePermanentDelete, hsel, huser, TrashPage.runEach, deleteFile, hrep,
      hcur, hst, clearSelection]

/-- C25: after an answered request `deleteFile`, `restoreFile`, `moveFile` and
`renameFile` refresh with `fetchFiles(userId, currentFolder)`, whatever the view
on screen: for a logged-in user the only list request is for the current folder
and carries no `trashed` parameter, and the state left is the one that refresh
leaves (`deleteFile` also empties the selection).  So no list request of the
trash page's `handlePermanentDelete` and `handleRestoreSelected` asks for the
trash, and once their request and the refresh are answered the loaded `files`
and `folders` are the active listing the refresh has read, not the trash
listing. -/
theorem operations_refresh_active (st : FileState)
    (fileId userId permanent target newName response : JsVal) (listReply : Outcome)
    (hu : userId.truthy = true) :
    ((deleteFile st fileId userId permanent (Outcome.resolve response) listReply).state =
        { (fetchFiles st userId st.currentFolder JsVal.undefined listReply).state with
          selectedItems := [] } ∧
      (deleteFile st fileId userId permanent (Outcome.resolve response)
        listReply).trace.filter Effect.isListRequest =
        [Effect.request (Request.listFiles
          [("user_id", userId), ("parent_id", st.currentFolder.orDefault JsVal.null)])]) ∧
    ((restoreFile st fileId userId (Outcome.resolve response) listReply).state =
        (fetchFiles st userId st.currentFolder JsVal.undefined listReply).state ∧
      (restoreFile st fileId userId (Outcome.resolve response)
        listReply).trace.filter Effect.isListRequest =
        [Effect.request (Request.listFiles
          [("user_id", userId), ("parent_id", st.currentFolder.orDefault JsVal.null)])]) ∧
    ((moveFile st fileId userId target (Outcome.resolve response) listReply).state =
        (fetchFiles st userId st.currentFolder JsVal.undefined listReply).state ∧
      (moveFile st fileId userId target (Outcome.resolve response)
        listReply).trace.filter Effect.isListRequest =
        [Effect.request (Request.listFiles
          [("user_id", userId), ("parent_id", st.currentFolder.orDefault JsVal.null)])]) ∧
    ((renameFile st fileId userId newName (Outcome.resolve response) listReply).state =
        (fetchFiles st userId st.currentFolder JsVal.undefined listReply).state ∧
      (renameFile st fileId userId newName (Outcome.resolve response)
        listReply).trace.filter Effect.isListRequest =
        [Effect.request (Request.listFiles
          [("user_id", userId), ("parent_id", st.currentFolder.orDefault JsVal.null)])]) ∧
    (∀ (user : JsVal) (replies : JsVal → Outcome × Outcome),
      (∀ e ∈ (TrashPage.handlePermanentDelete st user replies).trace, e.listsActive = true) ∧
      (∀ e ∈ (TrashPage.handleRestoreSelected st user replies).trace,
        e.listsActive = true)) ∧
    (∀ (user listing : JsVal) (replies : JsVal → Outcome × Outcome)
      (fileItems folderItems : List JsVal) (storage : JsVal),
      st.selectedItems = [fileId] → user.get "id" = Except.ok userId →
      replies fileId = (Outcome.resolve response, Outcome.resolve listing) →
      readListing listing = Except.ok (fileItems, folderItems, storage) →
      ((TrashPage.handleRestoreSelected st user replies).state.files = fileItems ∧
        (TrashPage.handleRestoreSelected st user replies).state.folders = folderItems) ∧
      ((TrashPage.handlePermanentDelete st user replies).state.files = fileItems ∧
        (TrashPage.handlePermanentDelete st user replies).state.folders = folderItems)) := by
  have hlist := fetchFiles_active_request st userId st.currentFolder listReply hu
  refine ⟨⟨rfl, ?_⟩, ⟨rfl, ?_⟩, ⟨rfl, ?_⟩, ⟨rfl, ?_⟩, ?_, ?_⟩
  · simpa [deleteFile, List.filter_cons, Effect.isListRequest, filesAPI.deleteFile]
      using hlist
  · simpa [restoreFile, List.filter_cons, Effect.isListRequest, filesAPI.restoreFile]
      using hlist
  · simpa [moveFile, List.filter_cons, Effect.isListRequest, filesAPI.moveFile]
      using hlist
  · simpa [renameFile, List.filter_cons, Effect.isListRequest, filesAPI.renameFile]
      using hlist
  · exact fun user replies => ⟨handlePermanentDelete_listsActive st user replies,
      handleRestoreSelected_listsActive st user replies⟩
  · intro user listing replies fileItems folderItems storage hsel huser hrep hr
    exact trash_action_loads st user userId fileId response listing replies fileItems
      folderItems storage hu hsel huser hrep hr

/-- C25, at a concrete input: in the trash view, with the trashed sample file
loaded and selected, restoring it sends one list request, for the active items
of the root folder, and leaves the active listing loaded: no file and the sample
folder. -/
theorem operations_refresh_active_witness :
    (restoreFile trashView (JsVal.num 2) (JsVal.num 7) (Outcome.resolve (JsVal.obj []))
        (Outcome.resolve activeListing)).trace.filter Effect.isListRequest =
      [Effect.request (Request.listFiles
        [("user_id", JsVal.num 7), ("parent_id", JsVal.null)])] ∧
    (TrashPage.handleRestoreSelected trashView sampleUser
        (fun _ => (Outcome.resolve (JsVal.obj []), Outcome.resolve activeListing))).state.files =
      [] ∧
    (TrashPage.handleRestoreSelected trashView sampleUser
        (fun _ => (Outcome.resolve (JsVal.obj []), Outcome.resolve activeListing))).state.folders =
      [sampleFolder] :=
  ⟨(operations_refresh_active trashView (JsVal.num 2) (JsVal.num 7) JsVal.undefined
      JsVal.null (JsVal.str "b.txt") (JsVal.obj []) (Outcome.resolve activeListing)
      (by simp [JsVal.truthy])).2.1.2,
    ((operations_refresh_active trashView (JsVal.num 2) (JsVal.num 7) JsVal.undefined
      JsVal.null (JsVal.str "b.txt") (JsVal.obj []) (Outcome.resolve activeListing)
      (by simp [JsVal.truthy])).2.2.2.2.2 sampleUser activeListing
      (fun _ => (Outcome.resolve (JsVal.obj []), Outcome.resolve activeListing))
      [] [sampleFolder] JsVal.undefined rfl rfl rfl rfl).1.1,
    ((operations_refresh_active trashView (JsVal.num 2) (JsVal.num 7) JsVal.undefined
      JsVal.null (JsVal.str "b.txt") (JsVal.obj []) (Outcome.resolve activeListing)
      (by simp [JsVal.truthy])).2.2.2.2.2 sampleUser activeListing
      (fun _ => (Outcome.resolve (JsVal.obj []), Outcome.resolve activeListing))
      [] [sampleFolder] JsVal.undefined rfl rfl rfl rfl).1.2⟩

/-! ### The selection -/

/-- Two keys a `Set` takes for the same are equal. -/
theorem sameValueZero_eq (a b : JsVal) (h : sameValueZero a b = true) : a = b := by
  cases a <;> cases b <;> simp [sameValueZero] at h <;> simp [h]

/-- A primitive key is the same as itself. -/
theorem sameValueZero_self (a : JsVal) (h : a.isPrimitive = true) :
    sameValueZero a a = true := by
  cases a <;> simp [sameValueZero, JsVal.isPrimitive] at h ⊢

/-- A key the `Set` has is a primitive. -/
theorem isPrimitive_of_sameValueZero (a b : JsVal) (h : sameValueZero a b = true) :
    b.isPrimitive = true := by
  cases a <;> cases b <;> simp [sameValueZero] at h <;> rfl

/-- For a primitive key, `has` is membership. -/
theorem setHas_iff_mem (set : List JsVal) (x : JsVal) (hx : x.isPrimitive = true) :
    setHas set x = true ↔ x ∈ set := by
  unfold setHas
  rw [List.any_eq_true]
  constructor
  · rintro ⟨y, hy, hyx⟩
    rw [← sameValueZero_eq y x hyx]
    exact hy
  · intro h
    exact ⟨x, h, sameValueZero_self x hx⟩

/-- A key `has` finds is in the list. -/
theorem mem_of_setHas (set : List JsVal) (x : JsVal) (h : setHas set x = true) : x ∈ set := by
  unfold setHas at h
  rw [List.any_eq_true] at h
  obtain ⟨y, hy, hyx⟩ := h
  rw [← sameValueZero_eq y x hyx]
  exact hy

/-- The members after `delete`. -/
theorem mem_setDelete (set : List JsVal) (x y : JsVal) :
    y ∈ setDelete set x ↔ y ∈ set ∧ sameValueZero y x = false := by
  simp [setDelete]

/-- The members after `add`. -/
theorem mem_setAdd (set : List JsVal) (x y : JsVal) :
    y ∈ setAdd set x ↔ y ∈ set ∨ y = x := by
  unfold setAdd
  cases h : setHas set x with
  | true =>
    simp only [if_true]
    constructor
    · exact Or.inl
    · rintro (hy | hy)
      · exact hy
      · rw [hy]
        exact mem_of_setHas set x h
  | false => simp

/-- After `delete` the `Set` no longer has the key. -/
theorem setHas_setDelete_self (set : List JsVal) (x : JsVal) :
    setHas (setDelete set x) x = false := by
  simp [setHas, setDelete]

/-- After `delete` the `Set` has the other keys it had. -/
theorem setHas_setDelete_ne (set : List JsVal) (x y : JsVal) (h : y ≠ x) :
    setHas (setDelete set x) y = setHas set y := by
  unfold setHas setDelete
  rw [Bool.eq_iff_iff, List.any_eq_true, List.any_eq_true]
  constructor
  · rintro ⟨z, hz, hzy⟩
    exact ⟨z, (List.mem_filter.1 hz).1, hzy⟩
  · rintro ⟨z, hz, hzy⟩
    refine ⟨z, List.mem_filter.2 ⟨hz, ?_⟩, hzy⟩
    cases hzx : sameValueZero z x with
    | false => rfl
    | true =>
      exact absurd ((sameValueZero_eq z y hzy).symm.trans (sameValueZero_eq z x hzx)) h

/-- After `add` the `Set` has the other keys it had, and no further one. -/
theorem setHas_setAdd_ne (set : List JsVal) (x y : JsVal) (h : y ≠ x) :
    setHas (setAdd set x) y = setHas set y := by
  unfold setAdd
  cases hx : setHas set x with
  | true => simp
  | false =>
    have hxy : sameValueZero x y = false := by
      cases hxy : sameValueZero x y with
      | false => rfl
      | true => exact absurd (sameValueZero_eq x y hxy).symm h
    simp [setHas, hxy]

/-- After `add` the `Set` has the primitive key. -/
theorem setHas_setAdd_self (set : List JsVal) (x : JsVal) (hx : x.isPrimitive = true) :
    setHas (setAdd set x) x = true := by
  rw [setHas_iff_mem _ _ hx, mem_setAdd]
  exact Or.inr rfl

/-- The `Set` loses exactly one key when `delete` finds the key, the keys being
listed once. -/
theorem length_setDelete (set : List JsVal) (x : JsVal) (hnd : set.Nodup)
    (h : setHas set x = true) : (setDelete set x).length + 1 = set.length := by
  have hx : x.isPrimitive = true := by
    unfold setHas at h
    rw [List.any_eq_true] at h
    obtain ⟨y, _, hyx⟩ := h
    exact isPrimitive_of_sameValueZero y x hyx
  have hmem := mem_of_setHas set x h
  clear h
  induction set with
  | nil => simp at hmem
  | cons a l ih =>
    rw [List.nodup_cons] at hnd
    cases hax : sameValueZero a x with
    | true =>
      have hae := sameValueZero_eq a x hax
      have hall : l.filter (fun y => !sameValueZero y x) = l := by
        rw [List.filter_eq_self]
        intro y hy
        cases hyx : sameValueZero y x with
        | false => rfl
        | true =>
          exact absurd (by rw [hae, ← sameValueZero_eq y x hyx]; exact hy) hnd.1
      simp [setDelete, hax, hall]
    | false =>
      have hxl : x ∈ l := by
        rcases List.mem_cons.1 hmem with hxa | hxl
        · rw [hxa, sameValueZero_self a (hxa ▸ hx)] at hax
          exact Bool.noConfusion hax
        · exact hxl
      have := ih hnd.2 hxl
      simp only [setDelete] at this
      simp [setDelete, hax, this]

/-- Deleting a key and adding it again permutes the keys. -/
theorem perm_setDelete_append (set : List JsVal) (x : JsVal) (hx : x.isPrimitive = true)
    (hnd : set.Nodup) (hmem : x ∈ set) : (setDelete set x ++ [x]).Perm set := by
  induction set with
  | nil => simp at hmem
  | cons a l ih =>
    rw [List.nodup_cons] at hnd
    cases hax : sameValueZero a x with
    | true =>
      have hae := sameValueZero_eq a x hax
      have hall : l.filter (fun y => !sameValueZero y x) = l := by
        rw [List.filter_eq_self]
        intro y hy
        cases hyx : sameValueZero y x with
        | false => rfl
        | true =>
          exact absurd (by rw [hae, ← sameValueZero_eq y x hyx]; exact hy) hnd.1
      simp only [setDelete, List.filter_cons, hax, Bool.not_true, Bool.false_eq_true, if_false,
        hall]
      rw [hae]
      exact List.perm_append_singleton x l
    | false =>
      have hxl : x ∈ l := by
        rcases List.mem_cons.1 hmem with hxa | hxl
        · rw [hxa, sameValueZero_self a (hxa ▸ hx)] at hax
          exact Bool.noConfusion hax
        · exact hxl
      have := ih hnd.2 hxl
      simp only [setDelete] at this
      simp only [setDelete, List.filter_cons, hax, Bool.not_false, if_true, List.cons_append]
      exact List.Perm.cons a this

/-- A key the list lacks is appended by `add`. -/
theorem setAdd_of_not_mem (set : List JsVal) (x : JsVal) (h : x ∉ set) :
    setAdd set x = set ++ [x] := by
  unfold setAdd
  cases hx : setHas set x with
  | true => exact absurd (mem_of_setHas set x hx) h
  | false => simp

/-- The `Set` behind a live reference is untouched by `toggleSelection`, and
the reference it stores is a fresh one, holding the toggled keys. -/
theorem toggleSelectionRef_frame (heap : SetHeap) (st : FileState) (ref : Nat) (x : JsVal)
    (hlive : ref < heap.cells.length) (hread : heap.read ref = st.selectedItems) :
    (toggleSelectionRef heap ref x).1.read ref = st.selectedItems ∧
    (toggleSelectionRef heap ref x).2 ≠ ref ∧
    (toggleSelectionRef heap ref x).1.read (toggleSelectionRef heap ref x).2 =
      (toggleSelection st x).selectedItems := by
  have hne : heap.cells.length ≠ ref := Nat.ne_of_gt hlive
  have hcopy : (heap.alloc (heap.read ref)).1.read (heap.alloc (heap.read ref)).2 =
      st.selectedItems := by
    simp [SetHeap.alloc, SetHeap.read, List.get?_eq_getElem?] at hread ⊢
    exact hread
  unfold toggleSelectionRef
  simp only [hcopy]
  cases hx : setHas st.selectedItems x with
  | true =>
    simp only [if_true, toggleSelection, hx]
    refine ⟨?_, by simpa [SetHeap.alloc] using hne, ?_⟩
    · simp only [SetHeap.read, List.get?_eq_getElem?] at hread ⊢
      simp [SetHeap.alloc, SetHeap.write, List.getElem?_set_ne hne,
        List.getElem?_append_left hlive, hread]
    · simp [SetHeap.read, SetHeap.alloc, SetHeap.write, List.get?_eq_getElem?]
  | false =>
    simp only [Bool.false_eq_true, if_false, toggleSelection, hx]
    refine ⟨?_, by simpa [SetHeap.alloc] using hne, ?_⟩
    · simp only [SetHeap.read, List.get?_eq_getElem?] at hread ⊢
      simp [SetHeap.alloc, SetHeap.write, List.getElem?_set_ne hne,
        List.getElem?_append_left hlive, hread]
    · simp [SetHeap.read, SetHeap.alloc, SetHeap.write, List.get?_eq_getElem?]

/-- The selection after toggling a key it has. -/
theorem toggleSelection_of_has (st : FileState) (x : JsVal)
    (h : setHas st.selectedItems x = true) :
    (toggleSelection st x).selectedItems = setDelete st.selectedItems x := by
  simp [toggleSelection, h]

/-- The selection after toggling a key it lacks. -/
theorem toggleSelection_of_not_has (st : FileState) (x : JsVal)
    (h : setHas st.selectedItems x = false) :
    (toggleSelection st x).selectedItems = setAdd st.selectedItems x := by
  simp [toggleSelection, h]

/-- What `toggleSelection` does to the key it is given. -/
theorem toggleSelection_has_self (st : FileState) (x : JsVal) (hx : x.isPrimitive = true) :
    setHas (toggleSelection st x).selectedItems x = !setHas st.selectedItems x := by
  cases h : setHas st.selectedItems x with
  | true => rw [toggleSelection_of_has st x h, setHas_setDelete_self]; rfl
  | false => rw [toggleSelection_of_not_has st x h, setHas_setAdd_self _ _ hx]; rfl

/-- What `toggleSelection` does to the other keys: nothing. -/
theorem toggleSelection_has_ne (st : FileState) (x y : JsVal) (h : y ≠ x) :
    setHas (toggleSelection st x).selectedItems y = setHas st.selectedItems y := by
  cases hx : setHas st.selectedItems x with
  | true => rw [toggleSelection_of_has st x hx, setHas_setDelete_ne _ _ _ h]
  | false => rw [toggleSelection_of_not_has st x hx, setHas_setAdd_ne _ _ _ h]

/-- The keys stay listed once under `toggleSelection`. -/
theorem toggleSelection_nodup (st : FileState) (x : JsVal) (hx : x.isPrimitive = true)
    (hnd : st.selectedItems.Nodup) : (toggleSelection st x).selectedItems.Nodup := by
  cases h : setHas st.selectedItems x with
  | true =>
    rw [toggleSelection_of_has st x h]
    exact hnd.filter _
  | false =>
    have hmem : x ∉ st.selectedItems := by
      intro hm
      rw [(setHas_iff_mem _ _ hx).2 hm] at h
      exact Bool.noConfusion h
    rw [toggleSelection_of_not_has st x h, setAdd_of_not_mem _ _ hmem, List.nodup_append]
    refine ⟨hnd, List.nodup_singleton x, ?_⟩
    intro a ha hax
    rw [List.mem_singleton] at hax
    exact hmem (hax ▸ ha)

/-- Two toggles of the same key, the second in the render after the first,
leave a permutation of the keys. -/
theorem toggleSelection_twice_perm (st : FileState) (x : JsVal) (hx : x.isPrimitive = true)
    (hnd : st.selectedItems.Nodup) :
    (toggleSelection (toggleSelection st x) x).selectedItems.Perm st.selectedItems := by
  cases h : setHas st.selectedItems x with
  | true =>
    have hfirst := toggleSelection_of_has st x h
    have hsecond : (toggleSelection (toggleSelection st x) x).selectedItems =
        setDelete st.selectedItems x ++ [x] := by
      have hno : x ∉ setDelete st.selectedItems x := by
        rw [mem_setDelete]
        rintro ⟨_, hxx⟩
        rw [sameValueZero_self x hx] at hxx
        exact Bool.noConfusion hxx
      rw [toggleSelection_of_not_has _ x (by rw [hfirst]; exact setHas_setDelete_self _ x),
        hfirst, setAdd_of_not_mem _ _ hno]
    rw [hsecond]
    exact perm_setDelete_append _ x hx hnd (mem_of_setHas _ _ h)
  | false =>
    have hmem : x ∉ st.selectedItems := by
      intro hm
      rw [(setHas_iff_mem _ _ hx).2 hm] at h
      exact Bool.noConfusion h
    have hfirst : (toggleSelection st x).selectedItems = st.selectedItems ++ [x] := by
      rw [toggleSelection_of_not_has st x h, setAdd_of_not_mem _ _ hmem]
    have hkeep : st.selectedItems.filter (fun y => !sameValueZero y x) = st.selectedItems := by
      rw [List.filter_eq_self]
      intro y hy
      cases hyx : sameValueZero y x with
      | false => rfl
      | true => exact absurd (sameValueZero_eq y x hyx ▸ hy) hmem
    have hsecond : (toggleSelection (toggleSelection st x) x).selectedItems =
        st.selectedItems := by
      have hhas : setHas (st.selectedItems ++ [x]) x = true :=
        (setHas_iff_mem _ _ hx).2 (by simp)
      rw [toggleSelection_of_has _ x (by rw [hfirst]; exact hhas), hfirst]
      simp [setDelete, List.filter_append, hkeep, sameValueZero_self x hx]
    rw [hsecond]

/-- C26: for an id `x` (a primitive: a number or a string) and a selection `S`
(a `Set`, its keys listed once), `toggleSelection(x)` flips whether the
selection has `x` and leaves every other id as it was, so the size changes by
exactly one; the `Set` object `S` it started from is not mutated, the new
selection being a fresh object; and toggling the same id again in the next
render restores `S`: the same keys (in a possibly different insertion order),
the same answers of `has`. -/
theorem toggleSelection_flips (st : FileState) (x : JsVal) (hx : x.isPrimitive = true)
    (hnd : st.selectedItems.Nodup) :
    setHas (toggleSelection st x).selectedItems x = !setHas st.selectedItems x ∧
    (∀ y, y ≠ x →
      setHas (toggleSelection st x).selectedItems y = setHas st.selectedItems y) ∧
    (setHas st.selectedItems x = true →
      (toggleSelection st x).selectedItems.length + 1 = st.selectedItems.length) ∧
    (setHas st.selectedItems x = false →
      (toggleSelection st x).selectedItems.length = st.selectedItems.length + 1) ∧
    (toggleSelection st x).selectedItems.Nodup ∧
    (∀ (heap : SetHeap) (ref : Nat), ref < heap.cells.length →
      heap.read ref = st.selectedItems →
      (toggleSelectionRef heap ref x).1.read ref = st.selectedItems ∧
      (toggleSelectionRef heap ref x).2 ≠ ref ∧
      (toggleSelectionRef heap ref x).1.read (toggleSelectionRef heap ref x).2 =
        (toggleSelection st x).selectedItems) ∧
    (toggleSelection (toggleSelection st x) x).selectedItems.Perm st.selectedItems ∧
    (∀ y, setHas (toggleSelection (toggleSelection st x) x).selectedItems y =
      setHas st.selectedItems y) ∧
    { toggleSelection st x with selectedItems := st.selectedItems } = st := by
  refine ⟨toggleSelection_has_self st x hx, fun y hy => toggleSelection_has_ne st x y hy,
    ?_, ?_, toggleSelection_nodup st x hx hnd,
    fun heap ref hlive hread => toggleSelectionRef_frame heap st ref x hlive hread,
    toggleSelection_twice_perm st x hx hnd, ?_, rfl⟩
  · intro h
    rw [toggleSelection_of_has st x h]
    exact length_setDelete st.selectedItems x hnd h
  · intro h
    have hmem : x ∉ st.selectedItems := by
      intro hm
      rw [(setHas_iff_mem _ _ hx).2 hm] at h
      exact Bool.noConfusion h
    rw [toggleSelection_of_not_has st x h, setAdd_of_not_mem _ _ hmem]
    simp
  · intro y
    by_cases hy : y = x
    · rw [hy, toggleSelection_has_self _ x hx, toggleSelection_has_self st x hx,
        Bool.not_not]
    · rw [toggleSelection_has_ne _ x y hy, toggleSelection_has_ne st x y hy]

/-- C26, at a concrete input: with the ids 1 and 2 selected, toggling 1 leaves
one id, 2; toggling 1 again gives two ids, a permutation of the first
selection. -/
theorem toggleSelection_flips_witness :
    setHas (toggleSelection bothSelected (JsVal.num 1)).selectedItems (JsVal.num 1) =
      !setHas bothSelected.selectedItems (JsVal.num 1) ∧
    (toggleSelection bothSelected (JsVal.num 1)).selectedItems = [JsVal.num 2] ∧
    (toggleSelection (toggleSelection bothSelected (JsVal.num 1))
      (JsVal.num 1)).selectedItems.Perm [JsVal.num 1, JsVal.num 2] :=
  ⟨(toggleSelection_flips bothSelected (JsVal.num 1) rfl (by simp [bothSelected])).1,
    by simp [toggleSelection, bothSelected, setHas, setDelete, sameValueZero],
    (toggleSelection_flips bothSelected (JsVal.num 1) rfl
      (by simp [bothSelected])).2.2.2.2.2.2.1⟩

/-- Reading `item.id` from items none of which is `null` or `undefined`. -/
theorem mapE_get_id (items : List JsVal) (h : ∀ item ∈ items, item.isNullish = false) :
    mapE (fun item => item.get "id") items =
      Except.ok (items.map (fun item => item.optGet "id")) := by
  induction items with
  | nil => rfl
  | cons a l ih =>
    have ha := get_of_not_nullish a "id" (h a (List.mem_cons_self a l))
    have hl := ih (fun item hi => h item (List.mem_cons_of_mem a hi))
    simp [mapE, ha, hl]

/-- The keys of a `Set` after adding the elements of an array. -/
theorem mem_foldl_setAdd (elements : List JsVal) :
    ∀ (acc : List JsVal) (y : JsVal),
      y ∈ elements.foldl setAdd acc ↔ y ∈ acc ∨ y ∈ elements := by
  induction elements with
  | nil => intro acc y; simp
  | cons a l ih =>
    intro acc y
    rw [List.foldl_cons, ih, mem_setAdd, List.mem_cons, or_assoc]

/-- Adding primitive elements keeps the keys listed once. -/
theorem nodup_foldl_setAdd (elements : List JsVal)
    (h : ∀ y ∈ elements, y.isPrimitive = true) :
    ∀ acc : List JsVal, acc.Nodup → (elements.foldl setAdd acc).Nodup := by
  induction elements with
  | nil => intro acc hacc; exact hacc
  | cons a l ih =>
    intro acc hacc
    rw [List.foldl_cons]
    refine ih (fun y hy => h y (List.mem_cons_of_mem a hy)) _ ?_
    unfold setAdd
    cases ha : setHas acc a with
    | true => simpa using hacc
    | false =>
      have hmem : a ∉ acc := by
        intro hm
        rw [(setHas_iff_mem _ _ (h a (List.mem_cons_self a l))).2 hm] at ha
        exact Bool.noConfusion ha
      simp only [Bool.false_eq_true, if_false]
      rw [List.nodup_append]
      refine ⟨hacc, List.nodup_singleton a, ?_⟩
      intro b hb hba
      rw [List.mem_singleton] at hba
      exact hmem (hba ▸ hb)

/-- Adding pairwise distinct new elements appends them in order. -/
theorem foldl_setAdd_of_nodup (elements : List JsVal) :
    ∀ acc : List JsVal, (acc ++ elements).Nodup → elements.foldl setAdd acc = acc ++ elements := by
  induction elements with
  | nil => intro acc _; simp
  | cons a l ih =>
    intro acc hnd
    have hmem : a ∉ acc := by
      intro hm
      rw [List.nodup_append] at hnd
      exact hnd.2.2 hm (List.mem_cons_self a l)
    rw [List.foldl_cons, setAdd_of_not_mem _ _ hmem, ih _ (by simpa using hnd)]
    simp

/-- C27: after `selectAll` (the loaded items being objects with primitive ids)
the selection is exactly the set of ids of the loaded files and folders,
whatever the selection was before, and nothing else of the state changes; with
pairwise distinct ids its size is `files.length + folders.length` and the
select-all checkbox of `TrashPage` is checked; after `clearSelection` the
selection is empty. -/
theorem selectAll_selects_loaded (st : FileState)
    (hitems : ∀ item ∈ st.files ++ st.folders, item.isNullish = false)
    (hids : ∀ y ∈ loadedIds st, y.isPrimitive = true) :
    ∃ all : FileState, selectAll st = Except.ok all ∧
      { all with selectedItems := st.selectedItems } = st ∧
      (∀ y, setHas all.selectedItems y = true ↔ y ∈ loadedIds st) ∧
      all.selectedItems.Nodup ∧
      (∀ before, selectAll { st with selectedItems := before } = Except.ok all) ∧
      ((loadedIds st).Nodup →
        all.selectedItems = loadedIds st ∧
        all.selectedItems.length = st.files.length + st.folders.length ∧
        TrashPage.selectAllChecked all = true) ∧
      (clearSelection all).selectedItems = [] ∧
      (clearSelection st).selectedItems = [] := by
  have hmap := mapE_get_id (st.files ++ st.folders) hitems
  refine ⟨{ st with selectedItems := newSet (loadedIds st) }, ?_, rfl, ?_, ?_, ?_, ?_, rfl, rfl⟩
  · simp [selectAll, hmap, loadedIds]
  · intro y
    constructor
    · intro h
      have := (mem_foldl_setAdd (loadedIds st) [] y).1 (mem_of_setHas _ _ h)
      simpa using this
    · intro h
      exact (setHas_iff_mem _ _ (hids y h)).2
        ((mem_foldl_setAdd (loadedIds st) [] y).2 (Or.inr h))
  · exact nodup_foldl_setAdd (loadedIds st) hids [] List.nodup_nil
  · intro before
    simp [selectAll, hmap, loadedIds]
  · intro hnd
    have hsel : newSet (loadedIds st) = loadedIds st := by
      simpa [newSet] using foldl_setAdd_of_nodup (loadedIds st) [] (by simpa using hnd)
    refine ⟨hsel, ?_, ?_⟩
    · show (newSet (loadedIds st)).length = _
      rw [hsel]
      simp [loadedIds]
    · show decide ((newSet (loadedIds st)).length = (st.folders ++ st.files).length) = true
      rw [hsel]
      simp [loadedIds, Nat.add_comm]

/-- C27, at a concrete input: with the sample file and the sample folder loaded
and a stale id selected, `selectAll` selects the ids 2 and 1, and the checkbox
is checked. -/
theorem selectAll_selects_loaded_witness :
    ∃ all : FileState, selectAll loadedFolder = Except.ok all ∧
      all.selectedItems = [JsVal.num 2, JsVal.num 1] ∧
      TrashPage.selectAllChecked all = true :=
  have h := selectAll_selects_loaded loadedFolder
    (by
      intro item hi
      simp only [loadedFolder, FileState.initial, List.mem_append, List.mem_singleton] at hi
      rcases hi with rfl | rfl <;> rfl)
    (by
      intro y hy
      simp only [loadedIds, loadedFolder, FileState.initial, List.map_append, List.map_cons,
        List.map_nil, List.mem_append, List.mem_singleton] at hy
      rcases hy with rfl | rfl <;> rfl)
  match h with
  | ⟨all, hall, _, _, _, _, hdistinct, _, _⟩ =>
    ⟨all, hall,
      (hdistinct (by
        simp [loadedIds, loadedFolder, FileState.initial, sampleFile, sampleFolder,
          JsVal.optGet, lookupField])).1,
      (hdistinct (by
        simp [loadedIds, loadedFolder, FileState.initial, sampleFile, sampleFolder,
          JsVal.optGet, lookupField])).2.2⟩

/-! ### The upload queue -/

/-- Every call of `setFiles` keeps the statuses among the four. -/
theorem update_valid (files : List FileUpload.Entry) (u : FileUpload.Update)
    (h : ∀ f ∈ files, validStatus f.status = true) :
    ∀ f ∈ FileUpload.Update.apply files u, validStatus f.status = true := by
  intro f hf
  cases u with
  | onDrop acceptedFiles =>
    simp only [FileUpload.Update.apply, List.mem_append, List.mem_map] at hf
    rcases hf with hf | ⟨a, _, rfl⟩
    · exact h f hf
    · rfl
  | uploading id =>
    simp only [FileUpload.Update.apply, FileUpload.setStatus, List.mem_map] at hf
    obtain ⟨g, hg, rfl⟩ := hf
    by_cases hid : g.id = id
    · simp only [hid, if_true]; rfl
    · simp only [hid, if_false]; exact h g hg
  | success id =>
    simp only [FileUpload.Update.apply, FileUpload.setStatus, List.mem_map] at hf
    obtain ⟨g, hg, rfl⟩ := hf
    by_cases hid : g.id = id
    · simp only [hid, if_true]; rfl
    · simp only [hid, if_false]; exact h g hg
  | failed id message =>
    simp only [FileUpload.Update.apply, FileUpload.setFailed, List.mem_map] at hf
    obtain ⟨g, hg, rfl⟩ := hf
    by_cases hid : g.id = id
    · simp only [hid, if_true]; rfl
    · simp only [hid, if_false]; exact h g hg
  | removeFile id =>
    simp only [FileUpload.Update.apply] at hf
    exact h f (List.mem_filter.1 hf).1
  | clearAll => simp [FileUpload.Update.apply] at hf

/-- Any sequence of calls of `setFiles` keeps the statuses among the four. -/
theorem updates_valid (updates : List FileUpload.Update) :
    ∀ files : List FileUpload.Entry, (∀ f ∈ files, validStatus f.status = true) →
      ∀ f ∈ updates.foldl FileUpload.Update.apply files, validStatus f.status = true := by
  induction updates with
  | nil => intro files h; exact h
  | cons u rest ih =>
    intro files h
    exact ih _ (update_valid files u h)

/-- The callback of `handleUpload` changes the queue by calls of `setFiles`
only. -/
theorem uploadOne_updates (r : Except JsVal OpResult) (fileObj : FileUpload.Entry)
    (cur : FileUpload.State) :
    ∃ updates : List FileUpload.Update,
      (FileUpload.uploadOne r fileObj cur).1.files =
        updates.foldl FileUpload.Update.apply cur.files := by
  unfold FileUpload.uploadOne
  cases r with
  | error thrown =>
    cases hm : thrown.get "message" with
    | error rethrown =>
      exact ⟨[FileUpload.Update.uploading fileObj.id],
        by simp [FileUpload.uploadCaught, hm, FileUpload.Update.apply]⟩
    | ok message =>
      exact ⟨[FileUpload.Update.uploading fileObj.id, FileUpload.Update.failed fileObj.id message],
        by simp [FileUpload.uploadCaught, hm, FileUpload.Update.apply]⟩
  | ok res =>
    have hm : FileUpload.notAConstructor.get "message" =
        Except.ok (FileUpload.notAConstructor.optGet "message") := rfl
    cases hs : res.success with
    | true =>
      exact ⟨[FileUpload.Update.uploading fileObj.id, FileUpload.Update.success fileObj.id],
        by simp [hs, FileUpload.Update.apply]⟩
    | false =>
      exact ⟨[FileUpload.Update.uploading fileObj.id,
        FileUpload.Update.failed fileObj.id (FileUpload.notAConstructor.optGet "message")],
        by simp [hs, FileUpload.uploadCaught, hm, FileUpload.Update.apply]⟩

/-- The callbacks of `handleUpload` change the queue by calls of `setFiles`
only. -/
theorem uploadAll_updates (result : FileUpload.Entry → Except JsVal OpResult)
    (todo : List FileUpload.Entry) :
    ∀ cur : FileUpload.State, ∃ updates : List FileUpload.Update,
      (FileUpload.uploadAll result todo cur).1.files =
        updates.foldl FileUpload.Update.apply cur.files := by
  induction todo with
  | nil => intro cur; exact ⟨[], rfl⟩
  | cons fileObj rest ih =>
    intro cur
    obtain ⟨us, hus⟩ := uploadOne_updates (result fileObj) fileObj cur
    obtain ⟨vs, hvs⟩ := ih (FileUpload.uploadOne (result fileObj) fileObj cur).1
    refine ⟨us ++ vs, ?_⟩
    simp only [FileUpload.uploadAll, List.foldl_append]
    rw [hvs, hus]

/-- A run of `handleUpload` changes the queue by calls of `setFiles` only. -/
theorem handleUpload_updates (st : FileUpload.State) (user : JsVal)
    (result : FileUpload.Entry → Except JsVal OpResult) :
    ∃ updates : List FileUpload.Update,
      (FileUpload.handleUpload st user result).state.files =
        updates.foldl FileUpload.Update.apply st.files := by
  unfold FileUpload.handleUpload
  split
  · exact ⟨[], rfl⟩
  · obtain ⟨us, hus⟩ := uploadAll_updates result
      (st.files.filter (fun f => f.status = "pending")) { st with uploading := true }
    refine ⟨us, ?_⟩
    dsimp only
    split <;> exact hus

/-- The callback leaves the id of its entry as it is. -/
theorem finishWith_id (r : Except JsVal OpResult) (f : FileUpload.Entry) :
    (FileUpload.finishWith r f).id = f.id := by
  unfold FileUpload.finishWith
  cases r with
  | error thrown => rfl
  | ok res => cases hs : res.success <;> simp [hs]

/-- The statuses the callback can leave. -/
theorem finishWith_status (r : Except JsVal OpResult) (f : FileUpload.Entry) :
    (FileUpload.finishWith r f).status = "success" ∨
      (FileUpload.finishWith r f).status = "error" := by
  unfold FileUpload.finishWith
  cases r with
  | error thrown => exact Or.inr rfl
  | ok res => cases hs : res.success <;> simp [hs]

/-- The queue after the callback of one entry, when the awaited call does not
reject with `null` or `undefined`: the entries with the id of that entry are
finished, and the callback resolves. -/
theorem uploadOne_files (r : Except JsVal OpResult) (fileObj : FileUpload.Entry)
    (cur : FileUpload.State)
    (hrej : ∀ thrown, r = Except.error thrown → thrown.isNullish = false) :
    (FileUpload.uploadOne r fileObj cur).1.files =
        cur.files.map (fun f => if f.id = fileObj.id then FileUpload.finishWith r f else f) ∧
      (FileUpload.uploadOne r fileObj cur).2 = Except.ok () := by
  unfold FileUpload.uploadOne
  cases r with
  | error thrown =>
    have hm := get_of_not_nullish thrown "message" (hrej thrown rfl)
    simp only [FileUpload.uploadCaught, hm, FileUpload.setFailed, FileUpload.setStatus,
      List.map_map, and_true]
    apply List.map_congr_left
    intro f _
    by_cases hid : f.id = fileObj.id
    · simp [hid, FileUpload.finishWith]
    · simp [hid]
  | ok res =>
    cases hs : res.success with
    | true =>
      simp only [hs, if_true, FileUpload.setStatus, List.map_map, and_true]
      apply List.map_congr_left
      intro f _
      by_cases hid : f.id = fileObj.id
      · simp [hid, FileUpload.finishWith, hs]
      · simp [hid]
    | false =>
      have hm : FileUpload.notAConstructor.get "message" =
          Except.ok (FileUpload.notAConstructor.optGet "message") := rfl
      simp only [hs, Bool.false_eq_true, if_false, FileUpload.uploadCaught, hm,
        FileUpload.setFailed, FileUpload.setStatus, List.map_map, and_true]
      apply List.map_congr_left
      intro f _
      by_cases hid : f.id = fileObj.id
      · simp [hid, FileUpload.finishWith, hs]
      · simp [hid]

/-- What the callbacks of the entries `todo`, in order, make of one entry. -/
theorem uploadAll_files (result : FileUpload.Entry → Except JsVal OpResult)
    (hrej : ∀ f thrown, result f = Except.error thrown → thrown.isNullish = false)
    (todo : List FileUpload.Entry) :
    ∀ cur : FileUpload.State,
      (FileUpload.uploadAll result todo cur).1.files =
          cur.files.map (fun f => todo.foldl
            (fun g t => if g.id = t.id then FileUpload.finishWith (result t) g else g) f) ∧
        (FileUpload.uploadAll result todo cur).2 = Except.ok () := by
  induction todo with
  | nil => intro cur; simp [FileUpload.uploadAll]
  | cons t rest ih =>
    intro cur
    obtain ⟨hone, hval⟩ := uploadOne_files (result t) t cur (hrej t)
    obtain ⟨hrest, hvals⟩ := ih (FileUpload.uploadOne (result t) t cur).1
    simp only [FileUpload.uploadAll, hval, hvals, and_true]
    rw [hrest, hone, List.map_map]
    rfl

/-- The callbacks of entries with other ids leave an entry as it is. -/
theorem callbacks_other (result : FileUpload.Entry → Except JsVal OpResult)
    (todo : List FileUpload.Entry) (f : FileUpload.Entry)
    (h : ∀ t ∈ todo, f.id ≠ t.id) :
    todo.foldl (fun g t => if g.id = t.id then FileUpload.finishWith (result t) g else g) f =
      f := by
  induction todo with
  | nil => rfl
  | cons t rest ih =>
    have ht : f.id ≠ t.id := h t (List.mem_cons_self t rest)
    simp only [List.foldl_cons, ht, if_false]
    exact ih (fun u hu => h u (List.mem_cons_of_mem t hu))

/-- The callbacks of entries with pairwise distinct ids finish each of these
entries with its own result. -/
theorem callbacks_own (result : FileUpload.Entry → Except JsVal OpResult)
    (todo : List FileUpload.Entry) (f : FileUpload.Entry)
    (hids : (todo.map (fun t => t.id)).Nodup) (hf : f ∈ todo) :
    todo.foldl (fun g t => if g.id = t.id then FileUpload.finishWith (result t) g else g) f =
      FileUpload.finishWith (result f) f := by
  induction todo with
  | nil => simp at hf
  | cons t rest ih =>
    rw [List.map_cons, List.nodup_cons] at hids
    rcases List.mem_cons.1 hf with rfl | hrest
    · simp only [List.foldl_cons, if_true]
      apply callbacks_other
      intro u hu hid
      rw [finishWith_id] at hid
      exact hids.1 (hid ▸ List.mem_map_of_mem (fun t => t.id) hu)
    · have hne : f.id ≠ t.id := by
        intro hid
        exact hids.1 (hid ▸ List.mem_map_of_mem (fun t => t.id) hrest)
      simp only [List.foldl_cons, hne, if_false]
      exact ih hids.2 hrest

/-- Entries of a list with pairwise distinct ids that share an id are one
entry. -/
theorem entry_eq_of_id_eq (files : List FileUpload.Entry)
    (hids : (files.map (fun f => f.id)).Nodup) (f g : FileUpload.Entry)
    (hf : f ∈ files) (hg : g ∈ files) (hid : f.id = g.id) : f = g := by
  induction files with
  | nil => simp at hf
  | cons a l ih =>
    rw [List.map_cons, List.nodup_cons] at hids
    rcases List.mem_cons.1 hf with hfa | hfl
    · rcases List.mem_cons.1 hg with hga | hgl
      · rw [hfa, hga]
      · exact absurd (by rw [← hfa, hid]; exact List.mem_map_of_mem (fun t => t.id) hgl)
          hids.1
    · rcases List.mem_cons.1 hg with hga | hgl
      · exact absurd (by rw [← hga, ← hid]; exact List.mem_map_of_mem (fun t => t.id) hfl)
          hids.1
      · exact ih hids.2 hfl hgl

/-- The queue a run of `handleUpload` leaves. -/
theorem handleUpload_files (st : FileUpload.State) (user : JsVal)
    (result : FileUpload.Entry → Except JsVal OpResult)
    (hids : (st.files.map (fun f => f.id)).Nodup)
    (hrej : ∀ f thrown, result f = Except.error thrown → thrown.isNullish = false)
    (huser : (user.optGet "id").truthy = true) :
    (FileUpload.handleUpload st user result).state.files =
        st.files.map (fun f =>
          if f.status = "pending" then FileUpload.finishWith (result f) f else f) ∧
      (FileUpload.handleUpload st user result).value = Except.ok () := by
  by_cases hempty : st.files.length = 0
  · have hnil : st.files = [] := List.length_eq_zero.1 hempty
    simp [FileUpload.handleUpload, hnil]
  · obtain ⟨hfiles, hval⟩ := uploadAll_files result hrej
      (st.files.filter (fun f => f.status = "pending")) { st with uploading := true }
    have hpend : (((st.files.filter (fun f => f.status = "pending")).map
        (fun t => t.id))).Nodup :=
      hids.sublist (List.Sublist.map _ (List.filter_sublist _))
    simp only [FileUpload.handleUpload, huser, hempty, Bool.not_true, Bool.false_or,
      decide_False, Bool.false_eq_true, if_false, hval]
    refine ⟨?_, trivial⟩
    show (FileUpload.uploadAll result _ _).1.files = _
    rw [hfiles]
    apply List.map_congr_left
    intro f hf
    by_cases hp : f.status = "pending"
    · simp only [hp, if_true]
      exact callbacks_own result _ f hpend (List.mem_filter.2 ⟨hf, by simp [hp]⟩)
    · simp only [hp, if_false]
      apply callbacks_other
      intro t ht hid
      have htm := List.mem_filter.1 ht
      have := entry_eq_of_id_eq st.files hids f t hf htm.1 hid
      rw [this] at hp
      exact hp (by simpa using htm.2)

/-- The callbacks consult the awaited results of their own entries only. -/
theorem uploadAll_congr (result other : FileUpload.Entry → Except JsVal OpResult)
    (todo : List FileUpload.Entry) (h : ∀ f ∈ todo, other f = result f) :
    ∀ cur : FileUpload.State,
      FileUpload.uploadAll other todo cur = FileUpload.uploadAll result todo cur := by
  induction todo with
  | nil => intro cur; rfl
  | cons t rest ih =>
    intro cur
    simp only [FileUpload.uploadAll, h t (List.mem_cons_self t rest),
      ih (fun f hf => h f (List.mem_cons_of_mem t hf))]

/-- A run of `handleUpload` consults the awaited results of the pending entries
only. -/
theorem handleUpload_congr (st : FileUpload.State) (user : JsVal)
    (result other : FileUpload.Entry → Except JsVal OpResult)
    (h : ∀ f ∈ st.files, f.status = "pending" → other f = result f) :
    FileUpload.handleUpload st user other = FileUpload.handleUpload st user result := by
  have hall := uploadAll_congr result other (st.files.filter (fun f => f.status = "pending"))
    (fun f hf => h f (List.mem_filter.1 hf).1 (by simpa using (List.mem_filter.1 hf).2))
    { st with uploading := true }
  unfold FileUpload.handleUpload
  simp only [hall]

/-- What the callback makes of a pending entry, spelled out. -/
theorem finishWith_spec (r : Except JsVal OpResult) (f : FileUpload.Entry) :
    (FileUpload.finishWith r f).id = f.id ∧
    (FileUpload.finishWith r f).file = f.file ∧
    ((FileUpload.finishWith r f).status = "success" ∨
      (FileUpload.finishWith r f).status = "error") ∧
    ((FileUpload.finishWith r f).status = "success" ↔
      ∃ res, r = Except.ok res ∧ res.success = true) ∧
    (∀ res, r = Except.ok res → res.success = false →
      (FileUpload.finishWith r f).error = FileUpload.notAConstructor.optGet "message") := by
  refine ⟨finishWith_id r f, ?_, finishWith_status r f, ?_, ?_⟩
  · unfold FileUpload.finishWith
    cases r with
    | error thrown => rfl
    | ok res => cases hs : res.success <;> simp [hs]
  · unfold FileUpload.finishWith
    cases r with
    | error thrown => simp
    | ok res => cases hs : res.success <;> simp [hs]
  · intro res hr hs
    subst hr
    simp [FileUpload.finishWith, hs]

/-- What holds of the upload queue in general.  Every call of `setFiles` in the
upload component keeps the status of every queue entry among `pending`,
`uploading`, `success` and `error`, and `handleUpload` changes the queue by such
calls only.  For a logged-in user, a queue with pairwise distinct entry ids and
awaited `uploadFile` calls that do not reject with `null` or `undefined`,
`handleUpload` completes, and then every entry that was pending has the status
`success` if its `uploadFile` returned `success` and the status `error`
otherwise, never `pending` or `uploading`; the error stored with a returned
failure is the message of the `TypeError` of `notAConstructor`, whatever error
was returned; the entries that were not pending are as they were, and no awaited
result of theirs is consulted. -/
theorem handleUpload_pending_entries (st : FileUpload.State) (user : JsVal)
    (result : FileUpload.Entry → Except JsVal OpResult)
    (hids : (st.files.map (fun f => f.id)).Nodup)
    (hrej : ∀ f thrown, result f = Except.error thrown → thrown.isNullish = false)
    (huser : (user.optGet "id").truthy = true) :
    (∀ updates : List FileUpload.Update,
      ∀ f ∈ updates.foldl FileUpload.Update.apply [], validStatus f.status = true) ∧
    (∃ updates : List FileUpload.Update,
      (FileUpload.handleUpload st user result).state.files =
        updates.foldl FileUpload.Update.apply st.files) ∧
    (FileUpload.handleUpload st user result).value = Except.ok () ∧
    (FileUpload.handleUpload st user result).state.files =
      st.files.map (fun f =>
        if f.status = "pending" then FileUpload.finishWith (result f) f else f) ∧
    (∀ (i : Nat) (f : FileUpload.Entry), st.files.get? i = some f →
      ∃ g, (FileUpload.handleUpload st user result).state.files.get? i = some g ∧
        g.id = f.id ∧ g.file = f.file ∧
        (f.status ≠ "pending" → g = f) ∧
        (f.status = "pending" →
          (g.status = "success" ∨ g.status = "error") ∧
          g.status ≠ "pending" ∧ g.status ≠ "uploading" ∧
          (g.status = "success" ↔ ∃ res, result f = Except.ok res ∧ res.success = true) ∧
          (∀ res, result f = Except.ok res → res.success = false →
            g.error = FileUpload.notAConstructor.optGet "message"))) ∧
    (∀ other : FileUpload.Entry → Except JsVal OpResult,
      (∀ f ∈ st.files, f.status = "pending" → other f = result f) →
      FileUpload.handleUpload st user other = FileUpload.handleUpload st user result) := by
  obtain ⟨hfiles, hval⟩ := handleUpload_files st user result hids hrej huser
  refine ⟨fun updates => updates_valid updates [] (by simp),
    handleUpload_updates st user result, hval, hfiles, ?_,
    fun other h => handleUpload_congr st user result other h⟩
  intro i f hi
  by_cases hp : f.status = "pending"
  · obtain ⟨hid, hfile, hstat, hiff, herr⟩ := finishWith_spec (result f) f
    refine ⟨FileUpload.finishWith (result f) f, ?_, hid, hfile, fun hn => absurd hp hn,
      fun _ => ⟨hstat, ?_, ?_, hiff, herr⟩⟩
    · rw [hfiles, List.get?_eq_getElem?, List.getElem?_map, ← List.get?_eq_getElem?, hi]
      simp [hp]
    · rcases hstat with h | h <;> rw [h] <;> decide
    · rcases hstat with h | h <;> rw [h] <;> decide
  · refine ⟨f, ?_, rfl, rfl, fun _ => rfl, fun h => absurd h hp⟩
    rw [hfiles, List.get?_eq_getElem?, List.getElem?_map, ← List.get?_eq_getElem?, hi]
    simp [hp]

/-- C21, on the code: a logged-in user runs `handleUpload` on a queue with one
entry waiting and one uploaded by an earlier run, and `uploadFile` returns
`success: false` with the error `File already exists`.  The statuses end as
`error` and `success`, but the error stored with the failed entry is not the
returned `File already exists`: it is the message of the `TypeError` that
`throw new Error(result.error)` raises, `Error` being the icon imported from
`@mui/icons-material`.  The stored text is the same whatever error `uploadFile`
returns. -/
theorem upload_error_message_lost :
    (FileUpload.handleUpload sampleQueue sampleUser
        (fun _ => Except.ok (OpResult.failure (JsVal.str "File already exists")))
        ).state.files.map (fun f => f.status) = ["error", "success"] ∧
    (FileUpload.handleUpload sampleQueue sampleUser
        (fun _ => Except.ok (OpResult.failure (JsVal.str "File already exists")))
        ).state.files.map (fun f => f.error) =
      [JsVal.str "Error is not a constructor", JsVal.null] ∧
    (∀ returned : JsVal,
      (FileUpload.handleUpload sampleQueue sampleUser
          (fun _ => Except.ok (OpResult.failure returned))).state.files.map (fun f => f.error) =
        [JsVal.str "Error is not a constructor", JsVal.null]) :=
  ⟨rfl, rfl, fun _ => rfl⟩

/-! ### The OTP form -/

/-- The class `\d` holds the ten decimal digits. -/
theorem isDigitChar_iff (c : Char) :
    LoginPage.isDigitChar c = true ↔ c ∈ "0123456789".data := by
  unfold LoginPage.isDigitChar
  simp only [decide_eq_true_eq]
  constructor
  · rintro ⟨h1, h2⟩
    have hc : c = Char.ofNat c.toNat := (Char.ofNat_toNat c).symm
    generalize c.toNat = n at h1 h2 hc
    subst hc
    interval_cases n <;> decide
  · intro h
    simp only [List.mem_cons, List.mem_singleton, List.not_mem_nil, or_false] at h
    rcases h with rfl | rfl | rfl | rfl | rfl | rfl | rfl | rfl | rfl | rfl <;> decide

/-- The test of `handleOtpChange` accepts the empty value and the values of one
decimal digit, and no other. -/
theorem isOtpInput_iff (value : String) : LoginPage.isOtpInput value = true ↔ OtpBox value := by
  constructor
  · intro h
    unfold LoginPage.isOtpInput at h
    split at h
    · rename_i hd
      exact Or.inl (String.ext hd)
    · rename_i c hd
      exact Or.inr ⟨c, (isDigitChar_iff c).1 h, String.ext hd⟩
    · exact Bool.noConfusion h
  · rintro (rfl | ⟨c, hc, rfl⟩)
    · rfl
    · exact (isDigitChar_iff c).2 hc

/-- One `handleOtpChange` with an index from 0 to 5 keeps six boxes, each empty
or one digit, and touches no other cell. -/
theorem handleOtpChange_valid (st : LoginPage.State) (index : Nat) (value : String)
    (hidx : index ≤ 5) (hlen : st.otp.length = 6) (hbox : ∀ s ∈ st.otp, OtpBox s) :
    (LoginPage.handleOtpChange st index value).1.otp.length = 6 ∧
    (∀ s ∈ (LoginPage.handleOtpChange st index value).1.otp, OtpBox s) ∧
    (LoginPage.handleOtpChange st index value).1.email = st.email := by
  unfold LoginPage.handleOtpChange
  cases hv : LoginPage.isOtpInput value with
  | false => exact ⟨hlen, hbox, rfl⟩
  | true =>
    have hlt : index < st.otp.length := by omega
    simp only [Bool.not_true, Bool.false_eq_true, if_false, LoginPage.arraySet, hlt, if_true]
    refine ⟨by rw [List.length_set]; exact hlen, ?_, trivial⟩
    intro s hs
    rcases List.mem_or_eq_of_mem_set hs with h | h
    · exact hbox s h
    · rw [h]
      exact (isOtpInput_iff value).1 hv

/-- Any sequence of `handleOtpChange` calls with indices from 0 to 5 keeps six
boxes, each empty or one digit. -/
theorem afterChanges_valid (changes : List (Nat × String))
    (hidx : ∀ change ∈ changes, change.1 ≤ 5) :
    ∀ st : LoginPage.State, st.otp.length = 6 → (∀ s ∈ st.otp, OtpBox s) →
      (LoginPage.afterChanges st changes).otp.length = 6 ∧
      (∀ s ∈ (LoginPage.afterChanges st changes).otp, OtpBox s) ∧
      (LoginPage.afterChanges st changes).email = st.email := by
  induction changes with
  | nil => intro st hlen hbox; exact ⟨hlen, hbox, rfl⟩
  | cons change rest ih =>
    intro st hlen hbox
    obtain ⟨h1, h2, h3⟩ := handleOtpChange_valid st change.1 change.2
      (hidx change (List.mem_cons_self change rest)) hlen hbox
    obtain ⟨k1, k2, k3⟩ := ih (fun c hc => hidx c (List.mem_cons_of_mem change hc)) _ h1 h2
    exact ⟨k1, k2, k3.trans h3⟩

/-- The characters of strings appended from the left. -/
theorem foldl_append_data (l : List String) : ∀ acc : String,
    (l.foldl (fun r s => r ++ s) acc).data = acc.data ++ (l.map String.data).flatten := by
  induction l with
  | nil => intro acc; simp
  | cons a l ih => intro acc; simp [ih, String.data_append]

/-- The characters of `array.join('')`. -/
theorem join_data (l : List String) : (String.join l).data = (l.map String.data).flatten := by
  unfold String.join
  rw [foldl_append_data]
  rfl

/-- The text joined from boxes that are empty or one digit holds digits only,
one per box that is not empty. -/
theorem join_boxes (l : List String) (hbox : ∀ s ∈ l, OtpBox s) :
    (∀ c ∈ (String.join l).data, c ∈ "0123456789".data) ∧
    (String.join l).data.length = l.countP (fun s => decide (s ≠ "")) ∧
    LoginPage.jsLength (String.join l) = l.countP (fun s => decide (s ≠ "")) := by
  induction l with
  | nil => simp [join_data, LoginPage.jsLength]
  | cons a l ih =>
    obtain ⟨h1, h2, h3⟩ := ih (fun s hs => hbox s (List.mem_cons_of_mem a hs))
    simp only [LoginPage.jsLength, join_data] at h1 h2 h3 ⊢
    rcases hbox a (List.mem_cons_self a l) with rfl | ⟨c, hc, rfl⟩
    · simp only [List.map_cons, List.flatten_cons]
      refine ⟨fun c hc => h1 c (by simpa using hc), ?_, ?_⟩
      · simpa using h2
      · simpa using h3
    · have hne : String.singleton c ≠ "" := by
        intro h
        have := congrArg String.data h
        simp [String.singleton] at this
      have hsize : LoginPage.utf16Size c = 1 := by
        have := (isDigitChar_iff c).2 hc
        simp only [LoginPage.isDigitChar, decide_eq_true_eq] at this
        simp only [LoginPage.utf16Size]
        rw [if_pos (by omega)]
      have hdata : (String.singleton c).data = [c] := rfl
      simp only [List.map_cons, List.flatten_cons, hdata, List.singleton_append,
        List.countP_cons, hne, ne_eq, not_false_eq_true, decide_True, if_true, List.length_cons,
        List.sum_cons, hsize]
      refine ⟨?_, by rw [h2], by rw [h3, Nat.add_comm]⟩
      intro d hd
      rcases List.mem_cons.1 hd with rfl | hd
      · exact hc
      · exact h1 d hd

/-- The one request of `login`. -/
theorem login_requests (auth : AuthContext.State) (email otp : JsVal) (reply : Outcome) :
    (AuthContext.login auth email otp reply).trace.filter Effect.isRequest =
      [Effect.request (Request.verifyOTP email otp)] := by
  unfold AuthContext.login
  cases reply with
  | reject error => simp [Effect.isRequest, authAPI.verifyOTP]
  | resolve response =>
    cases hd : response.get "data" with
    | error thrown => simp [hd, Effect.isRequest, authAPI.verifyOTP]
    | ok data =>
      cases hu : data.get "user" with
      | error thrown => simp [hd, hu, Effect.isRequest, authAPI.verifyOTP]
      | ok user => simp [hd, hu, Effect.isRequest, authAPI.verifyOTP]

/-- With a text of six code units `handleVerifyOTP` calls `login` with it: the
one request of the handler. -/
theorem handleVerifyOTP_full (st : LoginPage.State) (auth : AuthContext.State)
    (reply : Outcome) (h : LoginPage.jsLength (String.join st.otp) = 6) :
    (LoginPage.handleVerifyOTP st auth reply).trace.filter Effect.isRequest =
      [Effect.request (Request.verifyOTP (JsVal.str st.email)
        (JsVal.str (String.join st.otp)))] := by
  have hlogin := login_requests auth (JsVal.str st.email) (JsVal.str (String.join st.otp)) reply
  unfold LoginPage.handleVerifyOTP
  simp only [h, ne_eq, not_true_eq_false, if_false]
  split
  · exact hlogin
  · split
    · simpa [List.filter_append, Effect.isRequest] using hlogin
    · simpa [List.filter_append, Effect.isRequest] using hlogin

/-- Without a text of six code units `handleVerifyOTP` sets the error and does
nothing else. -/
theorem handleVerifyOTP_short (st : LoginPage.State) (auth : AuthContext.State)
    (reply : Outcome) (h : LoginPage.jsLength (String.join st.otp) ≠ 6) :
    LoginPage.handleVerifyOTP st auth reply =
      { state := { st with error := JsVal.str "Please enter the 6-digit OTP" }
        auth := auth
        trace := []
        value := Except.ok () } := by
  unfold LoginPage.handleVerifyOTP
  simp [h]

/-- C22: in every state of the OTP form reached from six empty boxes by
`handleOtpChange` calls with indices from 0 to 5 there are six boxes, each empty
or one decimal digit, and a value that is neither leaves the state as it is.
Therefore `handleVerifyOTP` calls `login`, that is sends the verify request,
only with a text of exactly six decimal digits, the six boxes joined, which it
does when no box is empty; when a box is empty it sets the error
`Please enter the 6-digit OTP` and does nothing else. -/
theorem otp_boxes_hold_digits (st0 : LoginPage.State) (changes : List (Nat × String))
    (auth : AuthContext.State) (reply : Outcome)
    (hstart : st0.otp = ["", "", "", "", "", ""])
    (hidx : ∀ change ∈ changes, change.1 ≤ 5) :
    (LoginPage.afterChanges st0 changes).otp.length = 6 ∧
    (∀ s ∈ (LoginPage.afterChanges st0 changes).otp, OtpBox s) ∧
    (∀ (st : LoginPage.State) (index : Nat) (value : String), ¬ OtpBox value →
      LoginPage.handleOtpChange st index value = (st, [])) ∧
    ((∀ s ∈ (LoginPage.afterChanges st0 changes).otp, s ≠ "") →
      (LoginPage.handleVerifyOTP (LoginPage.afterChanges st0 changes) auth
          reply).trace.filter Effect.isRequest =
        [Effect.request (Request.verifyOTP (JsVal.str st0.email)
          (JsVal.str (String.join (LoginPage.afterChanges st0 changes).otp)))] ∧
      (String.join (LoginPage.afterChanges st0 changes).otp).data.length = 6 ∧
      ∀ c ∈ (String.join (LoginPage.afterChanges st0 changes).otp).data,
        c ∈ "0123456789".data) ∧
    ((∃ s ∈ (LoginPage.afterChanges st0 changes).otp, s = "") →
      LoginPage.handleVerifyOTP (LoginPage.afterChanges st0 changes) auth reply =
        { state := { LoginPage.afterChanges st0 changes with
            error := JsVal.str "Please enter the 6-digit OTP" }
          auth := auth
          trace := []
          value := Except.ok () }) ∧
    (∀ email otp : JsVal,
      Effect.request (Request.verifyOTP email otp) ∈
        (LoginPage.handleVerifyOTP (LoginPage.afterChanges st0 changes) auth reply).trace →
      ∃ digits : List Char, otp = JsVal.str (String.mk digits) ∧ digits.length = 6 ∧
        ∀ c ∈ digits, c ∈ "0123456789".data) := by
  obtain ⟨hlen, hbox, hemail⟩ := afterChanges_valid changes hidx st0
    (by rw [hstart]; rfl)
    (by rw [hstart]; intro s hs; simp at hs; exact Or.inl hs)
  obtain ⟨hdigits, hcount, hjs⟩ := join_boxes _ hbox
  have hfull : LoginPage.jsLength (String.join (LoginPage.afterChanges st0 changes).otp) = 6 ↔
      ∀ s ∈ (LoginPage.afterChanges st0 changes).otp, s ≠ "" := by
    rw [hjs, ← hlen, List.countP_eq_length]
    simp
  refine ⟨hlen, hbox, ?_, ?_, ?_, ?_⟩
  · intro st index value hv
    have : LoginPage.isOtpInput value = false := by
      cases h : LoginPage.isOtpInput value with
      | false => rfl
      | true => exact absurd ((isOtpInput_iff value).1 h) hv
    simp [LoginPage.handleOtpChange, this]
  · intro hall
    have h6 := hfull.2 hall
    refine ⟨?_, by rw [hcount, ← hjs, h6], hdigits⟩
    rw [← hemail]
    exact handleVerifyOTP_full _ auth reply h6
  · rintro ⟨s, hs, hse⟩
    apply handleVerifyOTP_short
    intro h6
    exact hfull.1 h6 s hs hse
  · intro email otp hmem
    by_cases h6 : LoginPage.jsLength (String.join (LoginPage.afterChanges st0 changes).otp) = 6
    · have hreq := handleVerifyOTP_full _ auth reply h6
      have hin : Effect.request (Request.verifyOTP email otp) ∈
          (LoginPage.handleVerifyOTP (LoginPage.afterChanges st0 changes) auth
            reply).trace.filter Effect.isRequest := List.mem_filter.2 ⟨hmem, rfl⟩
      rw [hreq, List.mem_singleton] at hin
      injection hin with hin
      injection hin with _ hotp
      exact ⟨(String.join (LoginPage.afterChanges st0 changes).otp).data, hotp,
        by rw [hcount, ← hjs, h6], hdigits⟩
    · rw [handleVerifyOTP_short _ auth reply h6] at hmem
      simp at hmem

/-- C22, at a concrete input: a user types 1 and 2, then a letter, then 3, 4, 5
and 6; the six boxes hold digits, and the verify request carries `123456`. -/
theorem otp_boxes_hold_digits_witness :
    (LoginPage.afterChanges LoginPage.State.initial typedChanges).otp =
      ["1", "2", "3", "4", "5", "6"] ∧
    (∀ s ∈ (LoginPage.afterChanges LoginPage.State.initial typedChanges).otp, OtpBox s) ∧
    (LoginPage.handleVerifyOTP (LoginPage.afterChanges LoginPage.State.initial typedChanges)
        signedOut (Outcome.reject conflictError)).trace.filter Effect.isRequest =
      [Effect.request (Request.verifyOTP (JsVal.str "") (JsVal.str "123456"))] :=
  ⟨by decide,
    (otp_boxes_hold_digits LoginPage.State.initial typedChanges signedOut
      (Outcome.reject conflictError) rfl (by decide)).2.1,
    ((otp_boxes_hold_digits LoginPage.State.initial typedChanges signedOut
      (Outcome.reject conflictError) rfl (by decide)).2.2.2.1 (by decide)).1⟩

end CloudKitchen
